import Mathlib

/-! # Acquisition worker of opendigitizer (`src/service/gnuradio/GnuRadioWorker.hpp`)

A shallow embedding of the acquisition worker: the poller caches, the subscription
reconciliation pass, the construction of replies and one iteration of the worker loop.

Conventions of the embedding:

* `std::map` is a list of key/value pairs kept in key order (`StdMap`); the operations do not
  require the list to be duplicate free, theorems that need it assume `StdMap.WF`.
* `float` and `double` are carried as their IEEE-754 bit patterns (`CFloat`, `CDouble`).
* `std::size_t` is a `Nat` reduced modulo `2 ^ 64` wherever the source computes with it.
* a call that may leave by a C++ exception or run into undefined behaviour returns an `Outcome`
  or a `Step`.
* the external collaborators (tap registry, pollers, scheduler messages, graph blocks) are
  explicit arguments.
-/

namespace Acq

/-! ## Scalars -/

/-- The number of values of `std::size_t` on the 64 bit targets of the service. -/
def SIZE_MOD : Nat := 2 ^ 64

/-- The cast `static_cast<std::size_t>(x)` of a signed integer. -/
def toSizeT (x : Int) : Nat := (x % (SIZE_MOD : Int)).toNat

/-- IEEE-754 binary64 value (`double`), carried as its 64 bit pattern. -/
structure CDouble where
  bits : Nat
  deriving DecidableEq, Repr

/-- IEEE-754 binary32 value (`float`), carried as its 32 bit pattern. -/
structure CFloat where
  bits : Nat
  deriving DecidableEq, Repr

namespace CFloat

/-- The value `std::numeric_limits<float>::lowest()`, that is `-FLT_MAX`. -/
def lowest : CFloat := ⟨0xFF7FFFFF⟩

/-- The value `std::numeric_limits<float>::max()`, that is `FLT_MAX`. -/
def max : CFloat := ⟨0x7F7FFFFF⟩

/-- The literal `0.f`. -/
def zero : CFloat := ⟨0⟩

/-- The literal `1.f`. -/
def one : CFloat := ⟨0x3F800000⟩

/-- Whether the pattern is a NaN: exponent all ones, mantissa not zero. -/
def isNaN (x : CFloat) : Bool :=
  (x.bits / 2 ^ 23) % 2 ^ 8 == 255 && x.bits % 2 ^ 23 != 0

/-- The comparison `a == b` of two floats: a NaN differs from everything, the two zeros are equal. -/
def eq (a b : CFloat) : Bool :=
  !a.isNaN && !b.isNaN && (a.bits == b.bits || (a.bits % 2 ^ 31 == 0 && b.bits % 2 ^ 31 == 0))

end CFloat

namespace detail

/-- The conversion `static_cast<float>(v)` of `detail::doubleToFloat`: IEEE-754 narrowing with
round to nearest, ties to even; a NaN keeps its sign and the upper mantissa bits and is made
quiet. A right shift by 60 bits or more leaves nothing of the 53 bit significand, so the shift
stops at 60. -/
def doubleToFloat (v : CDouble) : CFloat :=
  let b := v.bits % 2 ^ 64
  let sign := b / 2 ^ 63
  let e := (b / 2 ^ 52) % 2 ^ 11
  let m := b % 2 ^ 52
  if e = 2047 then
    if m = 0 then ⟨sign * 2 ^ 31 + 255 * 2 ^ 23⟩
    else ⟨sign * 2 ^ 31 + 255 * 2 ^ 23 + 2 ^ 22 + (m / 2 ^ 29) % 2 ^ 22⟩
  else
    let sig := if e = 0 then m else 2 ^ 52 + m
    let ex := if e = 0 then 1 else e
    let shift := if 897 ≤ ex then 29 else Nat.min 60 (29 + (897 - ex))
    let fex := if 897 ≤ ex then ex - 896 else 1
    let q := sig / 2 ^ shift
    let r := sig % 2 ^ shift
    let half := 2 ^ (shift - 1)
    let q1 := if half < r ∨ (r = half ∧ q % 2 = 1) then q + 1 else q
    let mag := if q1 < 2 ^ 23 then q1 else (fex - 1) * 2 ^ 23 + q1
    ⟨sign * 2 ^ 31 + (if 255 * 2 ^ 23 ≤ mag then 255 * 2 ^ 23 else mag)⟩

end detail

/-! ## `std::map` -/

/-- A `std::map<K, V>`: its entries in iteration (key) order. -/
abbrev StdMap (K V : Type) := List (K × V)

namespace StdMap

variable {K V : Type}

/-- Well-formed maps hold at most one entry per key. -/
def WF (m : StdMap K V) : Prop := (m.map Prod.fst).Nodup

/-- The lookup `m.find(k)`: the mapped value, `none` standing for `end()`. -/
def find [DecidableEq K] : StdMap K V → K → Option V
  | [], _ => none
  | (k1, v) :: rest, k => if k1 = k then some v else find rest k

/-- Places a new entry in front of the first entry with a greater key. -/
def insertSorted [Ord K] (k : K) (v : V) : StdMap K V → StdMap K V
  | [] => [(k, v)]
  | (k1, v1) :: rest =>
    if compare k k1 = Ordering.lt then (k, v) :: (k1, v1) :: rest
    else (k1, v1) :: insertSorted k v rest

/-- The call `m.emplace(k, v)`: inserts unless the key is present. -/
def emplace [DecidableEq K] [Ord K] (m : StdMap K V) (k : K) (v : V) : StdMap K V :=
  if (find m k).isSome then m else insertSorted k v m

/-- A write through the iterator returned by `find(k)`. -/
def modify [DecidableEq K] (f : V → V) : StdMap K V → K → StdMap K V
  | [], _ => []
  | (k1, v) :: rest, k => if k1 = k then (k1, f v) :: rest else (k1, v) :: modify f rest k

/-- The call `std::erase_if(m, pred)`. -/
def eraseIf (m : StdMap K V) (pred : K → V → Bool) : StdMap K V :=
  m.filter (fun kv => !pred kv.1 kv.2)

/-- A loop `for (auto& [_, v] : m) v = f(v);` over all entries. -/
def mapValues (f : V → V) (m : StdMap K V) : StdMap K V :=
  m.map (fun kv => (kv.1, f kv.2))

/-- The keys in iteration order. -/
def keys (m : StdMap K V) : List K := m.map Prod.fst

/-- The mapped values in iteration order (`std::views::values`). -/
def values (m : StdMap K V) : List V := m.map Prod.snd

end StdMap

/-! ## Tags and property maps (gnuradio4) -/

/-- The alternatives of the variant `pmtv::pmt` that the worker reads; `other` stands for every
remaining alternative. -/
inductive Pmt
  | string (s : String)
  | float (x : CFloat)
  | double (x : CDouble)
  | integer (x : Int)
  | stringVector (xs : List String)
  | other
  deriving DecidableEq, Repr

/-- The type `gr::property_map`, a `std::map<std::string, pmtv::pmt>`. -/
abbrev property_map := StdMap String Pmt

/-- A stream tag `gr::Tag`. -/
structure Tag where
  index : Int
  map : property_map
  deriving DecidableEq, Repr

/-- The lookup `tag.get(key)`. -/
def Tag.get (tag : Tag) (key : String) : Option Pmt := StdMap.find tag.map key

namespace gr.tag

/-- The key `gr::tag::TRIGGER_NAME.key()`. -/
def TRIGGER_NAME : String := "gr:trigger_name"

/-- The key `gr::tag::SIGNAL_NAME.shortKey()`. -/
def SIGNAL_NAME : String := "signal_name"

/-- The key `gr::tag::SIGNAL_UNIT.shortKey()`. -/
def SIGNAL_UNIT : String := "signal_unit"

/-- The key `gr::tag::SIGNAL_MIN.shortKey()`. -/
def SIGNAL_MIN : String := "signal_min"

/-- The key `gr::tag::SIGNAL_MAX.shortKey()`. -/
def SIGNAL_MAX : String := "signal_max"

end gr.tag

/-- A C++ exception derived from `std::exception`. -/
inductive CppException
  | invalid_argument (what : String)
  | bad_variant_access
  | bad_optional_access
  deriving DecidableEq, Repr

deriving instance DecidableEq for Except

namespace detail

/-- The instance `detail::get<std::string>`: an absent key and a value of another type both give
`none` (the `std::get` exception is caught inside). -/
def get_string (m : property_map) (key : String) : Option String :=
  match StdMap.find m key with
  | some (Pmt.string s) => some s
  | _ => none

/-- The instance `detail::get<float>`. -/
def get_float (m : property_map) (key : String) : Option CFloat :=
  match StdMap.find m key with
  | some (Pmt.float x) => some x
  | _ => none

/-- The instance `detail::get<std::vector<std::string>>`. -/
def get_stringVector (m : property_map) (key : String) : Option (List String) :=
  match StdMap.find m key with
  | some (Pmt.stringVector xs) => some xs
  | _ => none

end detail

/-! ## Acquisition mode and trigger matcher -/

/-- The enumeration `AcquisitionMode`. -/
inductive AcquisitionMode
  | Continuous | Triggered | Multiplexed | Snapshot | DataSet
  deriving DecidableEq, Repr, Ord

/-- The function `parseAcquisitionMode`; the `throw` is the `error` result. -/
def parseAcquisitionMode (v : String) : Except CppException AcquisitionMode :=
  if v = "continuous" then .ok .Continuous
  else if v = "triggered" then .ok .Triggered
  else if v = "multiplexed" then .ok .Multiplexed
  else if v = "snapshot" then .ok .Snapshot
  else if v = "dataset" then .ok .DataSet
  else .error (.invalid_argument ("Invalid acquisition mode \x27" ++ v ++ "\x27"))

/-- The enumeration `gr::trigger::MatchResult`. -/
inductive MatchResult
  | Matching | NotMatching | Ignore
  deriving DecidableEq, Repr

/-- The matcher lambda built in `getDataSetPoller`, with its capture `trigger_name`; the first
and third argument of the lambda are unused. A trigger-name value that is not a string makes
`std::get` throw, which the `catch (...)` turns into `NotMatching`. -/
def matcher (trigger_name : String) (tag : Tag) : MatchResult :=
  let v := tag.get gr.tag.TRIGGER_NAME
  if trigger_name = "" then
    if v.isSome then .Matching else .Ignore
  else
    match v with
    | none => .Ignore
    | some (Pmt.string s) => if s = trigger_name then .Matching else .NotMatching
    | some _ => .NotMatching

/-! ## Fallible computations -/

/-- The kinds of undefined behaviour the worker can run into. -/
inductive UB
  | vector_index
  | span_subspan
  | null_dereference
  deriving DecidableEq, Repr

/-- Result of a computation that may leave by an exception or be undefined. -/
inductive Outcome (α : Type)
  | ok (a : α)
  | thrown (e : CppException)
  | undefined (u : UB)
  deriving DecidableEq, Repr

/-- Sequencing of fallible computations: the first fault ends the computation. -/
def Outcome.bind {α β : Type} (x : Outcome α) (f : α → Outcome β) : Outcome β :=
  match x with
  | .ok a => f a
  | .thrown e => .thrown e
  | .undefined u => .undefined u

instance : Monad Outcome where
  pure := Outcome.ok
  bind := Outcome.bind

/-- Result of a call that works on a state `σ`: the state survives an exception (it is what the
handler that catches the exception sees), undefined behaviour leaves nothing. -/
inductive Step (σ α : Type)
  | done (s : σ) (a : α)
  | thrown (s : σ) (e : CppException)
  | undefined (u : UB)

/-- The unchecked access `xs[i]` of a `std::vector`. -/
def vectorAt {α : Type} (xs : List α) (i : Nat) : Outcome α :=
  match xs[i]? with
  | some x => .ok x
  | none => .undefined .vector_index

/-- The call `xs.subspan(offset, count)` of a `std::span`; `count` equal to
`std::dynamic_extent` takes the rest, and the call is undefined unless `offset <= size()` and
`count <= size() - offset`. -/
def subspan {α : Type} (xs : List α) (offset count : Nat) : Outcome (List α) :=
  if offset ≤ xs.length then
    if count = SIZE_MOD - 1 then .ok (xs.drop offset)
    else if count ≤ xs.length - offset then .ok ((xs.drop offset).take count)
    else .undefined .span_subspan
  else .undefined .span_subspan

/-- The call `xs.resize(n)` of a `std::vector`: cut, or filled up with value-initialised
elements `d`. -/
def resize {α : Type} (xs : List α) (n : Nat) (d : α) : List α :=
  xs.take n ++ List.replicate (n - xs.length) d

/-! ## Keys, filters, replies, datasets -/

/-- The structure `PollerKey`; the defaulted `operator<=>` compares the fields in this order.
The snapshot delay is its count of nanoseconds. -/
structure PollerKey where
  mode : AcquisitionMode
  signal_name : String
  pre_samples : Nat := 0
  post_samples : Nat := 0
  maximum_window_size : Nat := 0
  snapshot_delay : Int := 0
  trigger_name : String := ""
  deriving DecidableEq, Repr, Ord

/-- Modelled from the spec: the subscriber filter `TimeDomainContext` is declared in
`daq_api.hpp`, which is not part of the sources; these are the fields the spec lists for it
and the worker reads, the numeric ones signed integers. -/
structure TimeDomainContext where
  channelNameFilter : String := ""
  acquisitionModeFilter : String := "continuous"
  triggerNameFilter : String := ""
  maximumWindowSize : Int := 0
  preSamples : Int := 0
  postSamples : Int := 0
  snapshotDelay : Int := 0
  deriving DecidableEq, Repr

/-- Modelled from the spec: the reply message `Acquisition` is declared in `daq_api.hpp`, which
is not part of the sources; these are the fields the spec lists for it and the worker writes.
Its default member initialisers are not known: a default constructed reply is taken to have
empty strings and arrays and a zero range, and no theorem below depends on these values. -/
structure Acquisition where
  acqTriggerName : String := ""
  channelName : String := ""
  channelUnit : String := ""
  channelRangeMin : CFloat := CFloat.zero
  channelRangeMax : CFloat := CFloat.zero
  channelValue : List CFloat := []
  channelError : List CFloat := []
  channelTimeBase : List CFloat := []
  deriving DecidableEq, Repr

/-- The fields of `gr::DataSet<double>` that the worker reads. -/
structure DataSet where
  signal_names : List String := []
  signal_units : List String := []
  signal_ranges : List (List CDouble) := []
  signal_values : List CDouble := []
  signal_errors : List CDouble := []
  extents : List Int := []
  timing_events : List (List Tag) := []
  deriving DecidableEq, Repr

/-- The structure `SignalEntry`. -/
structure SignalEntry where
  name : String
  unit : String
  sample_rate : CFloat
  deriving DecidableEq, Repr

/-! ## Pollers and the tap registry (gnuradio4) -/

/-- What `process` of a `gr::basic::StreamingPoller<double>` sees: the `finished` flag and the
samples and tags available to its readers. -/
structure StreamingPoller where
  finished : Bool := false
  samples : List CDouble := []
  tags : List Tag := []
  deriving DecidableEq, Repr

/-- What `process` of a `gr::basic::DataSetPoller<double>` sees: the `finished` flag and the
queued datasets. -/
structure DataSetPoller where
  finished : Bool := false
  dataSets : List DataSet := []
  deriving DecidableEq, Repr

/-- The structure `StreamingPollerEntry`; a null `poller` is `none`. -/
structure StreamingPollerEntry where
  in_use : Bool := true
  poller : Option StreamingPoller
  signal_name : Option String := none
  signal_unit : Option String := none
  signal_min : Option CFloat := none
  signal_max : Option CFloat := none
  deriving DecidableEq, Repr

/-- The structure `DataSetPollerEntry`; a null `poller` is `none`. -/
structure DataSetPollerEntry where
  poller : Option DataSetPoller
  in_use : Bool := false
  deriving DecidableEq, Repr

/-- A request to `gr::basic::DataSinkRegistry`; the query is always `signalName(name)`, a
matcher is recorded by the trigger name it captured. -/
inductive RegistryRequest
  | getStreamingPoller (signalName : String)
  | getTriggerPoller (signalName : String) (trigger_name : String) (pre_samples post_samples : Nat)
  | getSnapshotPoller (signalName : String) (trigger_name : String) (snapshot_delay : Int)
  | getMultiplexedPoller (signalName : String) (trigger_name : String) (maximum_window_size : Nat)
  | getDataSetPoller (signalName : String)
  deriving DecidableEq, Repr

/-- The singleton `gr::basic::DataSinkRegistry::instance()` as an explicit dependency: what each
of its calls hands out, `none` being a null pointer (no tap available). -/
structure DataSinkRegistry where
  getStreamingPoller : String → Option StreamingPoller
  getTriggerPoller : String → (Tag → MatchResult) → Nat → Nat → Option DataSetPoller
  getSnapshotPoller : String → (Tag → MatchResult) → Int → Option DataSetPoller
  getMultiplexedPoller : String → (Tag → MatchResult) → Nat → Option DataSetPoller
  getDataSetPoller : String → Option DataSetPoller

/-! ## Reply construction -/

namespace detail

/-- The function `detail::findTriggerName`: `std::get<std::string>` on the first trigger-name
entry, which throws `std::bad_variant_access` when that entry holds no string. -/
def findTriggerName : List Tag → Outcome String
  | [] => .ok ""
  | tag :: rest =>
    match tag.get gr.tag.TRIGGER_NAME with
    | none => findTriggerName rest
    | some (Pmt.string s) => .ok s
    | some _ => .thrown .bad_variant_access

end detail

/-- One round of the loop in `StreamingPollerEntry::populateFromTags`. -/
def StreamingPollerEntry.populateFromTag (e : StreamingPollerEntry) (tag : Tag) :
    StreamingPollerEntry :=
  let e1 := match detail.get_string tag.map gr.tag.SIGNAL_NAME with
    | some name => { e with signal_name := some name }
    | none => e
  let e2 := match detail.get_string tag.map gr.tag.SIGNAL_UNIT with
    | some unit => { e1 with signal_unit := some unit }
    | none => e1
  let e3 := match detail.get_float tag.map gr.tag.SIGNAL_MIN with
    | some min => { e2 with signal_min := some min }
    | none => e2
  match detail.get_float tag.map gr.tag.SIGNAL_MAX with
  | some max => { e3 with signal_max := some max }
  | none => e3

/-- The method `StreamingPollerEntry::populateFromTags`. -/
def StreamingPollerEntry.populateFromTags (e : StreamingPollerEntry) (tags : List Tag) :
    StreamingPollerEntry :=
  tags.foldl StreamingPollerEntry.populateFromTag e

/-- The lambda `processData` of `handleStreamingSubscription`: the entry with its metadata
updated from the tags, and the reply. -/
def streamingProcessData (signalName : String) (pollerEntry : StreamingPollerEntry)
    (reply : Acquisition) (data : List CDouble) (tags : List Tag) :
    StreamingPollerEntry × Acquisition :=
  let pollerEntry := pollerEntry.populateFromTags tags
  let rangeMin := match pollerEntry.signal_min with
    | some v => v
    | none => CFloat.lowest
  let rangeMax := match pollerEntry.signal_max with
    | some v => v
    | none => CFloat.max
  (pollerEntry,
    { reply with
      acqTriggerName := "STREAMING"
      channelName := pollerEntry.signal_name.getD signalName
      channelUnit := pollerEntry.signal_unit.getD "N/A"
      channelRangeMin := rangeMin
      channelRangeMax := rangeMax
      channelValue := data.map detail.doubleToFloat
      channelError := List.replicate data.length CFloat.zero
      channelTimeBase := List.replicate data.length CFloat.zero })

/-- The position `std::ranges::find(names, name)` as an index, `none` standing for `end()`. -/
def findIndex (names : List String) (name : String) : Option Nat :=
  match names.indexOf name with
  | i => if i < names.length then some i else none

/-- The statement `if (!dataSet.timing_events.empty()) reply.acqTriggerName = ...` of
`processData`. -/
def processTriggerName (reply : Acquisition) (dataSet : DataSet) (signal_idx : Nat) :
    Outcome Acquisition :=
  if dataSet.timing_events ≠ [] then do
    let events ← vectorAt dataSet.timing_events signal_idx
    let name ← detail.findTriggerName events
    pure { reply with acqTriggerName := name }
  else pure reply

/-- The right hand side of the assignment to `reply.channelName` in `processData`. -/
def processChannelName (signalName : String) (dataSet : DataSet) (signal_idx : Nat) :
    Outcome String :=
  if dataSet.signal_names = [] then pure signalName
  else vectorAt dataSet.signal_names signal_idx

/-- The right hand side of the assignment to `reply.channelUnit` in `processData`; the guard
`signal_units.size() < signal_idx - 1` is computed in `std::size_t`. -/
def processChannelUnit (dataSet : DataSet) (signal_idx : Nat) : Outcome String :=
  if dataSet.signal_units.length < (signal_idx + SIZE_MOD - 1) % SIZE_MOD then pure "N/A"
  else vectorAt dataSet.signal_units signal_idx

/-- The statement `if ((dataSet.signal_ranges.size() >= signal_idx) && ...)` of `processData`
that sets the channel range. -/
def processRange (reply : Acquisition) (dataSet : DataSet) (signal_idx : Nat) :
    Outcome Acquisition :=
  if dataSet.signal_ranges.length ≥ signal_idx then do
    let range ← vectorAt dataSet.signal_ranges signal_idx
    if range.length = 2 then do
      let rangeMin ← vectorAt range 0
      let rangeMax ← vectorAt range 1
      pure { reply with channelRangeMin := detail.doubleToFloat rangeMin
                        channelRangeMax := detail.doubleToFloat rangeMax }
    else pure reply
  else pure reply

/-- The block `if (key.mode == AcquisitionMode::DataSet)` of `processData`: the spans `values`
and `errors` cut to the slice of the signal. -/
def processSlices (dataSet : DataSet) (signal_idx : Nat) :
    Outcome (List CDouble × List CDouble) := do
  let extent ← vectorAt dataSet.extents 1
  let samples := toSizeT extent
  let offset := (signal_idx * samples) % SIZE_MOD
  let nValues := if (offset + samples) % SIZE_MOD ≤ dataSet.signal_values.length
    then samples else 0
  let nErrors := if (offset + samples) % SIZE_MOD ≤ dataSet.signal_errors.length
    then samples else 0
  let values ← subspan dataSet.signal_values offset nValues
  let errors ← subspan dataSet.signal_errors offset nErrors
  pure (values, errors)

/-- The lambda `processData` of `handleDataSetSubscription` applied to `dataSets[0]`: the reply
after the call, statement by statement. Index arithmetic is that of `std::size_t`. -/
def dataSetProcessData (mode : AcquisitionMode) (signalName : String) (reply : Acquisition)
    (dataSet : DataSet) : Outcome Acquisition :=
  let signal_it := findIndex dataSet.signal_names signalName
  if mode = .DataSet ∧ signal_it = none then .ok reply
  else do
    let signal_idx := signal_it.getD 0
    let reply ← processTriggerName reply dataSet signal_idx
    let channelName ← processChannelName signalName dataSet signal_idx
    let reply := { reply with channelName := channelName }
    let channelUnit ← processChannelUnit dataSet signal_idx
    let reply := { reply with channelUnit := channelUnit }
    let reply ← processRange reply dataSet signal_idx
    let (values, errors) ← (if mode = .DataSet then processSlices dataSet signal_idx
      else pure (dataSet.signal_values, dataSet.signal_errors))
    pure { reply with
      channelValue := values.map detail.doubleToFloat
      channelError := errors.map detail.doubleToFloat
      channelTimeBase := List.replicate values.length CFloat.zero }

/-! ## The poller caches and the subscription handlers -/

/-- The two poller caches of the worker thread, with what a pass lets the outside observe: the
requests made to the tap registry and the replies handed to `notify`, both in order. -/
structure PassState where
  streamingPollers : StdMap PollerKey StreamingPollerEntry := []
  dataSetPollers : StdMap PollerKey DataSetPollerEntry := []
  requests : List RegistryRequest := []
  notified : List (TimeDomainContext × Acquisition) := []
  deriving DecidableEq, Repr

/-- The key built in `getStreamingPoller`. -/
def streamingKey (signalName : String) : PollerKey :=
  { mode := .Continuous, signal_name := signalName }

/-- The method `getStreamingPoller`; the iterator it returns is the key of the entry it points
to, `none` standing for `end()`. -/
def getStreamingPoller (registry : DataSinkRegistry) (st : PassState) (signalName : String) :
    PassState × Option PollerKey :=
  let key := streamingKey signalName
  match StdMap.find st.streamingPollers key with
  | some _ => (st, some key)
  | none =>
    ({ st with
        streamingPollers := StdMap.emplace st.streamingPollers key
          { poller := registry.getStreamingPoller signalName }
        requests := st.requests ++ [.getStreamingPoller signalName] },
      some key)

/-- The call `poller->process(processData)` of a streaming poller followed by the conditional
`notify`: nothing happens without samples, otherwise all samples and tags go to `processData`
in one batch and are consumed. -/
def streamingProcess (context : TimeDomainContext) (signalName : String)
    (pollerEntry : StreamingPollerEntry) (poller : StreamingPoller) :
    StreamingPollerEntry × List (TimeDomainContext × Acquisition) :=
  if poller.samples = [] then (pollerEntry, [])
  else
    let (entry, reply) := streamingProcessData signalName pollerEntry {} poller.samples poller.tags
    ({ entry with poller := some { poller with samples := [], tags := [] } }, [(context, reply)])

/-- The method `handleStreamingSubscription`. -/
def handleStreamingSubscription (registry : DataSinkRegistry) (st : PassState)
    (context : TimeDomainContext) (signalName : String) : PassState × Bool :=
  match getStreamingPoller registry st signalName with
  | (st, none) => (st, true)
  | (st, some key) =>
    match StdMap.find st.streamingPollers key with
    | none => (st, true)
    | some pollerEntry =>
      match pollerEntry.poller with
      | none => (st, true)
      | some poller =>
        let pollerEntry := { pollerEntry with in_use := true }
        let wasFinished := poller.finished
        let (pollerEntry, replies) := streamingProcess context signalName pollerEntry poller
        ({ st with
            streamingPollers := StdMap.modify (fun _ => pollerEntry) st.streamingPollers key
            notified := st.notified ++ replies },
          wasFinished)

/-- The key built in `getDataSetPoller`. -/
def dataSetKey (context : TimeDomainContext) (mode : AcquisitionMode) (signalName : String) :
    PollerKey :=
  { mode := mode
    signal_name := signalName
    pre_samples := toSizeT context.preSamples
    post_samples := toSizeT context.postSamples
    maximum_window_size := toSizeT context.maximumWindowSize
    snapshot_delay := context.snapshotDelay
    trigger_name := context.triggerNameFilter }

/-- The method `getDataSetPoller`; the iterator it returns is the key of the entry it points
to, `none` standing for `end()`. -/
def getDataSetPoller (registry : DataSinkRegistry) (st : PassState) (context : TimeDomainContext)
    (mode : AcquisitionMode) (signalName : String) : PassState × Option PollerKey :=
  let key := dataSetKey context mode signalName
  match StdMap.find st.dataSetPollers key with
  | some _ => (st, some key)
  | none =>
    let matcher := matcher context.triggerNameFilter
    match mode with
    | .Triggered =>
      ({ st with
          dataSetPollers := StdMap.emplace st.dataSetPollers key
            { poller := registry.getTriggerPoller signalName matcher key.pre_samples
                key.post_samples }
          requests := st.requests ++ [.getTriggerPoller signalName context.triggerNameFilter
            key.pre_samples key.post_samples] },
        some key)
    | .Snapshot =>
      ({ st with
          dataSetPollers := StdMap.emplace st.dataSetPollers key
            { poller := registry.getSnapshotPoller signalName matcher key.snapshot_delay }
          requests := st.requests ++ [.getSnapshotPoller signalName context.triggerNameFilter
            key.snapshot_delay] },
        some key)
    | .Multiplexed =>
      ({ st with
          dataSetPollers := StdMap.emplace st.dataSetPollers key
            { poller := registry.getMultiplexedPoller signalName matcher
                key.maximum_window_size }
          requests := st.requests ++ [.getMultiplexedPoller signalName
            context.triggerNameFilter key.maximum_window_size] },
        some key)
    | .DataSet =>
      ({ st with
          dataSetPollers := StdMap.emplace st.dataSetPollers key
            { poller := registry.getDataSetPoller signalName }
          requests := st.requests ++ [.getDataSetPoller signalName] },
        some key)
    | .Continuous => (st, none)

/-- The loop `while (pollerEntry.poller->process(processData, 1)) notify(context, reply);`:
each round hands the oldest queued dataset to `processData`, consumes it, and notifies the
reply as `processData` left it. The result is the remaining queue, the reply and the replies
notified; a dataset whose `processData` throws is not consumed. -/
def dataSetDrain (context : TimeDomainContext) (mode : AcquisitionMode) (signalName : String) :
    List DataSet → Acquisition → List (TimeDomainContext × Acquisition) →
    Step (List DataSet × List (TimeDomainContext × Acquisition)) Acquisition
  | [], reply, out => .done ([], out) reply
  | dataSet :: rest, reply, out =>
    match dataSetProcessData mode signalName reply dataSet with
    | .ok reply => dataSetDrain context mode signalName rest reply (out ++ [(context, reply)])
    | .thrown e => .thrown (dataSet :: rest, out) e
    | .undefined u => .undefined u

/-- The method `handleDataSetSubscription`. -/
def handleDataSetSubscription (registry : DataSinkRegistry) (st : PassState)
    (context : TimeDomainContext) (mode : AcquisitionMode) (signalName : String) :
    Step PassState Bool :=
  match getDataSetPoller registry st context mode signalName with
  | (st, none) => .done st true
  | (st, some key) =>
    match StdMap.find st.dataSetPollers key with
    | none => .done st true
    | some pollerEntry =>
      match pollerEntry.poller with
      | none => .done st true
      | some poller =>
        let wasFinished := poller.finished
        let write := fun (queue : List DataSet) (out : List (TimeDomainContext × Acquisition)) =>
          { st with
            dataSetPollers := StdMap.modify
              (fun _ => { poller := some { poller with dataSets := queue }, in_use := true })
              st.dataSetPollers key
            notified := out }
        match dataSetDrain context key.mode signalName poller.dataSets {} st.notified with
        | .done (queue, out) _ => .done (write queue out) wasFinished
        | .thrown (queue, out) e => .thrown (write queue out) e
        | .undefined u => .undefined u

/-! ## The reconciliation pass -/

/-- Splits at every `sep`; `acc` holds the current piece in reverse. -/
def splitAux (sep : Char) : List Char → List Char → List (List Char)
  | [], acc => [acc.reverse]
  | c :: cs, acc =>
    if c = sep then acc.reverse :: splitAux sep cs [] else splitAux sep cs (c :: acc)

/-- The range `channelNameFilter | std::views::split(',')` turned into strings: the pieces
between the commas, and no piece at all for the empty filter. -/
def splitChannelNames (channelNameFilter : String) : List String :=
  if channelNameFilter.data = [] then []
  else (splitAux ',' channelNameFilter.data []).map String.mk

/-- The inner loop of `handleSubscriptions` over the channel names of one subscription, on the
caches and the local `pollersFinished`. -/
def handleChannelNames (registry : DataSinkRegistry) (filterIn : TimeDomainContext)
    (acquisitionMode : AcquisitionMode) :
    List String → PassState × Bool → Step (PassState × Bool) Unit
  | [], s => .done s ()
  | signalName :: rest, (st, pollersFinished) =>
    if acquisitionMode = .Continuous then
      match handleStreamingSubscription registry st filterIn signalName with
      | (st, r) =>
        handleChannelNames registry filterIn acquisitionMode rest
          (st, if !r then false else pollersFinished)
    else
      match handleDataSetSubscription registry st filterIn acquisitionMode signalName with
      | .done st r =>
        handleChannelNames registry filterIn acquisitionMode rest
          (st, if !r then false else pollersFinished)
      | .thrown st e => .thrown (st, pollersFinished) e
      | .undefined u => .undefined u

/-- The `try` block of `handleSubscriptions` for one subscription. -/
def handleSubscriptionTry (registry : DataSinkRegistry) (filterIn : TimeDomainContext)
    (s : PassState × Bool) : Step (PassState × Bool) Unit :=
  match parseAcquisitionMode filterIn.acquisitionModeFilter with
  | .error e => .thrown s e
  | .ok acquisitionMode =>
    handleChannelNames registry filterIn acquisitionMode
      (splitChannelNames filterIn.channelNameFilter) s

/-- The loop of `handleSubscriptions` over the active subscriptions (already deserialised); the
`catch` logs the exception and goes on with the next subscription. -/
def handleSubscriptionsLoop (registry : DataSinkRegistry) :
    List TimeDomainContext → PassState × Bool → Outcome (PassState × Bool)
  | [], s => .ok s
  | filterIn :: rest, s =>
    match handleSubscriptionTry registry filterIn s with
    | .done s _ => handleSubscriptionsLoop registry rest s
    | .thrown s _ => handleSubscriptionsLoop registry rest s
    | .undefined u => .undefined u

/-- The method `handleSubscriptions`: the caches after the call and the returned
`pollersFinished`. No exception leaves it. -/
def handleSubscriptions (registry : DataSinkRegistry)
    (activeSubscriptions : List TimeDomainContext) (st : PassState) : Outcome (PassState × Bool) :=
  handleSubscriptionsLoop registry activeSubscriptions (st, true)

/-- The two loops that reset `in_use` at the start of a pass. -/
def resetInUse (st : PassState) : PassState :=
  { st with
    streamingPollers := StdMap.mapValues (fun e => { e with in_use := false }) st.streamingPollers
    dataSetPollers := StdMap.mapValues (fun e => { e with in_use := false }) st.dataSetPollers }

/-- The two `std::erase_if` calls at the end of a pass. -/
def eraseUnused (st : PassState) : PassState :=
  { st with
    streamingPollers := StdMap.eraseIf st.streamingPollers (fun _ e => !e.in_use)
    dataSetPollers := StdMap.eraseIf st.dataSetPollers (fun _ e => !e.in_use) }

/-- The body of the `do ... while` loop in `init`: one reconciliation pass. -/
def reconcilePass (registry : DataSinkRegistry) (activeSubscriptions : List TimeDomainContext)
    (st : PassState) : Outcome (PassState × Bool) :=
  match handleSubscriptions registry activeSubscriptions (resetInUse st) with
  | .ok (st, pollersFinished) => .ok (eraseUnused st, pollersFinished)
  | .thrown e => .thrown e
  | .undefined u => .undefined u

/-! ## Signal metadata -/

/-- What `forEachBlock` reads of a `gr::BlockModel`. -/
structure BlockModel where
  typeName : String
  uniqueName : String
  settings : property_map
  deriving DecidableEq, Repr

/-- A `gr::Graph`: its blocks in the order `forEachBlock` visits them. -/
structure Graph where
  blocks : List BlockModel
  deriving DecidableEq, Repr

/-- A `gr::Message` read from the scheduler; `data` is `none` when the `std::expected` holds
an error. -/
structure Message where
  endpoint : String
  serviceName : String := ""
  data : Option property_map := none
  deriving DecidableEq, Repr

namespace block.property

/-- The endpoint `gr::block::property::kLifeCycleState`. -/
def kLifeCycleState : String := "LifecycleState"

/-- The endpoint `gr::block::property::kSetting`. -/
def kSetting : String := "Settings"

end block.property

/-- The map `signalEntriesBySink` of the worker thread. -/
abbrev SignalEntries := StdMap String (List SignalEntry)

/-- The view `signalEntriesBySink | std::views::values | std::views::join` as a vector. -/
def flattened (signalEntriesBySink : SignalEntries) : List SignalEntry :=
  (StdMap.values signalEntriesBySink).flatten

/-- The assignment through `m[k]`, which inserts the key when it is absent. -/
def StdMap.assign {K V : Type} [DecidableEq K] [Ord K] (m : StdMap K V) (k : K) (v : V) :
    StdMap K V :=
  if (StdMap.find m k).isSome then StdMap.modify (fun _ => v) m k else StdMap.insertSorted k v m

/-- A value-initialised `SignalEntry`. -/
def SignalEntry.zero : SignalEntry := { name := "", unit := "", sample_rate := CFloat.zero }

/-- The locals of the message loop in `init`. -/
structure MessageLoop where
  signalEntriesBySink : SignalEntries
  schedulerFinished : Bool := false
  signalInfoChanged : Bool := false
  deriving DecidableEq, Repr

/-- One statement `if (value && value != field) { field = *value; signalInfoChanged = true; }`
on a string field: the field after it and whether it was overwritten. -/
def updateStringField (value : Option String) (field : String) : String × Bool :=
  match value with
  | some v => if v ≠ field then (v, true) else (field, false)
  | none => (field, false)

/-- The same statement on the `float` field; `!=` is the comparison of floats. -/
def updateFloatField (value : Option CFloat) (field : CFloat) : CFloat × Bool :=
  match value with
  | some v => if !CFloat.eq v field then (v, true) else (field, false)
  | none => (field, false)

/-- The update of a tracked single-signal sink from a `kSetting` message (the `else` branch). -/
def updateSingleEntry (l : MessageLoop) (sink : String) (entries : List SignalEntry)
    (settings : property_map) : MessageLoop :=
  let entries := resize entries 1 SignalEntry.zero
  let entry := entries.headD SignalEntry.zero
  let name := updateStringField (detail.get_string settings "signal_name") entry.name
  let unit := updateStringField (detail.get_string settings "signal_unit") entry.unit
  let rate := updateFloatField (detail.get_float settings "sample_rate") entry.sample_rate
  { l with
    signalEntriesBySink := StdMap.modify
      (fun _ => entries.set 0 { name := name.1, unit := unit.1, sample_rate := rate.1 })
      l.signalEntriesBySink sink
    signalInfoChanged := l.signalInfoChanged || name.2 || unit.2 || rate.2 }

/-- One round of the message loop in `init`. -/
def handleMessage (l : MessageLoop) (message : Message) : MessageLoop :=
  if message.endpoint = block.property.kLifeCycleState then
    match message.data with
    | none => l
    | some data =>
      if detail.get_string data "state" = some "STOPPED" then { l with schedulerFinished := true }
      else l
  else if message.endpoint = block.property.kSetting then
    match StdMap.find l.signalEntriesBySink message.serviceName with
    | none => l
    | some entries =>
      match message.data with
      | none => l
      | some settings =>
        let signal_names := detail.get_stringVector settings "signal_names"
        let signal_units := detail.get_stringVector settings "signal_units"
        if signal_names.isSome ∧ signal_units.isSome then l
        else updateSingleEntry l message.serviceName entries settings
  else l

/-- The instance `detail::getSetting<std::string>`. -/
def detail.getSetting_string (block : BlockModel) (key : String) : Option String :=
  detail.get_string block.settings key

/-- The instance `detail::getSetting<float>`. -/
def detail.getSetting_float (block : BlockModel) (key : String) : Option CFloat :=
  detail.get_float block.settings key

/-- The instance `detail::getSetting<std::vector<std::string>>`. -/
def detail.getSetting_stringVector (block : BlockModel) (key : String) : Option (List String) :=
  detail.get_stringVector block.settings key

/-- The access `opt.value()`, which throws `std::bad_optional_access` on an empty optional. -/
def optionalValue {α : Type} (opt : Option α) : Outcome α :=
  match opt with
  | some a => .ok a
  | none => .thrown .bad_optional_access

/-- The lambda passed to `forEachBlock` when a new graph is installed. -/
def seedBlock (signalEntriesBySink : SignalEntries) (block : BlockModel) :
    Outcome SignalEntries :=
  if "gr::basic::DataSink".data.isPrefixOf block.typeName.data then
    let entries := (StdMap.find signalEntriesBySink block.uniqueName).getD []
    let entries := resize entries 1 SignalEntry.zero
    let entry : SignalEntry :=
      { name := (detail.getSetting_string block "signal_name").getD ""
        unit := (detail.getSetting_string block "signal_unit").getD ""
        sample_rate := (detail.getSetting_float block "sample_rate").getD CFloat.one }
    .ok (StdMap.assign signalEntriesBySink block.uniqueName (entries.set 0 entry))
  else if "gr::basic::DataSetSink".data.isPrefixOf block.typeName.data then do
    let names ← optionalValue (detail.getSetting_stringVector block "signal_names")
    let units ← optionalValue (detail.getSetting_stringVector block "signal_units")
    let n := min names.length units.length
    let entries := (StdMap.find signalEntriesBySink block.uniqueName).getD []
    let entries := resize entries n SignalEntry.zero
    pure (StdMap.assign signalEntriesBySink block.uniqueName
      ((List.range n).foldl
        (fun es i => es.set i
          { name := names.getD i "", unit := units.getD i "", sample_rate := CFloat.one })
        entries))
  else .ok signalEntriesBySink

/-- The call `pendingFlowGraph->forEachBlock(...)`. -/
def seedSignalEntries : List BlockModel → SignalEntries → Outcome SignalEntries
  | [], m => .ok m
  | block :: rest, m =>
    match seedBlock m block with
    | .ok m => seedSignalEntries rest m
    | .thrown e => .thrown e
    | .undefined u => .undefined u

/-! ## The worker loop -/

/-- The members of `GnuRadioAcquisitionWorker` that the loop reads: the pending graph slot and
whether a callback is registered. -/
structure Worker where
  _pending_flow_graph : Option Graph := none
  _updateSignalEntriesCallback : Bool := false
  deriving DecidableEq, Repr

/-- The method `setGraph`; a null pointer is `none`. -/
def Worker.setGraph (self : Worker) (fg : Option Graph) : Worker :=
  { self with _pending_flow_graph := fg }

/-- The locked `std::exchange(_pending_flow_graph, {})` at the start of an iteration. -/
def Worker.takePendingFlowGraph (self : Worker) : Option Graph × Worker :=
  (self._pending_flow_graph, { self with _pending_flow_graph := none })

/-- The locals of the thread function in `init`. A joinable `schedulerThread` is `some` graph,
the one its scheduler runs; the two ports are `true` when the pointer is not null. -/
structure WorkerLocals where
  pollers : PassState := {}
  schedulerThread : Option Graph := none
  schedulerUniqueName : String := ""
  signalEntriesBySink : SignalEntries := []
  toScheduler : Bool := false
  fromScheduler : Bool := false
  finished : Bool := false
  deriving DecidableEq, Repr

/-- What an iteration does to the outside, in order. -/
inductive Event
  | sendRequestedStop (schedulerUniqueName : String)
  | updateSignalEntries (entries : List SignalEntry)
  | joinScheduler
  | subscribeLifeCycleState (schedulerUniqueName : String)
  | subscribeSetting
  | startScheduler (graph : Graph)
  deriving DecidableEq, Repr

/-- What the other threads contribute to one reconciliation pass: the registry, the active
subscriptions, and what the sinks did to each tap since the previous pass. -/
structure PassEnv where
  registry : DataSinkRegistry
  activeSubscriptions : List TimeDomainContext
  streamingArrival : PollerKey → StreamingPoller → StreamingPoller := fun _ p => p
  dataSetArrival : PollerKey → DataSetPoller → DataSetPoller := fun _ p => p

/-- The taps as the worker thread finds them at the start of a pass. -/
def PassEnv.arrive (env : PassEnv) (st : PassState) : PassState :=
  { st with
    streamingPollers := st.streamingPollers.map
      (fun kv => (kv.1, { kv.2 with poller := kv.2.poller.map (env.streamingArrival kv.1) }))
    dataSetPollers := st.dataSetPollers.map
      (fun kv => (kv.1, { kv.2 with poller := kv.2.poller.map (env.dataSetArrival kv.1) })) }

/-- The loop `do ... while (stopScheduler && !pollersFinished)`, the `k`-th pass running in the
environment `env k`: the caches after the loop and the number of passes, or `none` when `fuel`
passes did not end it. -/
def reconcileLoop (stopScheduler : Bool) (env : Nat → PassEnv) :
    Nat → Nat → PassState → Option (Outcome (PassState × Nat))
  | 0, _, _ => none
  | fuel + 1, k, st =>
    match reconcilePass (env k).registry (env k).activeSubscriptions ((env k).arrive st) with
    | .ok (st, pollersFinished) =>
      if stopScheduler && !pollersFinished then reconcileLoop stopScheduler env fuel (k + 1) st
      else some (.ok (st, k + 1))
    | .thrown e => some (.thrown e)
    | .undefined u => some (.undefined u)

/-- What one iteration of the loop gets from outside. -/
structure IterationInput where
  stop_requested : Bool := false
  messages : List Message := []
  passes : Nat → PassEnv
  newSchedulerName : String := ""

/-- The invocation of `_updateSignalEntriesCallback`, guarded by its registration. -/
def invokeCallback (self : Worker) (entries : List SignalEntry) : List Event :=
  if self._updateSignalEntriesCallback then [.updateSignalEntries entries] else []

/-- The block `if (stopScheduler || schedulerFinished)`: the teardown. -/
def teardown (self : Worker) (l : WorkerLocals) : WorkerLocals × List Event :=
  ({ l with
      signalEntriesBySink := []
      pollers := { l.pollers with streamingPollers := [], dataSetPollers := [] }
      fromScheduler := false
      toScheduler := false
      schedulerUniqueName := ""
      schedulerThread := none },
    invokeCallback self [] ++ [.joinScheduler])

/-- The block `if (pendingFlowGraph)`: seeding of the signal entries, their publication, and
the start of the new scheduler. An exception here leaves the thread function. -/
def installGraph (self : Worker) (l : WorkerLocals) (graph : Graph) (newSchedulerName : String) :
    Outcome (WorkerLocals × List Event) :=
  match seedSignalEntries graph.blocks l.signalEntriesBySink with
  | .ok entries =>
    .ok ({ l with
          signalEntriesBySink := entries
          toScheduler := true
          fromScheduler := true
          schedulerUniqueName := newSchedulerName
          schedulerThread := some graph },
        invokeCallback self (flattened entries) ++
          [.subscribeLifeCycleState newSchedulerName, .subscribeSetting, .startScheduler graph])
  | .thrown e => .thrown e
  | .undefined u => .undefined u

/-- The block `if (hasScheduler)`: the message loop with its publication, then the
reconciliation loop. The result carries `schedulerFinished`. -/
def withScheduler (fuel : Nat) (input : IterationInput) (self : Worker) (l : WorkerLocals)
    (stopScheduler : Bool) : Option (Outcome (WorkerLocals × Bool × List Event)) :=
  if !l.fromScheduler then some (.undefined .null_dereference)
  else
    let m := input.messages.foldl handleMessage { signalEntriesBySink := l.signalEntriesBySink }
    let events := if m.signalInfoChanged then invokeCallback self (flattened m.signalEntriesBySink)
      else []
    match reconcileLoop stopScheduler input.passes fuel 0 l.pollers with
    | none => none
    | some (.ok (pollers, _)) =>
      some (.ok ({ l with signalEntriesBySink := m.signalEntriesBySink, pollers := pollers },
        m.schedulerFinished, events))
    | some (.thrown e) => some (.thrown e)
    | some (.undefined u) => some (.undefined u)

/-- One iteration of the `while (!finished)` loop of the thread function in `init`, up to the
sleep: the members and locals after it and what it did to the outside, or `none` when the
reconciliation loop did not end within `fuel` passes. -/
def iteration (fuel : Nat) (input : IterationInput) (self : Worker) (l : WorkerLocals) :
    Option (Outcome (Worker × WorkerLocals × List Event)) :=
  let aboutToFinish := input.stop_requested
  let (pendingFlowGraph, self) := self.takePendingFlowGraph
  let hasScheduler := l.schedulerThread.isSome
  let stopScheduler := hasScheduler && (aboutToFinish || pendingFlowGraph.isSome)
  if stopScheduler && !l.toScheduler then some (.undefined .null_dereference)
  else
    let events0 := if stopScheduler then [Event.sendRequestedStop l.schedulerUniqueName] else []
    match (if hasScheduler then withScheduler fuel input self l stopScheduler
        else some (.ok (l, false, []))) with
    | none => none
    | some (.thrown e) => some (.thrown e)
    | some (.undefined u) => some (.undefined u)
    | some (.ok (l, schedulerFinished, events1)) =>
      let (l, events2) := if stopScheduler || schedulerFinished then teardown self l else (l, [])
      if aboutToFinish then
        some (.ok (self, { l with finished := true }, events0 ++ events1 ++ events2))
      else
        match pendingFlowGraph with
        | none => some (.ok (self, l, events0 ++ events1 ++ events2))
        | some graph =>
          match installGraph self l graph input.newSchedulerName with
          | .ok (l, events3) => some (.ok (self, l, events0 ++ events1 ++ events2 ++ events3))
          | .thrown e => some (.thrown e)
          | .undefined u => some (.undefined u)

/-! ## Notions used to state the properties -/

/-- The state a call left behind, when there is one: after a normal return and after an
exception. -/
def Step.state? {σ α : Type} : Step σ α → Option σ
  | .done s _ => some s
  | .thrown s _ => some s
  | .undefined _ => none

/-- The keys of the streaming cache that the active subscriptions map to: one per channel name
of every subscription whose mode parses to `Continuous`. -/
def mappedStreamingKeys (activeSubscriptions : List TimeDomainContext) : List PollerKey :=
  activeSubscriptions.flatMap (fun filterIn =>
    match parseAcquisitionMode filterIn.acquisitionModeFilter with
    | .ok mode =>
      if mode = .Continuous then (splitChannelNames filterIn.channelNameFilter).map streamingKey
      else []
    | .error _ => [])

/-- The keys of the dataset cache that the active subscriptions map to: one per channel name of
every subscription whose mode parses to a mode other than `Continuous`. -/
def mappedDataSetKeys (activeSubscriptions : List TimeDomainContext) : List PollerKey :=
  activeSubscriptions.flatMap (fun filterIn =>
    match parseAcquisitionMode filterIn.acquisitionModeFilter with
    | .ok mode =>
      if mode = .Continuous then []
      else (splitChannelNames filterIn.channelNameFilter).map (dataSetKey filterIn mode)
    | .error _ => [])

/-- The string a property map carries under `key`, read off the map entry by entry: the value
of the first entry with this key, when it holds a string. -/
def carriedString (m : property_map) (key : String) : Option String :=
  match List.lookup key m with
  | some (Pmt.string s) => some s
  | _ => none

/-- The float a property map carries under `key`, read off the map entry by entry. -/
def carriedFloat (m : property_map) (key : String) : Option CFloat :=
  match List.lookup key m with
  | some (Pmt.float x) => some x
  | _ => none

/-- The list of strings a property map carries under `key`, read off the map entry by
entry. -/
def carriedStringVector (m : property_map) (key : String) : Option (List String) :=
  match List.lookup key m with
  | some (Pmt.stringVector xs) => some xs
  | _ => none

/-- The last value observed for the float tag `key`: the value of the last tag of the batch
that carries one, else the value known before the batch. -/
def lastObserved (key : String) (known : Option CFloat) (tags : List Tag) : Option CFloat :=
  match (tags.reverse.filterMap (fun tag => carriedFloat tag.map key)).head? with
  | some v => some v
  | none => known

/-- The lists handed to the signal-entry callback, in order. -/
def callbackLists (events : List Event) : List (List SignalEntry) :=
  events.filterMap (fun e =>
    match e with
    | .updateSignalEntries entries => some entries
    | _ => none)

/-- Replays the starts and joins of scheduler threads in a trace; `live` tells whether a
scheduler thread runs. A start while one runs and a join while none runs are refused. -/
def replaySchedulers : Bool → List Event → Option Bool
  | live, [] => some live
  | live, .startScheduler _ :: rest => if live then none else replaySchedulers true rest
  | live, .joinScheduler :: rest => if live then replaySchedulers false rest else none
  | live, .sendRequestedStop _ :: rest => replaySchedulers live rest
  | live, .updateSignalEntries _ :: rest => replaySchedulers live rest
  | live, .subscribeLifeCycleState _ :: rest => replaySchedulers live rest
  | live, .subscribeSetting :: rest => replaySchedulers live rest

/-- The exception a call left by, when it did. -/
def Step.exception? {σ α : Type} : Step σ α → Option CppException
  | .done _ _ => none
  | .thrown _ e => some e
  | .undefined _ => none

/-- Whether the type name of the block starts with `"gr::basic::DataSink"`. -/
def isDataSink (block : BlockModel) : Bool :=
  "gr::basic::DataSink".data.isPrefixOf block.typeName.data

/-- Whether the type name of the block starts with `"gr::basic::DataSetSink"`. -/
def isDataSetSink (block : BlockModel) : Bool :=
  "gr::basic::DataSetSink".data.isPrefixOf block.typeName.data

/-- Whether the block is a sink of one of the two kinds. -/
def isSink (block : BlockModel) : Bool := isDataSink block || isDataSetSink block

/-- The entries a block stands for according to the specification: one entry built from the
settings of a single-signal sink, the pairs of names and units of a dataset sink, nothing for
any other block. -/
def specEntriesOfBlock (block : BlockModel) : List SignalEntry :=
  if isDataSink block then
    [{ name := (carriedString block.settings "signal_name").getD ""
       unit := (carriedString block.settings "signal_unit").getD ""
       sample_rate := (carriedFloat block.settings "sample_rate").getD CFloat.one }]
  else if isDataSetSink block then
    List.zipWith (fun name unit => { name := name, unit := unit, sample_rate := CFloat.one })
      ((carriedStringVector block.settings "signal_names").getD [])
      ((carriedStringVector block.settings "signal_units").getD [])
  else []

/-- Whether two floats differ as IEEE-754 values: a NaN (magnitude bits above those of
infinity) differs from every value, itself included; two values that are not NaN differ when
their patterns differ, except that the two zeros are equal. -/
def floatsDiffer (a b : CFloat) : Bool :=
  decide (0x7F800000 < a.bits % 2 ^ 31) || decide (0x7F800000 < b.bits % 2 ^ 31) ||
    (decide (a.bits ≠ b.bits) &&
      !(decide (a.bits % 2 ^ 31 = 0) && decide (b.bits % 2 ^ 31 = 0)))

/-- Samples and tags reaching the streaming tap of `key` from its sink: they are appended to
what the tap holds. -/
def streamingArrival (key : PollerKey) (samples : List CDouble) (tags : List Tag)
    (st : PassState) : PassState :=
  { st with
    streamingPollers := StdMap.modify
      (fun e => { e with
        poller := e.poller.map
          (fun p => { p with samples := p.samples ++ samples, tags := p.tags ++ tags }) })
      st.streamingPollers key }

/-- Datasets reaching the windowed tap of `key` from its sink: they are appended to its
queue. -/
def dataSetArrival (key : PollerKey) (dataSets : List DataSet) (st : PassState) : PassState :=
  { st with
    dataSetPollers := StdMap.modify
      (fun e => { e with
        poller := e.poller.map (fun p => { p with dataSets := p.dataSets ++ dataSets }) })
      st.dataSetPollers key }

/-! ## Inputs for the worked examples -/

/-- A registry that knows the streaming signal `"X"`, with one sample waiting, and hands out a
dataset tap with an empty queue for every signal. -/
def exampleRegistry : DataSinkRegistry :=
  { getStreamingPoller := fun n => if n = "X" then some { samples := [⟨0x3FF0000000000000⟩] }
      else none
    getTriggerPoller := fun _ _ _ _ => some {}
    getSnapshotPoller := fun _ _ _ => some {}
    getMultiplexedPoller := fun _ _ _ => some {}
    getDataSetPoller := fun _ => some {} }

/-- Caches that hold one streaming tap, for the signal `"Old"`. -/
def exampleOldCaches : PassState :=
  { streamingPollers := [(streamingKey "Old", { poller := some { finished := true } })] }

/-- The caches after a pass on `exampleOldCaches` with one continuous subscription to `"X"`. -/
def exampleSweptCaches : PassState :=
  { streamingPollers := [(streamingKey "X", { poller := some {} })]
    requests := [.getStreamingPoller "X"]
    notified := [({ channelNameFilter := "X" },
      { acqTriggerName := "STREAMING", channelName := "X", channelUnit := "N/A"
        channelRangeMin := CFloat.lowest, channelRangeMax := CFloat.max
        channelValue := [CFloat.one], channelError := [CFloat.zero]
        channelTimeBase := [CFloat.zero] })] }

/-- A dataset with the signals `"A"` and `"B"`, two samples each, complete metadata and no
errors array. -/
def exampleDataSetAB : DataSet :=
  { signal_names := ["A", "B"]
    signal_units := ["V", "A"]
    signal_ranges := [[⟨0⟩, ⟨0x3FF0000000000000⟩], [⟨0⟩, ⟨0x3FF0000000000000⟩]]
    signal_values := [⟨0⟩, ⟨0x3FF0000000000000⟩, ⟨0x4000000000000000⟩, ⟨0x4008000000000000⟩]
    signal_errors := []
    extents := [2, 2] }

/-- A dataset with the single signal `"A"` in volts, three samples and complete metadata. -/
def exampleDataSetA : DataSet :=
  { signal_names := ["A"]
    signal_units := ["V"]
    signal_ranges := [[⟨0⟩, ⟨0x3FF0000000000000⟩]]
    signal_values := [⟨0⟩, ⟨0x3FF0000000000000⟩, ⟨0x4000000000000000⟩]
    signal_errors := [⟨0⟩, ⟨0⟩, ⟨0⟩]
    extents := [1, 3] }

/-- Caches that hold one `DataSet` mode tap for the signal `"C"`, with `exampleDataSetAB`
queued. -/
def exampleDataSetCaches : PassState :=
  { dataSetPollers := [(dataSetKey { acquisitionModeFilter := "dataset" } .DataSet "C",
      { poller := some { dataSets := [exampleDataSetAB] }, in_use := false })] }

/-- A graph with one single-signal sink, `"sink0"`, for the signal `"old"`. -/
def exampleOldGraph : Graph :=
  { blocks := [{ typeName := "gr::basic::DataSink<double>", uniqueName := "sink0"
                 settings := [("signal_name", Pmt.string "old")] }] }

/-- A graph with a source block and one single-signal sink, `"sink1"`, for the signal `"new"`
in volts. -/
def exampleNewGraph : Graph :=
  { blocks := [{ typeName := "gr::basic::ClockSource", uniqueName := "clock", settings := [] },
               { typeName := "gr::basic::DataSink<double>", uniqueName := "sink1"
                 settings := [("signal_name", Pmt.string "new"),
                   ("signal_unit", Pmt.string "V")] }] }

/-- The locals of the worker thread while the scheduler of `exampleOldGraph` runs and one
streaming tap is cached. -/
def exampleRunningLocals : WorkerLocals :=
  { pollers := exampleOldCaches
    schedulerThread := some exampleOldGraph
    schedulerUniqueName := "scheduler0"
    signalEntriesBySink := [("sink0", [{ name := "old", unit := "", sample_rate := CFloat.one }])]
    toScheduler := true
    fromScheduler := true }

/-- An iteration without stop request and without messages, in which no subscription is
active; a scheduler constructed in it is named `"scheduler1"`. -/
def exampleQuietInput : IterationInput :=
  { passes := fun _ => { registry := exampleRegistry, activeSubscriptions := [] }
    newSchedulerName := "scheduler1" }

/-- The members of the worker with `exampleNewGraph` pending and a callback registered. -/
def exampleReplacingWorker : Worker :=
  { _pending_flow_graph := some exampleNewGraph, _updateSignalEntriesCallback := true }

/-- The locals after the iteration that replaces `exampleOldGraph` by `exampleNewGraph`. -/
def exampleReplacedLocals : WorkerLocals :=
  { pollers := {}
    schedulerThread := some exampleNewGraph
    schedulerUniqueName := "scheduler1"
    signalEntriesBySink := [("sink1", [{ name := "new", unit := "V", sample_rate := CFloat.one }])]
    toScheduler := true
    fromScheduler := true }

/-- The trace of the iteration that replaces `exampleOldGraph` by `exampleNewGraph`. -/
def exampleReplacedEvents : List Event :=
  [.sendRequestedStop "scheduler0", .updateSignalEntries [], .joinScheduler,
    .updateSignalEntries [{ name := "new", unit := "V", sample_rate := CFloat.one }],
    .subscribeLifeCycleState "scheduler1", .subscribeSetting, .startScheduler exampleNewGraph]

/-- The locals of the message loop with the single-signal sink `"sink0"` tracked. -/
def exampleTracked : MessageLoop :=
  { signalEntriesBySink := [("sink0", [{ name := "old", unit := "", sample_rate := CFloat.one }])] }

/-- A setting notification of `"sink0"` that renames the signal and repeats the sample rate. -/
def exampleRename : Message :=
  { endpoint := block.property.kSetting
    serviceName := "sink0"
    data := some [("sample_rate", Pmt.float CFloat.one), ("signal_name", Pmt.string "renamed")] }

/-- A graph with one multi-signal sink, `"ds"`, for the signals `"A"` in volts and `"B"` in
amperes. -/
def exampleDataSetGraph : Graph :=
  { blocks := [{ typeName := "gr::basic::DataSetSink<double>", uniqueName := "ds"
                 settings := [("signal_names", Pmt.stringVector ["A", "B"]),
                   ("signal_units", Pmt.stringVector ["V", "A"])] }] }

/-- The locals of the worker thread while the scheduler of `exampleDataSetGraph` runs, with the
entries seeded from its sink and no tap cached. -/
def exampleDataSetLocals : WorkerLocals :=
  { schedulerThread := some exampleDataSetGraph
    schedulerUniqueName := "scheduler0"
    signalEntriesBySink := [("ds", [{ name := "A", unit := "V", sample_rate := CFloat.one },
      { name := "B", unit := "A", sample_rate := CFloat.one }])]
    toScheduler := true
    fromScheduler := true }

/-- A setting notification of the sink `"ds"` that carries its signal names only. -/
def exampleNamesOnly : Message :=
  { endpoint := block.property.kSetting
    serviceName := "ds"
    data := some [("signal_names", Pmt.stringVector ["A", "B"])] }

/-- A setting notification of the sink `"ds"` that carries new signal names and units. -/
def exampleNamesAndUnits : Message :=
  { endpoint := block.property.kSetting
    serviceName := "ds"
    data := some [("signal_names", Pmt.stringVector ["C", "D"]),
      ("signal_units", Pmt.stringVector ["W", "W"])] }

/-- A registry that has no tap for any request. -/
def exhaustedRegistry : DataSinkRegistry :=
  { getStreamingPoller := fun _ => none
    getTriggerPoller := fun _ _ _ _ => none
    getSnapshotPoller := fun _ _ _ => none
    getMultiplexedPoller := fun _ _ _ => none
    getDataSetPoller := fun _ => none }

/-- The locals of the worker thread while the scheduler of `exampleOldGraph` runs and the
cached streaming tap of `"X"` has reported `finished`. -/
def exampleFinishedLocals : WorkerLocals :=
  { pollers :=
      { streamingPollers := [(streamingKey "X", { poller := some { finished := true } })] }
    schedulerThread := some exampleOldGraph
    schedulerUniqueName := "scheduler0"
    toScheduler := true
    fromScheduler := true }

/-- An iteration in which one continuous subscription to `"X"` is active, with or without a
stop request. -/
def exampleSubscribedInput (stop_requested : Bool) : IterationInput :=
  { stop_requested := stop_requested
    passes := fun _ =>
      { registry := exampleRegistry, activeSubscriptions := [{ channelNameFilter := "X" }] } }

/-- A timing tag whose trigger-name entry holds an integer. -/
def exampleMistypedTag : Tag := ⟨0, [(gr.tag.TRIGGER_NAME, Pmt.integer 42)]⟩

/-- A timing tag with the trigger name `"T1"`. -/
def exampleNamedTag : Tag := ⟨0, [(gr.tag.TRIGGER_NAME, Pmt.string "T1")]⟩

/-- The dataset `exampleDataSetA` with two timing tags for its signal: the mistyped one, then
the one named `"T1"`. -/
def exampleMistypedDataSet : DataSet :=
  { exampleDataSetA with timing_events := [[exampleMistypedTag, exampleNamedTag]] }

/-- Caches that hold one `Triggered` mode tap for the signal `"A"`, with
`exampleMistypedDataSet` queued. -/
def exampleMistypedCaches : PassState :=
  { dataSetPollers := [(dataSetKey { acquisitionModeFilter := "triggered" } .Triggered "A",
      { poller := some { dataSets := [exampleMistypedDataSet] }, in_use := false })] }

/-- A triggered subscription to the signal `"A"`. -/
def exampleTriggeredFilter : TimeDomainContext :=
  { acquisitionModeFilter := "triggered", channelNameFilter := "A" }

/-- A graph with a single-signal sink `"sinkC"` without settings, a dataset sink `"sinkB"` (two
names, one unit), a block that is no sink, and a single-signal sink `"sinkA"` with a name, a
unit and the sample rate 2, visited in this order. -/
def exampleMixedGraph : Graph :=
  { blocks := [
      { typeName := "gr::basic::DataSink<double>", uniqueName := "sinkC", settings := [] },
      { typeName := "gr::basic::DataSetSink<double>", uniqueName := "sinkB"
        settings := [("signal_names", Pmt.stringVector ["A", "B"]),
          ("signal_units", Pmt.stringVector ["V"])] },
      { typeName := "gr::testing::Source<double>", uniqueName := "source", settings := [] },
      { typeName := "gr::basic::DataSink<double>", uniqueName := "sinkA"
        settings := [("sample_rate", Pmt.float ⟨0x40000000⟩), ("signal_name", Pmt.string "x"),
          ("signal_unit", Pmt.string "A")] }] }

/-- The dataset `exampleDataSetA` without any range. -/
def exampleNoRangesDataSet : DataSet := { exampleDataSetA with signal_ranges := [] }

/-- The dataset `exampleDataSetAB` with timing tags for its first signal only. -/
def exampleShortEventsDataSet : DataSet :=
  { exampleDataSetAB with timing_events := [[exampleNamedTag]] }

/-- The dataset `exampleDataSetA` with one timing tag for its signal, carrying the given
trigger name. -/
def exampleTimedDataSet (trigger_name : String) : DataSet :=
  { exampleDataSetA with
    timing_events := [[⟨0, [(gr.tag.TRIGGER_NAME, Pmt.string trigger_name)]⟩]] }

/-- A dataset with the single signal `"C"` in seconds, two samples and complete metadata. -/
def exampleDataSetC : DataSet :=
  { signal_names := ["C"]
    signal_units := ["s"]
    signal_ranges := [[⟨0⟩, ⟨0x3FF0000000000000⟩]]
    signal_values := [⟨0⟩, ⟨0⟩]
    signal_errors := [⟨0⟩, ⟨0⟩]
    extents := [1, 2] }

/-- Caches that hold one `Triggered` mode tap for the signal `"A"` with the given queue. -/
def exampleTriggeredCaches (queue : List DataSet) : PassState :=
  { dataSetPollers := [(dataSetKey exampleTriggeredFilter .Triggered "A",
      { poller := some { dataSets := queue }, in_use := false })] }

/-- A `DataSet` mode subscription to the signal `"A"`. -/
def exampleDataSetFilter : TimeDomainContext :=
  { acquisitionModeFilter := "dataset", channelNameFilter := "A" }

/-- Caches that hold one `DataSet` mode tap for the signal `"A"` with the given queue. -/
def exampleDataSetModeCaches (queue : List DataSet) : PassState :=
  { dataSetPollers := [(dataSetKey exampleDataSetFilter .DataSet "A",
      { poller := some { dataSets := queue }, in_use := false })] }

/-- The subscription `exampleDataSetFilter` with `preSamples` set, a field that `DataSet` mode
does not use. -/
def exampleDataSetFilterPre : TimeDomainContext :=
  { acquisitionModeFilter := "dataset", channelNameFilter := "A", preSamples := 1 }

/-- The subscription `exampleTriggeredFilter` with `snapshotDelay` set, a field that
`Triggered` mode does not use. -/
def exampleTriggeredFilterDelay : TimeDomainContext :=
  { acquisitionModeFilter := "triggered", channelNameFilter := "A", snapshotDelay := 7 }

/-- The subscription `exampleTriggeredFilter` with `maximumWindowSize` set, a field that
`Triggered` mode does not use. -/
def exampleTriggeredFilterWindow : TimeDomainContext :=
  { acquisitionModeFilter := "triggered", channelNameFilter := "A", maximumWindowSize := 9 }

/-- Three tags of one batch: a minimum of 1, then a maximum of 3 with a minimum of 2, then a
signal name. -/
def exampleRangeTags : List Tag :=
  [⟨0, [(gr.tag.SIGNAL_MIN, Pmt.float CFloat.one)]⟩,
    ⟨1, [(gr.tag.SIGNAL_MAX, Pmt.float ⟨0x40400000⟩),
      (gr.tag.SIGNAL_MIN, Pmt.float ⟨0x40000000⟩)]⟩,
    ⟨2, [(gr.tag.SIGNAL_NAME, Pmt.string "X")]⟩]

/-- A setting notification of `"sink0"` that renames the signal and doubles the sample
rate. -/
def exampleRetune : Message :=
  { endpoint := block.property.kSetting
    serviceName := "sink0"
    data := some [("sample_rate", Pmt.float ⟨0x40000000⟩),
      ("signal_name", Pmt.string "renamed")] }

/-- A setting notification of `"sink0"` that carries a new signal name together with both
list keys. -/
def exampleListsAndName : Message :=
  { endpoint := block.property.kSetting
    serviceName := "sink0"
    data := some [("signal_name", Pmt.string "renamed"),
      ("signal_names", Pmt.stringVector ["renamed"]),
      ("signal_units", Pmt.stringVector ["V"])] }

namespace StdMap

variable {K V : Type}

theorem find_eq_none_iff [DecidableEq K] (m : StdMap K V) (k : K) :
    find m k = none ↔ k ∉ keys m := by
  induction m with
  | nil => simp [find, keys]
  | cons kv rest ih =>
    obtain ⟨k1, v1⟩ := kv
    by_cases h : k1 = k
    · simp [find, keys, h]
    · have h2 : ¬ k = k1 := fun e => h e.symm
      simp only [find, h, if_false, ih, keys, List.map_cons, List.mem_cons, h2, false_or]

theorem find_isSome_iff [DecidableEq K] (m : StdMap K V) (k : K) :
    (find m k).isSome = true ↔ k ∈ keys m := by
  rw [← not_iff_not, ← find_eq_none_iff]
  cases find m k <;> simp

theorem keys_insertSorted_perm [Ord K] (k : K) (v : V) (m : StdMap K V) :
    (keys (insertSorted k v m)).Perm (k :: keys m) := by
  induction m with
  | nil => simp [insertSorted, keys]
  | cons kv rest ih =>
    obtain ⟨k1, v1⟩ := kv
    by_cases h : compare k k1 = Ordering.lt
    · simp [insertSorted, h, keys]
    · simp only [insertSorted, h, if_false, keys, List.map_cons]
      exact (List.Perm.cons k1 ih).trans (List.Perm.swap k k1 _)

theorem find_insertSorted_ne [DecidableEq K] [Ord K] (k k2 : K) (v : V) (m : StdMap K V)
    (h : k ≠ k2) : find (insertSorted k v m) k2 = find m k2 := by
  induction m with
  | nil => simp [insertSorted, find, h]
  | cons kv rest ih =>
    obtain ⟨k1, v1⟩ := kv
    by_cases hc : compare k k1 = Ordering.lt
    · simp [insertSorted, hc, find, h]
    · simp [insertSorted, hc, find, ih]

theorem find_insertSorted_self [DecidableEq K] [Ord K] (k : K) (v : V) (m : StdMap K V)
    (h : find m k = none) : find (insertSorted k v m) k = some v := by
  induction m with
  | nil => simp [insertSorted, find]
  | cons kv rest ih =>
    obtain ⟨k1, v1⟩ := kv
    by_cases hk : k1 = k
    · simp [find, hk] at h
    · simp only [find, hk, if_false] at h
      by_cases hc : compare k k1 = Ordering.lt
      · simp [insertSorted, hc, find]
      · simp [insertSorted, hc, find, hk, ih h]

theorem keys_modify [DecidableEq K] (f : V → V) (m : StdMap K V) (k : K) :
    keys (modify f m k) = keys m := by
  induction m with
  | nil => simp [modify, keys]
  | cons kv rest ih =>
    obtain ⟨k1, v1⟩ := kv
    by_cases hk : k1 = k
    · simp [modify, hk, keys]
    · simp only [modify, hk, if_false, keys, List.map_cons] at ih ⊢
      rw [ih]

theorem find_modify_self [DecidableEq K] (f : V → V) (m : StdMap K V) (k : K) :
    find (modify f m k) k = (find m k).map f := by
  induction m with
  | nil => simp [modify, find]
  | cons kv rest ih =>
    obtain ⟨k1, v1⟩ := kv
    by_cases hk : k1 = k
    · simp [modify, hk, find]
    · simp [modify, hk, find, ih]

theorem find_modify_ne [DecidableEq K] (f : V → V) (m : StdMap K V) (k k2 : K) (h : k ≠ k2) :
    find (modify f m k) k2 = find m k2 := by
  induction m with
  | nil => simp [modify, find]
  | cons kv rest ih =>
    obtain ⟨k1, v1⟩ := kv
    by_cases hk : k1 = k
    · subst hk
      simp [modify, find, h]
    · by_cases hk2 : k1 = k2
      · subst hk2
        simp [modify, hk, find]
      · simp [modify, hk, find, hk2, ih]

theorem WF_insertSorted [DecidableEq K] [Ord K] (k : K) (v : V) (m : StdMap K V) (hm : WF m)
    (h : find m k = none) : WF (insertSorted k v m) := by
  unfold WF at *
  have hp := keys_insertSorted_perm k v m
  unfold keys at hp
  rw [hp.nodup_iff]
  exact List.nodup_cons.mpr ⟨(find_eq_none_iff m k).mp h, hm⟩

theorem WF_emplace [DecidableEq K] [Ord K] (m : StdMap K V) (k : K) (v : V) (hm : WF m) :
    WF (emplace m k v) := by
  unfold emplace
  cases h : find m k with
  | none => simpa using WF_insertSorted k v m hm h
  | some x => simpa using hm

theorem WF_modify [DecidableEq K] (f : V → V) (m : StdMap K V) (k : K) (hm : WF m) :
    WF (modify f m k) := by
  unfold WF at *
  have := keys_modify f m k
  unfold keys at this
  rw [this]
  exact hm

theorem count_keys_of_find_isSome [DecidableEq K] (m : StdMap K V) (k : K) (hm : WF m)
    (h : (find m k).isSome = true) : (keys m).count k = 1 :=
  List.count_eq_one_of_mem hm ((find_isSome_iff m k).mp h)

end StdMap

/-! ## Trigger matcher and acquisition mode -/

/-- C1: the trigger matcher is three-valued. With an empty requested name a tag that carries a
trigger-name entry is `Matching` and a tag without one is `Ignore`; with a requested name `N`
that is not empty, a tag whose trigger name is the string `N` is `Matching`, a tag whose
trigger name is another string is `NotMatching`, and a tag without the entry is `Ignore`. -/
theorem matcher_three_valued (N : String) (tag : Tag) :
    (matcher "" tag = (if (tag.get gr.tag.TRIGGER_NAME).isSome then MatchResult.Matching
      else MatchResult.Ignore)) ∧
    (N ≠ "" → tag.get gr.tag.TRIGGER_NAME = some (Pmt.string N) →
      matcher N tag = MatchResult.Matching) ∧
    (N ≠ "" → ∀ s : String, s ≠ N → tag.get gr.tag.TRIGGER_NAME = some (Pmt.string s) →
      matcher N tag = MatchResult.NotMatching) ∧
    (N ≠ "" → tag.get gr.tag.TRIGGER_NAME = none → matcher N tag = MatchResult.Ignore) ∧
    matcher "T1" ⟨0, [(gr.tag.TRIGGER_NAME, Pmt.string "T1")]⟩ = MatchResult.Matching ∧
    matcher "T1" ⟨0, [(gr.tag.TRIGGER_NAME, Pmt.string "T2")]⟩ = MatchResult.NotMatching ∧
    matcher "T1" ⟨0, []⟩ = MatchResult.Ignore := by
  refine ⟨?_, ?_, ?_, ?_, by decide, by decide, by decide⟩
  · simp [matcher]
  · intro hN h
    simp [matcher, hN, h]
  · intro hN s hs h
    simp [matcher, hN, h, hs]
  · intro hN h
    simp [matcher, hN, h]

/-- C2: `parseAcquisitionMode` returns each mode for exactly its lowercase name and throws
`std::invalid_argument` for every other string, the empty string and `"Continuous"` among
them. -/
theorem parseAcquisitionMode_spec (v : String) :
    (parseAcquisitionMode v = .ok .Continuous ↔ v = "continuous") ∧
    (parseAcquisitionMode v = .ok .Triggered ↔ v = "triggered") ∧
    (parseAcquisitionMode v = .ok .Multiplexed ↔ v = "multiplexed") ∧
    (parseAcquisitionMode v = .ok .Snapshot ↔ v = "snapshot") ∧
    (parseAcquisitionMode v = .ok .DataSet ↔ v = "dataset") ∧
    ((∃ what, parseAcquisitionMode v = .error (.invalid_argument what)) ↔
      v ∉ ["continuous", "triggered", "multiplexed", "snapshot", "dataset"]) ∧
    (∃ what, parseAcquisitionMode "" = .error (.invalid_argument what)) ∧
    (∃ what, parseAcquisitionMode "Continuous" = .error (.invalid_argument what)) := by
  refine ⟨?_, ?_, ?_, ?_, ?_, ?_, ⟨_, rfl⟩, ⟨_, rfl⟩⟩
  all_goals
    unfold parseAcquisitionMode
    by_cases h1 : v = "continuous"
    · subst h1; simp; try decide
    by_cases h2 : v = "triggered"
    · subst h2; simp; try decide
    by_cases h3 : v = "multiplexed"
    · subst h3; simp; try decide
    by_cases h4 : v = "snapshot"
    · subst h4; simp; try decide
    by_cases h5 : v = "dataset"
    · subst h5; simp; try decide
    simp [h1, h2, h3, h4, h5]

/-! ## Streaming path: one tap per signal name -/

theorem getStreamingPoller_present (registry : DataSinkRegistry) (st : PassState) (s : String)
    (h : (StdMap.find st.streamingPollers (streamingKey s)).isSome = true) :
    getStreamingPoller registry st s = (st, some (streamingKey s)) := by
  unfold getStreamingPoller
  cases hf : StdMap.find st.streamingPollers (streamingKey s) with
  | none => simp [hf] at h
  | some e => simp [hf]

theorem getStreamingPoller_absent (registry : DataSinkRegistry) (st : PassState) (s : String)
    (h : StdMap.find st.streamingPollers (streamingKey s) = none) :
    getStreamingPoller registry st s =
      ({ st with
          streamingPollers := StdMap.insertSorted (streamingKey s)
            { poller := registry.getStreamingPoller s } st.streamingPollers
          requests := st.requests ++ [.getStreamingPoller s] },
        some (streamingKey s)) := by
  unfold getStreamingPoller
  simp [h, StdMap.emplace]

theorem getStreamingPoller_find_isSome (registry : DataSinkRegistry) (st : PassState)
    (s : String) :
    (StdMap.find (getStreamingPoller registry st s).1.streamingPollers
      (streamingKey s)).isSome = true := by
  cases hf : StdMap.find st.streamingPollers (streamingKey s) with
  | none =>
    rw [getStreamingPoller_absent registry st s hf]
    simp [StdMap.find_insertSorted_self _ _ _ hf]
  | some e =>
    rw [getStreamingPoller_present registry st s (by simp [hf])]
    simp [hf]

/-- What `handleStreamingSubscription` does to the caches and logs once `getStreamingPoller`
has run: the keys and the request log stay as `getStreamingPoller` left them. -/
theorem handleStreamingSubscription_keys_requests (registry : DataSinkRegistry) (st : PassState)
    (context : TimeDomainContext) (s : String) :
    StdMap.keys (handleStreamingSubscription registry st context s).1.streamingPollers =
      StdMap.keys (getStreamingPoller registry st s).1.streamingPollers ∧
    (handleStreamingSubscription registry st context s).1.requests =
      (getStreamingPoller registry st s).1.requests := by
  unfold handleStreamingSubscription
  rcases hg : getStreamingPoller registry st s with ⟨st1, it⟩
  cases it with
  | none => simp
  | some key =>
    simp only
    cases hf : StdMap.find st1.streamingPollers key with
    | none => simp
    | some e =>
      simp only
      cases hp : e.poller with
      | none => simp
      | some p => simp [StdMap.keys_modify]

theorem handleStreamingSubscription_fold_present (registry : DataSinkRegistry) (s : String)
    (contexts : List TimeDomainContext) (st : PassState)
    (h : (StdMap.find st.streamingPollers (streamingKey s)).isSome = true) :
    (contexts.foldl (fun st c => (handleStreamingSubscription registry st c s).1) st).requests =
      st.requests := by
  induction contexts generalizing st with
  | nil => rfl
  | cons c rest ih =>
    simp only [List.foldl_cons]
    have hk := handleStreamingSubscription_keys_requests registry st c s
    rw [getStreamingPoller_present registry st s h] at hk
    have h2 : (StdMap.find (handleStreamingSubscription registry st c s).1.streamingPollers
        (streamingKey s)).isSome = true := by
      rw [StdMap.find_isSome_iff, hk.1, ← StdMap.find_isSome_iff]
      exact h
    rw [ih _ h2, hk.2]

/-- C3: after `getStreamingPoller` for the signal name `s` the streaming cache holds exactly one
entry under the key `(Continuous, s, 0, 0, 0, 0ns, "")`; the filter has no part in the key
(whatever the filter, `handleStreamingSubscription` leaves the keys and requests that
`getStreamingPoller` made from `s` alone); a second call returns the same entry, changes
neither cache nor request log; and any number of continuous subscriptions to `s`, one at
least, ask the registry once when the entry was absent and never when it was present. -/
theorem getStreamingPoller_one_tap (registry : DataSinkRegistry) (st : PassState) (s : String)
    (hwf : StdMap.WF st.streamingPollers) :
    (getStreamingPoller registry st s).2 = some ⟨.Continuous, s, 0, 0, 0, 0, ""⟩ ∧
    (StdMap.keys (getStreamingPoller registry st s).1.streamingPollers).count
      ⟨.Continuous, s, 0, 0, 0, 0, ""⟩ = 1 ∧
    (∀ context : TimeDomainContext,
      StdMap.keys (handleStreamingSubscription registry st context s).1.streamingPollers =
        StdMap.keys (getStreamingPoller registry st s).1.streamingPollers ∧
      (handleStreamingSubscription registry st context s).1.requests =
        (getStreamingPoller registry st s).1.requests) ∧
    getStreamingPoller registry (getStreamingPoller registry st s).1 s =
      getStreamingPoller registry st s ∧
    (∀ (context : TimeDomainContext) (contexts : List TimeDomainContext),
      ((context :: contexts).foldl
        (fun st c => (handleStreamingSubscription registry st c s).1) st).requests =
      st.requests ++
        (if (StdMap.find st.streamingPollers (streamingKey s)).isSome then []
          else [RegistryRequest.getStreamingPoller s])) := by
  have hkey : (⟨.Continuous, s, 0, 0, 0, 0, ""⟩ : PollerKey) = streamingKey s := rfl
  rw [hkey]
  refine ⟨?_, ?_, ?_, ?_, ?_⟩
  · cases hf : StdMap.find st.streamingPollers (streamingKey s) with
    | none => rw [getStreamingPoller_absent registry st s hf]
    | some e => rw [getStreamingPoller_present registry st s (by simp [hf])]
  · apply StdMap.count_keys_of_find_isSome
    · cases hf : StdMap.find st.streamingPollers (streamingKey s) with
      | none =>
        rw [getStreamingPoller_absent registry st s hf]
        exact StdMap.WF_insertSorted _ _ _ hwf hf
      | some e =>
        rw [getStreamingPoller_present registry st s (by simp [hf])]
        exact hwf
    · exact getStreamingPoller_find_isSome registry st s
  · intro context
    exact handleStreamingSubscription_keys_requests registry st context s
  · have h := getStreamingPoller_find_isSome registry st s
    rw [getStreamingPoller_present registry _ s h]
    cases hf : StdMap.find st.streamingPollers (streamingKey s) with
    | none => rw [getStreamingPoller_absent registry st s hf]
    | some e => rw [getStreamingPoller_present registry st s (by simp [hf])]
  · intro context contexts
    simp only [List.foldl_cons]
    have hk := handleStreamingSubscription_keys_requests registry st context s
    have h2 : (StdMap.find (handleStreamingSubscription registry st context s).1.streamingPollers
        (streamingKey s)).isSome = true := by
      rw [StdMap.find_isSome_iff, hk.1, ← StdMap.find_isSome_iff]
      exact getStreamingPoller_find_isSome registry st s
    rw [handleStreamingSubscription_fold_present registry s contexts _ h2, hk.2]
    cases hf : StdMap.find st.streamingPollers (streamingKey s) with
    | none =>
      rw [getStreamingPoller_absent registry st s hf]
      simp
    | some e =>
      rw [getStreamingPoller_present registry st s (by simp [hf])]
      simp

/-- C3, worked example: three continuous subscriptions to `"X"` on empty caches. -/
theorem getStreamingPoller_one_tap_witness :
    StdMap.WF ({} : PassState).streamingPollers ∧
    (getStreamingPoller exampleRegistry {} "X").2 = some ⟨.Continuous, "X", 0, 0, 0, 0, ""⟩ ∧
    (([{}, { preSamples := 5 }, { triggerNameFilter := "T" }] : List TimeDomainContext).foldl
      (fun st c => (handleStreamingSubscription exampleRegistry st c "X").1) {}).requests =
      [RegistryRequest.getStreamingPoller "X"] :=
  ⟨by simp [StdMap.WF],
    (getStreamingPoller_one_tap exampleRegistry {} "X" (by simp [StdMap.WF])).1,
    (getStreamingPoller_one_tap exampleRegistry {} "X" (by simp [StdMap.WF])).2.2.2.2 {}
      [{ preSamples := 5 }, { triggerNameFilter := "T" }]⟩

/-! ## Windowed path: the key carries the whole filter -/

theorem getDataSetPoller_present (registry : DataSinkRegistry) (st : PassState)
    (context : TimeDomainContext) (mode : AcquisitionMode) (s : String)
    (h : (StdMap.find st.dataSetPollers (dataSetKey context mode s)).isSome = true) :
    getDataSetPoller registry st context mode s = (st, some (dataSetKey context mode s)) := by
  unfold getDataSetPoller
  cases hf : StdMap.find st.dataSetPollers (dataSetKey context mode s) with
  | none => simp [hf] at h
  | some e => simp [hf]

theorem getDataSetPoller_find_isSome (registry : DataSinkRegistry) (st : PassState)
    (context : TimeDomainContext) (mode : AcquisitionMode) (s : String)
    (hmode : mode ≠ .Continuous) :
    (StdMap.find (getDataSetPoller registry st context mode s).1.dataSetPollers
      (dataSetKey context mode s)).isSome = true ∧
    (getDataSetPoller registry st context mode s).2 = some (dataSetKey context mode s) := by
  cases hf : StdMap.find st.dataSetPollers (dataSetKey context mode s) with
  | some e =>
    rw [getDataSetPoller_present registry st context mode s (by simp [hf])]
    simp [hf]
  | none =>
    unfold getDataSetPoller
    cases mode <;>
      simp_all [StdMap.emplace, StdMap.find_insertSorted_self _ _ _ hf]

set_option maxRecDepth 10000 in
/-- C4, at the failing input: two `DataSet` mode subscriptions to `"A"` that differ only in
`preSamples`, which that mode does not use. `getDataSetPoller` copies every field of the
filter into the key whatever the mode, so the second key carries `pre_samples = 1`, not zero,
the keys differ, and a pass over both subscriptions asks the registry twice, with the same
request, and caches two taps. The same for two `Triggered` subscriptions that differ only in
`snapshotDelay` or only in `maximumWindowSize`: the two requests to the registry are equal,
the keys are not. Subscriptions that agree in every field share one tap. -/
theorem getDataSetPoller_irrelevant_field_second_tap :
    dataSetKey exampleDataSetFilter .DataSet "A" ≠
      dataSetKey exampleDataSetFilterPre .DataSet "A" ∧
    (dataSetKey exampleDataSetFilterPre .DataSet "A").pre_samples = 1 ∧
    (handleSubscriptions exampleRegistry [exampleDataSetFilter, exampleDataSetFilterPre]
      {}).bind (fun r => .ok (r.1.requests, StdMap.keys r.1.dataSetPollers)) =
      .ok ([RegistryRequest.getDataSetPoller "A", RegistryRequest.getDataSetPoller "A"],
        [dataSetKey exampleDataSetFilter .DataSet "A",
          dataSetKey exampleDataSetFilterPre .DataSet "A"]) ∧
    (dataSetKey exampleTriggeredFilterDelay .Triggered "A").snapshot_delay = 7 ∧
    (handleSubscriptions exampleRegistry [exampleTriggeredFilter, exampleTriggeredFilterDelay]
      {}).bind (fun r => .ok (r.1.requests, StdMap.keys r.1.dataSetPollers)) =
      .ok ([RegistryRequest.getTriggerPoller "A" "" 0 0,
          RegistryRequest.getTriggerPoller "A" "" 0 0],
        [dataSetKey exampleTriggeredFilter .Triggered "A",
          dataSetKey exampleTriggeredFilterDelay .Triggered "A"]) ∧
    (dataSetKey exampleTriggeredFilterWindow .Triggered "A").maximum_window_size = 9 ∧
    (handleSubscriptions exampleRegistry [exampleTriggeredFilter, exampleTriggeredFilterWindow]
      {}).bind (fun r => .ok (r.1.requests, StdMap.keys r.1.dataSetPollers)) =
      .ok ([RegistryRequest.getTriggerPoller "A" "" 0 0,
          RegistryRequest.getTriggerPoller "A" "" 0 0],
        [dataSetKey exampleTriggeredFilter .Triggered "A",
          dataSetKey exampleTriggeredFilterWindow .Triggered "A"]) ∧
    (handleSubscriptions exampleRegistry [exampleTriggeredFilter, exampleTriggeredFilter]
      {}).bind (fun r => .ok (r.1.requests, StdMap.keys r.1.dataSetPollers)) =
      .ok ([RegistryRequest.getTriggerPoller "A" "" 0 0],
        [dataSetKey exampleTriggeredFilter .Triggered "A"]) := by
  decide

/-! ## Mark and sweep -/

theorem StdMap.insertSorted_perm {K V : Type} [Ord K] (k : K) (v : V) (m : StdMap K V) :
    (StdMap.insertSorted k v m).Perm ((k, v) :: m) := by
  induction m with
  | nil => simp [StdMap.insertSorted]
  | cons kv rest ih =>
    obtain ⟨k1, v1⟩ := kv
    by_cases h : compare k k1 = Ordering.lt
    · simp [StdMap.insertSorted, h]
    · simp only [StdMap.insertSorted, h, if_false]
      exact (List.Perm.cons (k1, v1) ih).trans (List.Perm.swap (k, v) (k1, v1) _)

theorem StdMap.mem_emplace {K V : Type} [DecidableEq K] [Ord K] (m : StdMap K V) (k : K) (v : V)
    (kv : K × V) (h : kv ∈ StdMap.emplace m k v) : kv ∈ m ∨ kv.1 = k := by
  unfold StdMap.emplace at h
  split at h
  · exact Or.inl h
  · rw [(StdMap.insertSorted_perm k v m).mem_iff, List.mem_cons] at h
    rcases h with h | h
    · exact Or.inr (by rw [h])
    · exact Or.inl h

theorem StdMap.mem_modify {K V : Type} [DecidableEq K] (f : V → V) (m : StdMap K V) (k : K)
    (kv : K × V) (h : kv ∈ StdMap.modify f m k) : kv ∈ m ∨ kv.1 = k := by
  induction m with
  | nil => simp [StdMap.modify] at h
  | cons e rest ih =>
    obtain ⟨k1, v1⟩ := e
    by_cases hk : k1 = k
    · simp only [StdMap.modify, hk, if_true, List.mem_cons] at h
      rcases h with h | h
      · exact Or.inr (by rw [h])
      · exact Or.inl (List.mem_cons_of_mem _ h)
    · simp only [StdMap.modify, hk, if_false, List.mem_cons] at h
      rcases h with h | h
      · exact Or.inl (by rw [h]; exact List.mem_cons_self _ _)
      · rcases ih h with h2 | h2
        · exact Or.inl (List.mem_cons_of_mem _ h2)
        · exact Or.inr h2

/-- The streaming handler touches the streaming cache at its own key only. -/
theorem handleStreamingSubscription_frame (registry : DataSinkRegistry) (st : PassState)
    (context : TimeDomainContext) (s : String) :
    (∀ kv ∈ (handleStreamingSubscription registry st context s).1.streamingPollers,
      kv ∈ st.streamingPollers ∨ kv.1 = streamingKey s) ∧
    (handleStreamingSubscription registry st context s).1.dataSetPollers = st.dataSetPollers := by
  have hget : (∀ kv ∈ (getStreamingPoller registry st s).1.streamingPollers,
      kv ∈ st.streamingPollers ∨ kv.1 = streamingKey s) ∧
      (getStreamingPoller registry st s).1.dataSetPollers = st.dataSetPollers ∧
      (getStreamingPoller registry st s).2 = some (streamingKey s) := by
    cases hf : StdMap.find st.streamingPollers (streamingKey s) with
    | none =>
      rw [getStreamingPoller_absent registry st s hf]
      refine ⟨fun kv hkv => ?_, rfl, rfl⟩
      have := (StdMap.insertSorted_perm _ _ _).mem_iff.mp hkv
      rcases List.mem_cons.mp this with h | h
      · exact Or.inr (by rw [h])
      · exact Or.inl h
    | some e =>
      rw [getStreamingPoller_present registry st s (by simp [hf])]
      exact ⟨fun kv hkv => Or.inl hkv, rfl, rfl⟩
  unfold handleStreamingSubscription
  rcases hg : getStreamingPoller registry st s with ⟨st1, it⟩
  rw [hg] at hget
  obtain ⟨h1, h2, h3⟩ := hget
  simp only at h1 h2 h3
  subst h3
  simp only
  cases hf : StdMap.find st1.streamingPollers (streamingKey s) with
  | none => exact ⟨h1, h2⟩
  | some e =>
    simp only
    cases hp : e.poller with
    | none => exact ⟨h1, h2⟩
    | some p =>
      refine ⟨fun kv hkv => ?_, h2⟩
      rcases StdMap.mem_modify _ _ _ kv hkv with h | h
      · exact h1 kv h
      · exact Or.inr h

/-- The windowed handler touches the dataset cache at its own key only, also when it is left
by an exception. -/
theorem handleDataSetSubscription_frame (registry : DataSinkRegistry) (st st1 : PassState)
    (context : TimeDomainContext) (mode : AcquisitionMode) (s : String)
    (h : (handleDataSetSubscription registry st context mode s).state? = some st1) :
    (∀ kv ∈ st1.dataSetPollers,
      kv ∈ st.dataSetPollers ∨ kv.1 = dataSetKey context mode s) ∧
    st1.streamingPollers = st.streamingPollers := by
  have hget : (∀ kv ∈ (getDataSetPoller registry st context mode s).1.dataSetPollers,
      kv ∈ st.dataSetPollers ∨ kv.1 = dataSetKey context mode s) ∧
      (getDataSetPoller registry st context mode s).1.streamingPollers = st.streamingPollers ∧
      ∀ k, (getDataSetPoller registry st context mode s).2 = some k →
        k = dataSetKey context mode s := by
    cases hf : StdMap.find st.dataSetPollers (dataSetKey context mode s) with
    | some e =>
      rw [getDataSetPoller_present registry st context mode s (by simp [hf])]
      exact ⟨fun kv hkv => Or.inl hkv, rfl, fun k hk => by simpa using hk.symm⟩
    | none =>
      have hm : ∀ v, ∀ kv ∈ StdMap.emplace st.dataSetPollers (dataSetKey context mode s) v,
          kv ∈ st.dataSetPollers ∨ kv.1 = dataSetKey context mode s :=
        fun v kv hkv => StdMap.mem_emplace _ _ _ kv hkv
      unfold getDataSetPoller
      simp only [hf]
      cases mode
      · exact ⟨fun kv hkv => Or.inl hkv, rfl, fun k hk => by simp at hk⟩
      all_goals exact ⟨hm _, rfl, fun k hk => by simpa using hk.symm⟩
  unfold handleDataSetSubscription at h
  rcases hg : getDataSetPoller registry st context mode s with ⟨st2, it⟩
  rw [hg] at hget h
  obtain ⟨h1, h2, h3⟩ := hget
  simp only at h1 h2 h3
  cases it with
  | none =>
    simp [Step.state?] at h
    subst h
    exact ⟨h1, h2⟩
  | some key =>
    have hk := h3 key rfl
    subst hk
    simp only at h
    cases hf : StdMap.find st2.dataSetPollers (dataSetKey context mode s) with
    | none =>
      simp [hf, Step.state?] at h
      subst h
      exact ⟨h1, h2⟩
    | some e =>
      simp only [hf] at h
      cases hp : e.poller with
      | none =>
        simp [hp, Step.state?] at h
        subst h
        exact ⟨h1, h2⟩
      | some p =>
        simp only [hp] at h
        split at h
        all_goals simp only [Step.state?, Option.some.injEq] at h
        all_goals try (exact absurd h (by simp))
        all_goals
          subst h
          refine ⟨fun kv hkv => ?_, h2⟩
          rcases StdMap.mem_modify _ _ _ kv hkv with h | h
          · exact h1 kv h
          · exact Or.inr h

theorem handleChannelNames_frame (registry : DataSinkRegistry) (filterIn : TimeDomainContext)
    (mode : AcquisitionMode) (names : List String) (s s1 : PassState × Bool)
    (h : (handleChannelNames registry filterIn mode names s).state? = some s1) :
    (∀ kv ∈ s1.1.streamingPollers, kv ∈ s.1.streamingPollers ∨
      (mode = .Continuous ∧ kv.1 ∈ names.map streamingKey)) ∧
    (∀ kv ∈ s1.1.dataSetPollers, kv ∈ s.1.dataSetPollers ∨
      (mode ≠ .Continuous ∧ kv.1 ∈ names.map (dataSetKey filterIn mode))) := by
  induction names generalizing s with
  | nil =>
    simp [handleChannelNames, Step.state?] at h
    subst h
    exact ⟨fun kv hkv => Or.inl hkv, fun kv hkv => Or.inl hkv⟩
  | cons name rest ih =>
    obtain ⟨st, fin⟩ := s
    unfold handleChannelNames at h
    by_cases hmode : mode = .Continuous
    · subst hmode
      simp only [if_true] at h
      have hfr := handleStreamingSubscription_frame registry st filterIn name
      obtain ⟨i1, i2⟩ := ih _ h
      refine ⟨fun kv hkv => ?_, fun kv hkv => ?_⟩
      · rcases i1 kv hkv with h1 | h1
        · rcases hfr.1 kv h1 with h2 | h2
          · exact Or.inl h2
          · exact Or.inr ⟨rfl, by simp [h2]⟩
        · exact Or.inr ⟨rfl, by simp [h1.2]⟩
      · rcases i2 kv hkv with h1 | h1
        · exact Or.inl (by simpa [hfr.2] using h1)
        · exact absurd rfl h1.1
    · simp only [hmode, if_false] at h
      cases hd : handleDataSetSubscription registry st filterIn mode name with
      | done st2 r =>
        simp only [hd] at h
        have hfr := handleDataSetSubscription_frame registry st st2 filterIn mode name
          (by simp [hd, Step.state?])
        obtain ⟨i1, i2⟩ := ih _ h
        refine ⟨fun kv hkv => ?_, fun kv hkv => ?_⟩
        · rcases i1 kv hkv with h1 | h1
          · exact Or.inl (by simpa [hfr.2] using h1)
          · exact absurd h1.1 hmode
        · rcases i2 kv hkv with h1 | h1
          · rcases hfr.1 kv h1 with h2 | h2
            · exact Or.inl h2
            · exact Or.inr ⟨hmode, by simp [h2]⟩
          · exact Or.inr ⟨hmode, by simp [h1.2]⟩
      | thrown st2 e =>
        simp only [hd, Step.state?, Option.some.injEq] at h
        have hfr := handleDataSetSubscription_frame registry st st2 filterIn mode name
          (by simp [hd, Step.state?])
        subst h
        refine ⟨fun kv hkv => Or.inl (by simpa [hfr.2] using hkv), fun kv hkv => ?_⟩
        rcases hfr.1 kv hkv with h2 | h2
        · exact Or.inl h2
        · exact Or.inr ⟨hmode, by simp [h2]⟩
      | undefined u =>
        simp [hd, Step.state?] at h

theorem handleSubscriptionTry_frame (registry : DataSinkRegistry) (filterIn : TimeDomainContext)
    (s s1 : PassState × Bool)
    (h : (handleSubscriptionTry registry filterIn s).state? = some s1) :
    (∀ kv ∈ s1.1.streamingPollers, kv ∈ s.1.streamingPollers ∨
      kv.1 ∈ mappedStreamingKeys [filterIn]) ∧
    (∀ kv ∈ s1.1.dataSetPollers, kv ∈ s.1.dataSetPollers ∨
      kv.1 ∈ mappedDataSetKeys [filterIn]) := by
  unfold handleSubscriptionTry at h
  cases hp : parseAcquisitionMode filterIn.acquisitionModeFilter with
  | error e =>
    simp [hp, Step.state?] at h
    subst h
    exact ⟨fun kv hkv => Or.inl hkv, fun kv hkv => Or.inl hkv⟩
  | ok mode =>
    simp only [hp] at h
    obtain ⟨i1, i2⟩ := handleChannelNames_frame registry filterIn mode _ s s1 h
    refine ⟨fun kv hkv => ?_, fun kv hkv => ?_⟩
    · rcases i1 kv hkv with h1 | h1
      · exact Or.inl h1
      · exact Or.inr (by simpa [mappedStreamingKeys, hp, h1.1] using h1.2)
    · rcases i2 kv hkv with h1 | h1
      · exact Or.inl h1
      · exact Or.inr (by simpa [mappedDataSetKeys, hp, h1.1] using h1.2)

theorem mappedStreamingKeys_cons (filterIn : TimeDomainContext) (rest : List TimeDomainContext) :
    mappedStreamingKeys (filterIn :: rest) =
      mappedStreamingKeys [filterIn] ++ mappedStreamingKeys rest := by
  simp [mappedStreamingKeys]

theorem mappedDataSetKeys_cons (filterIn : TimeDomainContext) (rest : List TimeDomainContext) :
    mappedDataSetKeys (filterIn :: rest) =
      mappedDataSetKeys [filterIn] ++ mappedDataSetKeys rest := by
  simp [mappedDataSetKeys]

/-- A pass of `handleSubscriptions` leaves every cache entry as it was unless an active
subscription maps to its key. -/
theorem handleSubscriptionsLoop_frame (registry : DataSinkRegistry)
    (subs : List TimeDomainContext) (s s1 : PassState × Bool)
    (h : handleSubscriptionsLoop registry subs s = .ok s1) :
    (∀ kv ∈ s1.1.streamingPollers, kv ∈ s.1.streamingPollers ∨
      kv.1 ∈ mappedStreamingKeys subs) ∧
    (∀ kv ∈ s1.1.dataSetPollers, kv ∈ s.1.dataSetPollers ∨
      kv.1 ∈ mappedDataSetKeys subs) := by
  induction subs generalizing s with
  | nil =>
    simp [handleSubscriptionsLoop] at h
    subst h
    exact ⟨fun kv hkv => Or.inl hkv, fun kv hkv => Or.inl hkv⟩
  | cons filterIn rest ih =>
    unfold handleSubscriptionsLoop at h
    have key : ∀ s2, (handleSubscriptionTry registry filterIn s).state? = some s2 →
        handleSubscriptionsLoop registry rest s2 = .ok s1 →
        (∀ kv ∈ s1.1.streamingPollers, kv ∈ s.1.streamingPollers ∨
          kv.1 ∈ mappedStreamingKeys (filterIn :: rest)) ∧
        (∀ kv ∈ s1.1.dataSetPollers, kv ∈ s.1.dataSetPollers ∨
          kv.1 ∈ mappedDataSetKeys (filterIn :: rest)) := by
      intro s2 h2 h3
      obtain ⟨f1, f2⟩ := handleSubscriptionTry_frame registry filterIn s s2 h2
      obtain ⟨i1, i2⟩ := ih s2 h3
      rw [mappedStreamingKeys_cons, mappedDataSetKeys_cons]
      refine ⟨fun kv hkv => ?_, fun kv hkv => ?_⟩
      · rcases i1 kv hkv with h1 | h1
        · rcases f1 kv h1 with h4 | h4
          · exact Or.inl h4
          · exact Or.inr (List.mem_append_left _ h4)
        · exact Or.inr (List.mem_append_right _ h1)
      · rcases i2 kv hkv with h1 | h1
        · rcases f2 kv h1 with h4 | h4
          · exact Or.inl h4
          · exact Or.inr (List.mem_append_left _ h4)
        · exact Or.inr (List.mem_append_right _ h1)
    cases ht : handleSubscriptionTry registry filterIn s with
    | done s2 u => exact key s2 (by simp [ht, Step.state?]) (by simpa [ht] using h)
    | thrown s2 e => exact key s2 (by simp [ht, Step.state?]) (by simpa [ht] using h)
    | undefined u => simp [ht] at h

/-- C5: after a reconciliation pass (reset of all `in_use` flags, `handleSubscriptions`, erase
of the unused entries) neither cache holds an entry whose `in_use` flag is false, and no cache
holds an entry under a key that no active subscription mapped to during the pass: every such
entry that existed before the pass is gone. -/
theorem reconcilePass_sweeps_unused (registry : DataSinkRegistry)
    (activeSubscriptions : List TimeDomainContext) (st st1 : PassState) (pollersFinished : Bool)
    (h : reconcilePass registry activeSubscriptions st = .ok (st1, pollersFinished)) :
    (∀ kv ∈ st1.streamingPollers, kv.2.in_use = true) ∧
    (∀ kv ∈ st1.dataSetPollers, kv.2.in_use = true) ∧
    (∀ k ∈ StdMap.keys st.streamingPollers, k ∉ mappedStreamingKeys activeSubscriptions →
      k ∉ StdMap.keys st1.streamingPollers) ∧
    (∀ k ∈ StdMap.keys st.dataSetPollers, k ∉ mappedDataSetKeys activeSubscriptions →
      k ∉ StdMap.keys st1.dataSetPollers) := by
  unfold reconcilePass handleSubscriptions at h
  cases hl : handleSubscriptionsLoop registry activeSubscriptions (resetInUse st, true) with
  | thrown e => simp [hl] at h
  | undefined u => simp [hl] at h
  | ok s2 =>
    obtain ⟨st2, fin⟩ := s2
    simp only [hl, Outcome.ok.injEq, Prod.mk.injEq] at h
    obtain ⟨h1, -⟩ := h
    subst h1
    obtain ⟨f1, f2⟩ := handleSubscriptionsLoop_frame registry activeSubscriptions _ _ hl
    refine ⟨?_, ?_, ?_, ?_⟩
    · intro kv hkv
      simpa [eraseUnused, StdMap.eraseIf] using (List.mem_filter.mp hkv).2
    · intro kv hkv
      simpa [eraseUnused, StdMap.eraseIf] using (List.mem_filter.mp hkv).2
    · intro k _ hk hmem
      obtain ⟨kv, hkv, rfl⟩ := List.mem_map.mp hmem
      have hin := List.mem_filter.mp hkv
      rcases f1 kv hin.1 with h2 | h2
      · simp only [resetInUse, StdMap.mapValues, List.mem_map] at h2
        obtain ⟨kv0, _, rfl⟩ := h2
        simp at hin
      · exact hk h2
    · intro k _ hk hmem
      obtain ⟨kv, hkv, rfl⟩ := List.mem_map.mp hmem
      have hin := List.mem_filter.mp hkv
      rcases f2 kv hin.1 with h2 | h2
      · simp only [resetInUse, StdMap.mapValues, List.mem_map] at h2
        obtain ⟨kv0, _, rfl⟩ := h2
        simp at hin
      · exact hk h2

set_option maxRecDepth 10000 in
/-- C5, worked example: a pass with one continuous subscription to `"X"` on caches that hold a
tap for `"Old"`, which no subscription asks for any more. -/
theorem reconcilePass_sweeps_unused_witness :
    reconcilePass exampleRegistry [{ channelNameFilter := "X" }] exampleOldCaches =
      .ok (exampleSweptCaches, false) ∧
    (∀ kv ∈ exampleSweptCaches.streamingPollers, kv.2.in_use = true) ∧
    streamingKey "Old" ∉ StdMap.keys exampleSweptCaches.streamingPollers :=
  ⟨by decide,
    (reconcilePass_sweeps_unused exampleRegistry [{ channelNameFilter := "X" }]
      exampleOldCaches exampleSweptCaches false (by decide)).1,
    (reconcilePass_sweeps_unused exampleRegistry [{ channelNameFilter := "X" }]
      exampleOldCaches exampleSweptCaches false (by decide)).2.2.1 (streamingKey "Old")
      (by decide) (by decide)⟩

/-! ## Windowed replies -/

theorem Outcome.bind_eq_ok {α β : Type} (x : Outcome α) (f : α → Outcome β) (b : β) :
    (x >>= f) = .ok b ↔ ∃ a, x = .ok a ∧ f a = .ok b := by
  cases x with
  | ok a => exact ⟨fun h => ⟨a, rfl, h⟩, fun ⟨a1, h1, h2⟩ => by cases h1; exact h2⟩
  | thrown e => exact ⟨fun h => (by cases h), fun ⟨a1, h1, _⟩ => (by cases h1)⟩
  | undefined u => exact ⟨fun h => (by cases h), fun ⟨a1, h1, _⟩ => (by cases h1)⟩

theorem subspan_eq_ok {α : Type} (xs ys : List α) (offset count : Nat)
    (hlen : xs.length < SIZE_MOD) (h : subspan xs offset count = .ok ys) :
    ys = (xs.drop offset).take count := by
  unfold subspan at h
  split at h
  · split at h
    · rename_i hc
      cases h
      rw [List.take_of_length_le]
      rw [List.length_drop, hc]
      omega
    · split at h
      · cases h; rfl
      · cases h
  · cases h

/-- The slices that `DataSet` mode cuts, whenever the cut is defined: the `n` elements from
`i * n` on if the array holds `(i + 1) * n` elements, nothing otherwise. -/
theorem processSlices_spec (dataSet : DataSet) (i n : Nat) (values errors : List CDouble)
    (hext : dataSet.extents[1]? = some (n : Int)) (hfit : (i + 1) * n < SIZE_MOD)
    (hvalues : dataSet.signal_values.length < SIZE_MOD)
    (herrors : dataSet.signal_errors.length < SIZE_MOD)
    (h : processSlices dataSet i = .ok (values, errors)) :
    values = (if (i + 1) * n ≤ dataSet.signal_values.length
      then (dataSet.signal_values.drop (i * n)).take n else []) ∧
    errors = (if (i + 1) * n ≤ dataSet.signal_errors.length
      then (dataSet.signal_errors.drop (i * n)).take n else []) := by
  have hn : toSizeT (n : Int) = n := by
    have : n < SIZE_MOD := by nlinarith
    unfold toSizeT
    rw [Int.emod_eq_of_lt (by omega) (by exact_mod_cast this)]
    simp
  have hoff : (i * n) % SIZE_MOD = i * n := Nat.mod_eq_of_lt (by nlinarith)
  have hend : (i * n + n) % SIZE_MOD = (i + 1) * n := by
    rw [Nat.mod_eq_of_lt (by nlinarith)]; ring
  unfold processSlices at h
  simp only [vectorAt, hext] at h
  rw [Outcome.bind_eq_ok] at h
  obtain ⟨ext, he, h⟩ := h
  cases he
  simp only [hn, hoff, hend] at h
  rw [Outcome.bind_eq_ok] at h
  obtain ⟨vs, hv, h⟩ := h
  rw [Outcome.bind_eq_ok] at h
  obtain ⟨es, he, h⟩ := h
  cases h
  have h1 := subspan_eq_ok _ _ _ _ hvalues hv
  have h2 := subspan_eq_ok _ _ _ _ herrors he
  refine ⟨?_, ?_⟩
  · rw [h1]; split <;> simp
  · rw [h2]; split <;> simp

/-- In `DataSet` mode a reply built for a signal found at index `i` carries the narrowed
slices of `processSlices`. -/
theorem dataSetProcessData_slices (signalName : String) (reply r : Acquisition)
    (dataSet : DataSet) (i : Nat) (hfound : findIndex dataSet.signal_names signalName = some i)
    (h : dataSetProcessData .DataSet signalName reply dataSet = .ok r) :
    ∃ values errors, processSlices dataSet i = .ok (values, errors) ∧
      r.channelValue = values.map detail.doubleToFloat ∧
      r.channelError = errors.map detail.doubleToFloat ∧
      r.channelTimeBase = List.replicate values.length CFloat.zero := by
  unfold dataSetProcessData at h
  simp only [hfound, Option.getD_some] at h
  simp only [reduceCtorEq, and_false, if_false, if_true] at h
  rw [Outcome.bind_eq_ok] at h
  obtain ⟨r1, -, h⟩ := h
  rw [Outcome.bind_eq_ok] at h
  obtain ⟨name, -, h⟩ := h
  rw [Outcome.bind_eq_ok] at h
  obtain ⟨unit, -, h⟩ := h
  rw [Outcome.bind_eq_ok] at h
  obtain ⟨r2, -, h⟩ := h
  rw [Outcome.bind_eq_ok] at h
  obtain ⟨⟨values, errors⟩, hs, h⟩ := h
  cases h
  exact ⟨values, errors, hs, rfl, rfl, rfl⟩


set_option maxRecDepth 10000 in
/-- C6, at the failing input: `DataSet` mode, signals `["A", "B"]` with two samples each and an
empty errors array, request `"B"`. The values slice `[2, 4)` is in range, but the errors span
of size 0 is cut at `subspan(2, 0)`, whose offset exceeds its size: the call is undefined and
no reply with an empty `channelError` is built. With an errors array that reaches the offset
the reply is the one the claim describes (here for `"A"`, offset 0). -/
theorem dataSetProcessData_short_array_undefined :
    dataSetProcessData .DataSet "B" {} exampleDataSetAB = .undefined .span_subspan ∧
    dataSetProcessData .DataSet "A" {} exampleDataSetAB =
      .ok { channelName := "A", channelUnit := "N/A"
            channelRangeMin := CFloat.zero, channelRangeMax := CFloat.one
            channelValue := [CFloat.zero, CFloat.one], channelError := []
            channelTimeBase := [CFloat.zero, CFloat.zero] } := by
  decide

set_option maxRecDepth 10000 in
/-- C7, at the failing input: a `DataSet` mode subscription to `"C"` whose tap has a dataset
with the signals `["A", "B"]` queued. `processData` returns early, yet `process` reports the
dataset as processed and `notify` is called once, with the reply as it was default
constructed. -/
theorem handleDataSetSubscription_absent_name_notifies :
    (handleDataSetSubscription exampleRegistry exampleDataSetCaches
      { acquisitionModeFilter := "dataset", channelNameFilter := "C" } .DataSet "C").state?.map
        (fun st => st.notified) =
      some [({ acquisitionModeFilter := "dataset", channelNameFilter := "C" }, {})] := by
  decide

set_option maxRecDepth 10000 in
/-- C8, at the failing input: a dataset with the signal `"A"` at index 0 and the unit `"V"`.
The guard `signal_units.size() < signal_idx - 1` wraps around for index 0 and is true, so the
reply carries `"N/A"`, in `Triggered` mode as in `DataSet` mode. -/
theorem dataSetProcessData_unit_index_zero :
    (dataSetProcessData .Triggered "A" {} exampleDataSetA).bind (fun r => .ok r.channelUnit) =
      .ok "N/A" ∧
    (dataSetProcessData .DataSet "A" {} exampleDataSetA).bind (fun r => .ok r.channelUnit) =
      .ok "N/A" ∧
    exampleDataSetA.signal_units[0]? = some "V" := by
  decide

/-! ## Streaming replies -/

theorem StdMap.find_eq_lookup {V : Type} (m : StdMap String V) (k : String) :
    StdMap.find m k = List.lookup k m := by
  induction m with
  | nil => rfl
  | cons kv rest ih =>
    obtain ⟨k1, v⟩ := kv
    by_cases h : k1 = k
    · subst h
      simp [StdMap.find, List.lookup]
    · have h2 : (k == k1) = false := by
        simpa using fun e : k = k1 => h e.symm
      simp [StdMap.find, List.lookup, h, h2, ih]

theorem get_string_eq_carried (m : property_map) (key : String) :
    detail.get_string m key = carriedString m key := by
  unfold detail.get_string carriedString
  rw [StdMap.find_eq_lookup]

theorem get_float_eq_carried (m : property_map) (key : String) :
    detail.get_float m key = carriedFloat m key := by
  unfold detail.get_float carriedFloat
  rw [StdMap.find_eq_lookup]

theorem get_stringVector_eq_carried (m : property_map) (key : String) :
    detail.get_stringVector m key = carriedStringVector m key := by
  unfold detail.get_stringVector carriedStringVector
  rw [StdMap.find_eq_lookup]

theorem lastObserved_cons (key : String) (known : Option CFloat) (tag : Tag) (tags : List Tag) :
    lastObserved key known (tag :: tags) =
      lastObserved key
        (match carriedFloat tag.map key with
          | some v => some v
          | none => known) tags := by
  unfold lastObserved
  simp only [List.reverse_cons, List.filterMap_append, List.head?_append]
  cases h1 : (List.filterMap (fun tag => carriedFloat tag.map key) tags.reverse).head? with
  | some v => simp
  | none =>
    cases h2 : carriedFloat tag.map key <;> simp [List.filterMap, h2]

theorem populateFromTag_signal_min (e : StreamingPollerEntry) (tag : Tag) :
    (e.populateFromTag tag).signal_min =
      (match carriedFloat tag.map gr.tag.SIGNAL_MIN with
        | some v => some v
        | none => e.signal_min) := by
  rw [← get_float_eq_carried]
  unfold StreamingPollerEntry.populateFromTag
  cases detail.get_string tag.map gr.tag.SIGNAL_NAME <;>
  cases detail.get_string tag.map gr.tag.SIGNAL_UNIT <;>
  cases detail.get_float tag.map gr.tag.SIGNAL_MIN <;>
  cases detail.get_float tag.map gr.tag.SIGNAL_MAX <;> rfl

theorem populateFromTag_signal_max (e : StreamingPollerEntry) (tag : Tag) :
    (e.populateFromTag tag).signal_max =
      (match carriedFloat tag.map gr.tag.SIGNAL_MAX with
        | some v => some v
        | none => e.signal_max) := by
  rw [← get_float_eq_carried]
  unfold StreamingPollerEntry.populateFromTag
  cases detail.get_string tag.map gr.tag.SIGNAL_NAME <;>
  cases detail.get_string tag.map gr.tag.SIGNAL_UNIT <;>
  cases detail.get_float tag.map gr.tag.SIGNAL_MIN <;>
  cases detail.get_float tag.map gr.tag.SIGNAL_MAX <;> rfl

theorem populateFromTags_signal_min (e : StreamingPollerEntry) (tags : List Tag) :
    (e.populateFromTags tags).signal_min = lastObserved gr.tag.SIGNAL_MIN e.signal_min tags := by
  induction tags generalizing e with
  | nil => rfl
  | cons tag rest ih =>
    rw [lastObserved_cons, ← populateFromTag_signal_min]
    exact ih (e.populateFromTag tag)

theorem populateFromTags_signal_max (e : StreamingPollerEntry) (tags : List Tag) :
    (e.populateFromTags tags).signal_max = lastObserved gr.tag.SIGNAL_MAX e.signal_max tags := by
  induction tags generalizing e with
  | nil => rfl
  | cons tag rest ih =>
    rw [lastObserved_cons, ← populateFromTag_signal_max]
    exact ih (e.populateFromTag tag)

theorem lastObserved_known (key : String) (known : Option CFloat) (tags : List Tag)
    (h : ∀ tag ∈ tags, carriedFloat tag.map key = none) :
    lastObserved key known tags = known := by
  induction tags with
  | nil => rfl
  | cons tag rest ih =>
    rw [lastObserved_cons, h tag (List.mem_cons_self _ _)]
    exact ih (fun t ht => h t (List.mem_cons_of_mem _ ht))

theorem lastObserved_none (key : String) (tags : List Tag)
    (h : ∀ tag ∈ tags, carriedFloat tag.map key = none) :
    lastObserved key none tags = none :=
  lastObserved_known key none tags h

theorem lastObserved_last (key : String) (known : Option CFloat) (pre post : List Tag)
    (tag : Tag) (v : CFloat) (htag : carriedFloat tag.map key = some v)
    (hpost : ∀ t ∈ post, carriedFloat t.map key = none) :
    lastObserved key known (pre ++ tag :: post) = some v := by
  induction pre generalizing known with
  | nil =>
    rw [List.nil_append, lastObserved_cons, htag]
    exact lastObserved_known key (some v) post hpost
  | cons t rest ih =>
    rw [List.cons_append, lastObserved_cons]
    exact ih _

/-- C9: the continuous reply built for a batch carries as `channelRangeMin` the last
`signal_min` the tap entry has observed, tags of this batch included, and
`std::numeric_limits<float>::lowest()` when none was observed; as `channelRangeMax` the last
`signal_max` observed and `std::numeric_limits<float>::max()` when none was. Read off the
tags: when a tag of the batch carries a float minimum `v` and no later tag of the batch
carries one, `channelRangeMin` is `v`; when no tag of the batch carries one, it is the value
the entry knew before the batch, and `lowest()` if it knew none; likewise for the maximum.
The entry keeps the observed values. An entry that has seen no min or max tag yields
`(lowest, max)`. -/
theorem streamingProcessData_range (signalName : String) (pollerEntry : StreamingPollerEntry)
    (reply : Acquisition) (data : List CDouble) (tags : List Tag) :
    (streamingProcessData signalName pollerEntry reply data tags).2.channelRangeMin =
      (lastObserved gr.tag.SIGNAL_MIN pollerEntry.signal_min tags).getD CFloat.lowest ∧
    (streamingProcessData signalName pollerEntry reply data tags).2.channelRangeMax =
      (lastObserved gr.tag.SIGNAL_MAX pollerEntry.signal_max tags).getD CFloat.max ∧
    (streamingProcessData signalName pollerEntry reply data tags).1.signal_min =
      lastObserved gr.tag.SIGNAL_MIN pollerEntry.signal_min tags ∧
    (streamingProcessData signalName pollerEntry reply data tags).1.signal_max =
      lastObserved gr.tag.SIGNAL_MAX pollerEntry.signal_max tags ∧
    (∀ (pre post : List Tag) (tag : Tag) (v : CFloat), tags = pre ++ tag :: post →
      List.lookup gr.tag.SIGNAL_MIN tag.map = some (Pmt.float v) →
      (∀ t ∈ post, carriedFloat t.map gr.tag.SIGNAL_MIN = none) →
      (streamingProcessData signalName pollerEntry reply data tags).2.channelRangeMin = v ∧
      (streamingProcessData signalName pollerEntry reply data tags).1.signal_min = some v) ∧
    (∀ (pre post : List Tag) (tag : Tag) (v : CFloat), tags = pre ++ tag :: post →
      List.lookup gr.tag.SIGNAL_MAX tag.map = some (Pmt.float v) →
      (∀ t ∈ post, carriedFloat t.map gr.tag.SIGNAL_MAX = none) →
      (streamingProcessData signalName pollerEntry reply data tags).2.channelRangeMax = v ∧
      (streamingProcessData signalName pollerEntry reply data tags).1.signal_max = some v) ∧
    ((∀ t ∈ tags, carriedFloat t.map gr.tag.SIGNAL_MIN = none) →
      (streamingProcessData signalName pollerEntry reply data tags).2.channelRangeMin =
        pollerEntry.signal_min.getD CFloat.lowest) ∧
    ((∀ t ∈ tags, carriedFloat t.map gr.tag.SIGNAL_MAX = none) →
      (streamingProcessData signalName pollerEntry reply data tags).2.channelRangeMax =
        pollerEntry.signal_max.getD CFloat.max) ∧
    (pollerEntry.signal_min = none → pollerEntry.signal_max = none →
      (∀ tag ∈ tags, carriedFloat tag.map gr.tag.SIGNAL_MIN = none ∧
        carriedFloat tag.map gr.tag.SIGNAL_MAX = none) →
      (streamingProcessData signalName pollerEntry reply data tags).2.channelRangeMin =
        CFloat.lowest ∧
      (streamingProcessData signalName pollerEntry reply data tags).2.channelRangeMax =
        CFloat.max) ∧
    CFloat.lowest = ⟨0xFF7FFFFF⟩ ∧ CFloat.max = ⟨0x7F7FFFFF⟩ := by
  have hmin := populateFromTags_signal_min pollerEntry tags
  have hmax := populateFromTags_signal_max pollerEntry tags
  have h1 : (streamingProcessData signalName pollerEntry reply data tags).2.channelRangeMin =
      (lastObserved gr.tag.SIGNAL_MIN pollerEntry.signal_min tags).getD CFloat.lowest := by
    simp only [streamingProcessData, hmin]
    cases lastObserved gr.tag.SIGNAL_MIN pollerEntry.signal_min tags <;> rfl
  have h2 : (streamingProcessData signalName pollerEntry reply data tags).2.channelRangeMax =
      (lastObserved gr.tag.SIGNAL_MAX pollerEntry.signal_max tags).getD CFloat.max := by
    simp only [streamingProcessData, hmax]
    cases lastObserved gr.tag.SIGNAL_MAX pollerEntry.signal_max tags <;> rfl
  have h3 : (streamingProcessData signalName pollerEntry reply data tags).1.signal_min =
      lastObserved gr.tag.SIGNAL_MIN pollerEntry.signal_min tags := hmin
  have h4 : (streamingProcessData signalName pollerEntry reply data tags).1.signal_max =
      lastObserved gr.tag.SIGNAL_MAX pollerEntry.signal_max tags := hmax
  refine ⟨h1, h2, h3, h4, ?_, ?_, ?_, ?_, ?_, rfl, rfl⟩
  · intro pre post tag v htags htag hpost
    have hc : carriedFloat tag.map gr.tag.SIGNAL_MIN = some v := by
      simp only [carriedFloat, htag]
    rw [h1, h3, htags, lastObserved_last _ _ pre post tag v hc hpost]
    exact ⟨rfl, rfl⟩
  · intro pre post tag v htags htag hpost
    have hc : carriedFloat tag.map gr.tag.SIGNAL_MAX = some v := by
      simp only [carriedFloat, htag]
    rw [h2, h4, htags, lastObserved_last _ _ pre post tag v hc hpost]
    exact ⟨rfl, rfl⟩
  · intro hno
    rw [h1, lastObserved_known _ _ _ hno]
  · intro hno
    rw [h2, lastObserved_known _ _ _ hno]
  · intro e1 e2 ht
    rw [h1, h2, e1, e2, lastObserved_none _ _ (fun t h => (ht t h).1),
      lastObserved_none _ _ (fun t h => (ht t h).2)]
    exact ⟨rfl, rfl⟩

set_option maxRecDepth 10000 in
/-- C9, worked example: a fresh entry for the signal `"X"` and a batch of one sample. With
the tags `exampleRangeTags` the reply carries the minimum 2, the later of the two minima,
and the maximum 3; with a single tag that carries a signal name but neither minimum nor
maximum it carries `(lowest, max)`; an entry that knows the minimum 1 and gets no tag
replies 1. -/
theorem streamingProcessData_range_witness :
    ((streamingProcessData "X" { poller := none } {} [⟨0⟩] exampleRangeTags).2.channelRangeMin =
        ⟨0x40000000⟩ ∧
      (streamingProcessData "X" { poller := none } {} [⟨0⟩] exampleRangeTags).1.signal_min =
        some ⟨0x40000000⟩) ∧
    ((streamingProcessData "X" { poller := none } {} [⟨0⟩] exampleRangeTags).2.channelRangeMax =
        ⟨0x40400000⟩ ∧
      (streamingProcessData "X" { poller := none } {} [⟨0⟩] exampleRangeTags).1.signal_max =
        some ⟨0x40400000⟩) ∧
    ((streamingProcessData "X" { poller := none } {} [⟨0⟩]
        [⟨0, [(gr.tag.SIGNAL_NAME, Pmt.string "X")]⟩]).2.channelRangeMin = CFloat.lowest ∧
      (streamingProcessData "X" { poller := none } {} [⟨0⟩]
        [⟨0, [(gr.tag.SIGNAL_NAME, Pmt.string "X")]⟩]).2.channelRangeMax = CFloat.max) ∧
    (streamingProcessData "X" { poller := none } {} [⟨0⟩] exampleRangeTags).2 =
      { acqTriggerName := "STREAMING", channelName := "X", channelUnit := "N/A"
        channelRangeMin := ⟨0x40000000⟩, channelRangeMax := ⟨0x40400000⟩
        channelValue := [CFloat.zero], channelError := [CFloat.zero]
        channelTimeBase := [CFloat.zero] } ∧
    (streamingProcessData "X" { poller := none, signal_min := some CFloat.one } {} [⟨0⟩]
      []).2.channelRangeMin = CFloat.one :=
  ⟨(streamingProcessData_range "X" { poller := none } {} [⟨0⟩] exampleRangeTags).2.2.2.2.1
      [⟨0, [(gr.tag.SIGNAL_MIN, Pmt.float CFloat.one)]⟩]
      [⟨2, [(gr.tag.SIGNAL_NAME, Pmt.string "X")]⟩]
      ⟨1, [(gr.tag.SIGNAL_MAX, Pmt.float ⟨0x40400000⟩),
        (gr.tag.SIGNAL_MIN, Pmt.float ⟨0x40000000⟩)]⟩
      ⟨0x40000000⟩ rfl (by decide) (by decide),
    (streamingProcessData_range "X" { poller := none } {} [⟨0⟩] exampleRangeTags).2.2.2.2.2.1
      [⟨0, [(gr.tag.SIGNAL_MIN, Pmt.float CFloat.one)]⟩]
      [⟨2, [(gr.tag.SIGNAL_NAME, Pmt.string "X")]⟩]
      ⟨1, [(gr.tag.SIGNAL_MAX, Pmt.float ⟨0x40400000⟩),
        (gr.tag.SIGNAL_MIN, Pmt.float ⟨0x40000000⟩)]⟩
      ⟨0x40400000⟩ rfl (by decide) (by decide),
    (streamingProcessData_range "X" { poller := none } {} [⟨0⟩]
      [⟨0, [(gr.tag.SIGNAL_NAME, Pmt.string "X")]⟩]).2.2.2.2.2.2.2.2.1 rfl rfl (by decide),
    by decide, by decide⟩

/-! ## Replacement of the graph -/

theorem StdMap.mem_modify_of_find {K V : Type} [DecidableEq K] (f : V → V) (m : StdMap K V)
    (k : K) (v : V) (h : StdMap.find m k = some v) : (k, f v) ∈ StdMap.modify f m k := by
  induction m with
  | nil => simp [StdMap.find] at h
  | cons e rest ih =>
    obtain ⟨k1, v1⟩ := e
    by_cases hk : k1 = k
    · simp only [StdMap.find, hk, if_true, Option.some.injEq] at h
      simp [StdMap.modify, hk, h]
    · simp only [StdMap.find, hk, if_false] at h
      simp only [StdMap.modify, hk, if_false, List.mem_cons]
      exact Or.inr (ih h)

theorem handleMessage_changed_nonempty (l : MessageLoop) (message : Message)
    (h : l.signalInfoChanged = true → ∃ kv ∈ l.signalEntriesBySink, kv.2 ≠ []) :
    (handleMessage l message).signalInfoChanged = true →
      ∃ kv ∈ (handleMessage l message).signalEntriesBySink, kv.2 ≠ [] := by
  unfold handleMessage
  split
  · split
    · exact h
    · split <;> exact h
  · split
    · split
      · exact h
      · rename_i entries hfind
        split
        · exact h
        · simp only
          split
          · exact h
          · intro _
            unfold updateSingleEntry
            refine ⟨_, StdMap.mem_modify_of_find _ _ _ _ hfind, ?_⟩
            intro hnil
            have hlen := congrArg List.length hnil
            simp only [List.length_set, resize, List.length_append, List.length_take,
              List.length_replicate, List.length_nil] at hlen
            omega
    · exact h

theorem foldl_handleMessage_changed_nonempty (messages : List Message) (l : MessageLoop)
    (h : l.signalInfoChanged = true → ∃ kv ∈ l.signalEntriesBySink, kv.2 ≠ []) :
    (messages.foldl handleMessage l).signalInfoChanged = true →
      flattened (messages.foldl handleMessage l).signalEntriesBySink ≠ [] := by
  induction messages generalizing l with
  | nil =>
    intro hc
    obtain ⟨kv, hkv, hne⟩ := h hc
    intro hnil
    simp only [flattened, StdMap.values, List.foldl_nil, List.flatten_eq_nil_iff, List.mem_map,
      forall_exists_index, and_imp] at hnil
    exact hne (hnil kv.2 kv hkv rfl)
  | cons message rest ih =>
    exact ih _ (handleMessage_changed_nonempty l message h)

/-- C10: an iteration that takes a replacement graph while a scheduler runs (no shutdown
requested, callback registered, the reconciliation loop ends after `passes` passes, the
blocks of the new graph seed the entries `seeded`) completes, and what it does is: request
the stop, republish the old entries if a setting message changed them (a list that is never
empty), tear down with exactly one callback invocation, carrying the empty list, join the
scheduler thread, publish the list seeded from the new graph alone (seeding starts from the
cleared map, so nothing of the previous graph is in it), and start the new scheduler. -/
theorem iteration_replaces_graph (fuel : Nat) (input : IterationInput) (self : Worker)
    (l : WorkerLocals) (running graph : Graph) (pollers : PassState) (passes : Nat)
    (seeded : SignalEntries)
    (hrun : l.schedulerThread = some running) (hto : l.toScheduler = true)
    (hfrom : l.fromScheduler = true)
    (hpending : self._pending_flow_graph = some graph)
    (hstop : input.stop_requested = false)
    (hcb : self._updateSignalEntriesCallback = true)
    (hloop : reconcileLoop true input.passes fuel 0 l.pollers = some (.ok (pollers, passes)))
    (hseed : seedSignalEntries graph.blocks [] = .ok seeded) :
    ∃ republished : List Event,
      (republished = [] ∨
        ∃ entries, entries ≠ [] ∧ republished = [Event.updateSignalEntries entries]) ∧
      iteration fuel input self l = some (.ok (
        { self with _pending_flow_graph := none },
        { pollers := { pollers with streamingPollers := [], dataSetPollers := [] }
          schedulerThread := some graph
          schedulerUniqueName := input.newSchedulerName
          signalEntriesBySink := seeded
          toScheduler := true
          fromScheduler := true
          finished := l.finished },
        [Event.sendRequestedStop l.schedulerUniqueName] ++ republished ++
          [.updateSignalEntries [], .joinScheduler, .updateSignalEntries (flattened seeded),
            .subscribeLifeCycleState input.newSchedulerName, .subscribeSetting,
            .startScheduler graph])) ∧
      callbackLists ([Event.sendRequestedStop l.schedulerUniqueName] ++ republished ++
          [.updateSignalEntries [], .joinScheduler, .updateSignalEntries (flattened seeded),
            .subscribeLifeCycleState input.newSchedulerName, .subscribeSetting,
            .startScheduler graph]) =
        callbackLists republished ++ [[], flattened seeded] ∧
      [] ∉ callbackLists republished := by
  have hm := foldl_handleMessage_changed_nonempty input.messages
    { signalEntriesBySink := l.signalEntriesBySink } (by simp)
  refine ⟨if (input.messages.foldl handleMessage
      { signalEntriesBySink := l.signalEntriesBySink }).signalInfoChanged then
      [Event.updateSignalEntries (flattened (input.messages.foldl handleMessage
        { signalEntriesBySink := l.signalEntriesBySink }).signalEntriesBySink)] else [],
    ?_, ?_, ?_, ?_⟩
  · split
    · rename_i hc
      exact Or.inr ⟨_, hm hc, rfl⟩
    · exact Or.inl rfl
  · simp only [iteration, Worker.takePendingFlowGraph, hrun, hpending, hstop, hto, withScheduler,
      hfrom]
    simp only [Option.isSome_some, Bool.false_or, Bool.and_self, Bool.not_true, Bool.and_false,
      Bool.false_eq_true, if_false, if_true, hloop]
    simp [teardown, installGraph, invokeCallback, hcb, hseed]
  · split <;> simp [callbackLists]
  · split
    · rename_i hc
      simpa [callbackLists] using (hm hc).symm
    · simp [callbackLists]

set_option maxRecDepth 10000 in
/-- C10, worked example: the scheduler of `exampleOldGraph` runs, `exampleNewGraph` is pending,
no subscription is active. The callback gets the empty list and then the one entry of the new
graph. -/
theorem iteration_replaces_graph_witness :
    reconcileLoop true exampleQuietInput.passes 1 0 exampleRunningLocals.pollers =
      some (.ok ({}, 1)) ∧
    seedSignalEntries exampleNewGraph.blocks [] =
      .ok [("sink1", [{ name := "new", unit := "V", sample_rate := CFloat.one }])] ∧
    (∃ republished : List Event,
      (republished = [] ∨
        ∃ entries, entries ≠ [] ∧ republished = [Event.updateSignalEntries entries]) ∧
      iteration 1 exampleQuietInput
        { _pending_flow_graph := some exampleNewGraph, _updateSignalEntriesCallback := true }
        exampleRunningLocals = some (.ok (
        { _pending_flow_graph := none, _updateSignalEntriesCallback := true },
        { pollers := {}
          schedulerThread := some exampleNewGraph
          schedulerUniqueName := "scheduler1"
          signalEntriesBySink :=
            [("sink1", [{ name := "new", unit := "V", sample_rate := CFloat.one }])]
          toScheduler := true
          fromScheduler := true
          finished := false },
        [Event.sendRequestedStop "scheduler0"] ++ republished ++
          [.updateSignalEntries [], .joinScheduler,
            .updateSignalEntries [{ name := "new", unit := "V", sample_rate := CFloat.one }],
            .subscribeLifeCycleState "scheduler1", .subscribeSetting,
            .startScheduler exampleNewGraph])) ∧
      callbackLists ([Event.sendRequestedStop "scheduler0"] ++ republished ++
          [.updateSignalEntries [], .joinScheduler,
            .updateSignalEntries [{ name := "new", unit := "V", sample_rate := CFloat.one }],
            .subscribeLifeCycleState "scheduler1", .subscribeSetting,
            .startScheduler exampleNewGraph]) =
        callbackLists republished ++
          [[], [{ name := "new", unit := "V", sample_rate := CFloat.one }]] ∧
      [] ∉ callbackLists republished) ∧
    (iteration 1 exampleQuietInput
        { _pending_flow_graph := some exampleNewGraph, _updateSignalEntriesCallback := true }
        exampleRunningLocals).map (fun r => r.bind (fun x => .ok (callbackLists x.2.2))) =
      some (.ok [[], [{ name := "new", unit := "V", sample_rate := CFloat.one }]]) :=
  ⟨by decide, by decide,
    iteration_replaces_graph 1 exampleQuietInput
      { _pending_flow_graph := some exampleNewGraph, _updateSignalEntriesCallback := true }
      exampleRunningLocals exampleOldGraph exampleNewGraph {} 1
      [("sink1", [{ name := "new", unit := "V", sample_rate := CFloat.one }])]
      rfl rfl rfl rfl rfl rfl (by decide) (by decide),
    by decide⟩


/-! ## The shape of an iteration -/

/-- Inversion of a completed iteration: the block under `if (hasScheduler)` completed, then
came the teardown if it was due, then the installation of the pending graph unless a shutdown
was requested. -/
theorem iteration_ok_inv (fuel : Nat) (input : IterationInput) (self w : Worker)
    (l l1 : WorkerLocals) (events : List Event)
    (h : iteration fuel input self l = some (.ok (w, l1, events))) :
    ∃ (lm : WorkerLocals) (sf : Bool) (ev1 : List Event),
      w = { self with _pending_flow_graph := none } ∧
      ((l.schedulerThread.isSome && (input.stop_requested || self._pending_flow_graph.isSome))
        = true → l.toScheduler = true) ∧
      (if l.schedulerThread.isSome then
          withScheduler fuel input w l
            (l.schedulerThread.isSome && (input.stop_requested || self._pending_flow_graph.isSome))
        else some (.ok (l, false, []))) = some (.ok (lm, sf, ev1)) ∧
      ∃ (lt : WorkerLocals) (ev2 : List Event),
        (lt, ev2) = (if (l.schedulerThread.isSome &&
            (input.stop_requested || self._pending_flow_graph.isSome)) || sf
          then teardown w lm else (lm, [])) ∧
        ∃ ev3 : List Event,
          events = (if l.schedulerThread.isSome &&
              (input.stop_requested || self._pending_flow_graph.isSome)
            then [Event.sendRequestedStop l.schedulerUniqueName] else []) ++ ev1 ++ ev2 ++ ev3 ∧
          ((input.stop_requested = true ∧ l1 = { lt with finished := true } ∧ ev3 = []) ∨
           (input.stop_requested = false ∧ self._pending_flow_graph = none ∧ l1 = lt ∧
              ev3 = []) ∨
           (input.stop_requested = false ∧ ∃ g, self._pending_flow_graph = some g ∧
              installGraph w lt g input.newSchedulerName = .ok (l1, ev3))) := by
  unfold iteration at h
  simp only [Worker.takePendingFlowGraph] at h
  by_cases hc : (l.schedulerThread.isSome &&
      (input.stop_requested || self._pending_flow_graph.isSome) && !l.toScheduler) = true
  · rw [if_pos hc] at h
    cases h
  · rw [if_neg hc] at h
    have hto : (l.schedulerThread.isSome &&
        (input.stop_requested || self._pending_flow_graph.isSome)) = true →
        l.toScheduler = true := by
      intro hs
      by_contra hn
      exact hc (by simp [hs, hn])
    generalize hW : (if l.schedulerThread.isSome = true then
        withScheduler fuel input { self with _pending_flow_graph := none } l
          (l.schedulerThread.isSome && (input.stop_requested || self._pending_flow_graph.isSome))
      else some (.ok (l, false, []))) = W at h
    rcases W with _ | (⟨lm, sf, ev1⟩ | e | u)
    · simp at h
    · simp only at h
      generalize hT : (if (l.schedulerThread.isSome &&
          (input.stop_requested || self._pending_flow_graph.isSome) || sf) = true
        then teardown { self with _pending_flow_graph := none } lm else (lm, [])) = T at h
      obtain ⟨lt, ev2⟩ := T
      simp only at h
      by_cases hstop : input.stop_requested = true
      · simp only [hstop, if_true, Option.some.injEq, Outcome.ok.injEq, Prod.mk.injEq] at h
        obtain ⟨rfl, rfl, rfl⟩ := h
        refine ⟨lm, sf, ev1, rfl, hto, hW, lt, ev2, hT.symm, [], by simp [hstop],
          Or.inl ⟨hstop, rfl, rfl⟩⟩
      · have hstop2 : input.stop_requested = false := by simpa using hstop
        simp only [hstop, if_false] at h
        rcases Option.eq_none_or_eq_some self._pending_flow_graph with hp | ⟨g, hp⟩
        · simp only [hp, Option.some.injEq, Outcome.ok.injEq, Prod.mk.injEq] at h
          obtain ⟨rfl, rfl, rfl⟩ := h
          exact ⟨lm, sf, ev1, rfl, hto, hW, _, ev2, hT.symm, [], by simp [hstop2, hp],
            Or.inr (Or.inl ⟨hstop2, hp, rfl, rfl⟩)⟩
        · simp only [hp] at h
          cases hI : installGraph ({ self with _pending_flow_graph := none } : Worker) lt g
              input.newSchedulerName with
          | ok r =>
            obtain ⟨l3, ev3⟩ := r
            simp only [hI, Option.some.injEq, Outcome.ok.injEq, Prod.mk.injEq] at h
            obtain ⟨rfl, rfl, rfl⟩ := h
            exact ⟨lm, sf, ev1, rfl, hto, hW, lt, ev2, hT.symm, ev3, by simp [hstop2, hp],
              Or.inr (Or.inr ⟨hstop2, g, hp, hI⟩)⟩
          | thrown e => simp [hI] at h
          | undefined u => simp [hI] at h
    · simp at h
    · simp at h

/-- Inversion of a completed block `if (hasScheduler)`. -/
theorem withScheduler_ok_inv (fuel : Nat) (input : IterationInput) (self : Worker)
    (l lm : WorkerLocals) (stopScheduler sf : Bool) (ev1 : List Event)
    (h : withScheduler fuel input self l stopScheduler = some (.ok (lm, sf, ev1))) :
    l.fromScheduler = true ∧
    ∃ (pollers : PassState) (passes : Nat),
      reconcileLoop stopScheduler input.passes fuel 0 l.pollers = some (.ok (pollers, passes)) ∧
      lm = { l with
        signalEntriesBySink := (input.messages.foldl handleMessage
          { signalEntriesBySink := l.signalEntriesBySink }).signalEntriesBySink
        pollers := pollers } ∧
      sf = (input.messages.foldl handleMessage
        { signalEntriesBySink := l.signalEntriesBySink }).schedulerFinished ∧
      ev1 = (if (input.messages.foldl handleMessage
          { signalEntriesBySink := l.signalEntriesBySink }).signalInfoChanged
        then invokeCallback self (flattened (input.messages.foldl handleMessage
          { signalEntriesBySink := l.signalEntriesBySink }).signalEntriesBySink)
        else []) := by
  unfold withScheduler at h
  by_cases hf : (!l.fromScheduler) = true
  · rw [if_pos hf] at h
    cases h
  · rw [if_neg hf] at h
    refine ⟨by simpa using hf, ?_⟩
    simp only at h
    generalize hR : reconcileLoop stopScheduler input.passes fuel 0 l.pollers = R at h
    rcases R with _ | (⟨pollers, n⟩ | e | u)
    · simp at h
    · simp only [Option.some.injEq, Outcome.ok.injEq, Prod.mk.injEq] at h
      obtain ⟨rfl, rfl, rfl⟩ := h
      exact ⟨pollers, n, rfl, rfl, rfl, rfl⟩
    · simp at h
    · simp at h

theorem startScheduler_not_mem_invokeCallback (self : Worker) (entries : List SignalEntry)
    (g : Graph) : Event.startScheduler g ∉ invokeCallback self entries := by
  unfold invokeCallback
  split <;> simp

/-- The events of the block `if (hasScheduler)` are callback invocations. -/
theorem withScheduler_events (fuel : Nat) (input : IterationInput) (self : Worker)
    (l lm : WorkerLocals) (stopScheduler sf : Bool) (ev1 : List Event)
    (h : (if l.schedulerThread.isSome then withScheduler fuel input self l stopScheduler
      else some (.ok (l, false, []))) = some (.ok (lm, sf, ev1))) :
    ∃ entries, ev1 = [] ∨ ev1 = [Event.updateSignalEntries entries] := by
  split at h
  · obtain ⟨-, pollers, n, -, -, -, hev⟩ := withScheduler_ok_inv _ _ _ _ _ _ _ _ h
    refine ⟨flattened (input.messages.foldl handleMessage
      { signalEntriesBySink := l.signalEntriesBySink }).signalEntriesBySink, ?_⟩
    rw [hev]
    unfold invokeCallback
    split
    · split
      · exact Or.inr rfl
      · exact Or.inl rfl
    · exact Or.inl rfl
  · simp only [Option.some.injEq, Outcome.ok.injEq, Prod.mk.injEq] at h
    exact ⟨[], Or.inl h.2.2.symm⟩

/-- The events of a successful `installGraph`. -/
theorem installGraph_ok_inv (self : Worker) (l l1 : WorkerLocals) (graph : Graph)
    (name : String) (ev3 : List Event)
    (h : installGraph self l graph name = .ok (l1, ev3)) :
    ∃ entries, seedSignalEntries graph.blocks l.signalEntriesBySink = .ok entries ∧
      l1 = { l with
        signalEntriesBySink := entries
        toScheduler := true
        fromScheduler := true
        schedulerUniqueName := name
        schedulerThread := some graph } ∧
      ev3 = invokeCallback self (flattened entries) ++
        [.subscribeLifeCycleState name, .subscribeSetting, .startScheduler graph] := by
  unfold installGraph at h
  generalize hS : seedSignalEntries graph.blocks l.signalEntriesBySink = S at h
  rcases S with entries | e | u
  · simp only [Outcome.ok.injEq, Prod.mk.injEq] at h
    exact ⟨entries, rfl, h.1.symm, h.2.symm⟩
  · simp at h
  · simp at h

/-! ## The pending graph slot -/

/-- C11: the pending-graph slot holds one graph and the last write wins. After `setGraph(g1)`
and `setGraph(g2)` with no take in between, the take-and-clear at the start of the next
iteration returns `g2` and leaves the slot empty, so that the following take returns nothing;
an iteration that starts from this slot ends with the slot empty and starts no scheduler for
a graph other than `g2`. -/
theorem setGraph_last_write_wins (self : Worker) (g1 g2 : Option Graph) :
    ((self.setGraph g1).setGraph g2).takePendingFlowGraph.1 = g2 ∧
    ((self.setGraph g1).setGraph g2).takePendingFlowGraph.2._pending_flow_graph = none ∧
    ((self.setGraph g1).setGraph g2).takePendingFlowGraph.2.takePendingFlowGraph.1 = none ∧
    (∀ (fuel : Nat) (input : IterationInput) (l l1 : WorkerLocals) (w : Worker)
      (events : List Event),
      iteration fuel input ((self.setGraph g1).setGraph g2) l = some (.ok (w, l1, events)) →
        w._pending_flow_graph = none ∧
        ∀ g, Event.startScheduler g ∈ events → g2 = some g) := by
  refine ⟨rfl, rfl, rfl, ?_⟩
  intro fuel input l l1 w events h
  obtain ⟨lm, sf, ev1, hw, -, hW, lt, ev2, hT, ev3, hev, hcase⟩ :=
    iteration_ok_inv fuel input _ w l l1 events h
  refine ⟨by rw [hw], fun g hmem => ?_⟩
  obtain ⟨entries, hev1⟩ := withScheduler_events _ _ _ _ _ _ _ _ hW
  have h0 : Event.startScheduler g ∉ (if l.schedulerThread.isSome &&
      (input.stop_requested || ((self.setGraph g1).setGraph g2)._pending_flow_graph.isSome)
      then [Event.sendRequestedStop l.schedulerUniqueName] else []) := by
    split <;> simp
  have h1 : Event.startScheduler g ∉ ev1 := by
    rcases hev1 with h | h <;> simp [h]
  have h2 : Event.startScheduler g ∉ ev2 := by
    split at hT
    · simp only [teardown, Prod.mk.injEq] at hT
      rw [hT.2]
      simp [startScheduler_not_mem_invokeCallback]
    · simp only [Prod.mk.injEq] at hT
      simp [hT.2]
  rw [hev] at hmem
  simp only [List.mem_append] at hmem
  rcases hmem with ((hm | hm) | hm) | hm
  · exact absurd hm h0
  · exact absurd hm h1
  · exact absurd hm h2
  · rcases hcase with ⟨-, -, h3⟩ | ⟨-, -, -, h3⟩ | ⟨-, g3, hp, hI⟩
    · simp [h3] at hm
    · simp [h3] at hm
    · obtain ⟨entries3, -, -, hev3⟩ := installGraph_ok_inv _ _ _ _ _ _ hI
      rw [hev3] at hm
      simp only [List.mem_append, List.mem_cons, Event.startScheduler.injEq,
        List.mem_singleton, reduceCtorEq, false_or] at hm
      rcases hm with hm | hm
      · exact absurd hm (startScheduler_not_mem_invokeCallback _ _ _)
      · have : g2 = some g3 := hp
        rw [this]
        rcases hm with hm | hm
        · rw [hm]
        · simp at hm


/-! ## One scheduler at a time -/

theorem replaySchedulers_append (live : Bool) (a b : List Event) :
    replaySchedulers live (a ++ b) =
      (replaySchedulers live a).bind (fun live1 => replaySchedulers live1 b) := by
  induction a generalizing live with
  | nil => simp [replaySchedulers]
  | cons e rest ih =>
    cases e <;> simp only [List.cons_append, replaySchedulers]
    case startScheduler =>
      split
      · rfl
      · exact ih true
    case joinScheduler =>
      split
      · exact ih false
      · rfl
    all_goals exact ih live

theorem replaySchedulers_invokeCallback (live : Bool) (self : Worker)
    (entries : List SignalEntry) :
    replaySchedulers live (invokeCallback self entries) = some live := by
  unfold invokeCallback
  split <;> simp [replaySchedulers]

/-- The block `if (hasScheduler)` keeps the scheduler thread and neither starts nor joins
one. -/
theorem withScheduler_thread (fuel : Nat) (input : IterationInput) (self : Worker)
    (l lm : WorkerLocals) (stopScheduler sf : Bool) (ev1 : List Event)
    (h : (if l.schedulerThread.isSome then withScheduler fuel input self l stopScheduler
      else some (.ok (l, false, []))) = some (.ok (lm, sf, ev1))) :
    lm.schedulerThread = l.schedulerThread ∧
    (l.schedulerThread.isSome = false → sf = false) ∧
    (∀ live, replaySchedulers live ev1 = some live) ∧
    (∀ e ∈ ev1, ∃ entries, e = Event.updateSignalEntries entries) := by
  obtain ⟨entries, hev⟩ := withScheduler_events _ _ _ _ _ _ _ _ h
  have hr : (∀ live, replaySchedulers live ev1 = some live) ∧
      (∀ e ∈ ev1, ∃ entries, e = Event.updateSignalEntries entries) := by
    rcases hev with hev | hev <;> subst hev <;> simp [replaySchedulers]
  split at h
  · rename_i hs
    obtain ⟨-, pollers, n, -, hlm, -, -⟩ := withScheduler_ok_inv _ _ _ _ _ _ _ _ h
    exact ⟨by rw [hlm], fun hn => by simp [hn] at hs, hr⟩
  · simp only [Option.some.injEq, Outcome.ok.injEq, Prod.mk.injEq] at h
    obtain ⟨rfl, rfl, -⟩ := h
    exact ⟨rfl, fun _ => rfl, hr⟩

/-- C12: at most one scheduler is live at a time. In every iteration that completes, the
starts and joins of scheduler threads replay without a start while a scheduler runs, from the
scheduler state before the iteration to the one after it; and when a scheduler is started in
an iteration that began with one running, the running one was sent the stop request first
and joined before, and the new one is installed on locals whose thread, ports, taps and
metadata the teardown has cleared. Whenever a replacement graph is taken while a scheduler
runs, the stop request and the join are in the trace, in this order. -/
theorem iteration_one_scheduler (fuel : Nat) (input : IterationInput) (self w : Worker)
    (l l1 : WorkerLocals) (events : List Event)
    (h : iteration fuel input self l = some (.ok (w, l1, events))) :
    replaySchedulers l.schedulerThread.isSome events = some l1.schedulerThread.isSome ∧
    (∀ g, Event.startScheduler g ∈ events → l.schedulerThread.isSome = true →
      ∃ (lm : WorkerLocals) (ev1 ev3 : List Event),
        events = [Event.sendRequestedStop l.schedulerUniqueName] ++ ev1 ++
          (invokeCallback w [] ++ [Event.joinScheduler]) ++ ev3 ∧
        (∀ e ∈ ev1, ∃ entries, e = Event.updateSignalEntries entries) ∧
        installGraph w (teardown w lm).1 g input.newSchedulerName = .ok (l1, ev3) ∧
        (teardown w lm).1.schedulerThread = none ∧
        (teardown w lm).1.toScheduler = false ∧
        (teardown w lm).1.fromScheduler = false ∧
        (teardown w lm).1.pollers.streamingPollers = [] ∧
        (teardown w lm).1.pollers.dataSetPollers = [] ∧
        (teardown w lm).1.signalEntriesBySink = []) ∧
    (self._pending_flow_graph.isSome = true → l.schedulerThread.isSome = true →
      ∃ (ev1 ev3 : List Event),
        events = [Event.sendRequestedStop l.schedulerUniqueName] ++ ev1 ++
          (invokeCallback w [] ++ [Event.joinScheduler]) ++ ev3 ∧
        (∀ e ∈ ev1, ∃ entries, e = Event.updateSignalEntries entries)) := by
  obtain ⟨lm, sf, ev1, hw, -, hW, lt, ev2, hT, ev3, hev, hcase⟩ :=
    iteration_ok_inv fuel input self w l l1 events h
  obtain ⟨hlm, hsf, hr1, hcb⟩ := withScheduler_thread _ _ _ _ _ _ _ _ hW
  have hstart3 : ∀ g, Event.startScheduler g ∈ events → Event.startScheduler g ∈ ev3 := by
    intro g hmem
    rw [hev] at hmem
    simp only [List.mem_append] at hmem
    rcases hmem with ((hm | hm) | hm) | hm
    · split at hm <;> simp at hm
    · obtain ⟨entries, he⟩ := hcb _ hm
      cases he
    · split at hT
      · simp only [teardown, Prod.mk.injEq] at hT
        rw [hT.2] at hm
        simp [startScheduler_not_mem_invokeCallback] at hm
      · simp only [Prod.mk.injEq] at hT
        simp [hT.2] at hm
    · exact hm
  refine ⟨?_, ?_, ?_⟩
  rotate_left 2
  · intro hp hs
    have hstopS : (l.schedulerThread.isSome &&
        (input.stop_requested || self._pending_flow_graph.isSome)) = true := by
      simp [hs, hp]
    have htd : (l.schedulerThread.isSome &&
        (input.stop_requested || self._pending_flow_graph.isSome) || sf) = true := by
      simp [hstopS]
    rw [if_pos htd] at hT
    have hev2 : ev2 = invokeCallback w [] ++ [Event.joinScheduler] := congrArg Prod.snd hT
    exact ⟨ev1, ev3, by rw [hev, if_pos hstopS, hev2], hcb⟩
  · rw [hev]
    simp only [replaySchedulers_append]
    have h0 : replaySchedulers l.schedulerThread.isSome
        (if (l.schedulerThread.isSome &&
          (input.stop_requested || self._pending_flow_graph.isSome)) = true
        then [Event.sendRequestedStop l.schedulerUniqueName] else []) =
        some l.schedulerThread.isSome := by
      split <;> simp [replaySchedulers]
    rw [h0]
    simp only [Option.some_bind, hr1]
    by_cases hs : l.schedulerThread.isSome = true
    · by_cases htd : (l.schedulerThread.isSome &&
          (input.stop_requested || self._pending_flow_graph.isSome) || sf) = true
      · rw [if_pos htd] at hT
        simp only [teardown, Prod.mk.injEq] at hT
        obtain ⟨hlt, hev2⟩ := hT
        rw [hev2, replaySchedulers_append, replaySchedulers_invokeCallback, hs]
        simp only [Option.some_bind, replaySchedulers, if_true]
        rcases hcase with ⟨-, h1, h3⟩ | ⟨-, -, h1, h3⟩ | ⟨-, g, -, hI⟩
        · simp [h1, h3, hlt, replaySchedulers]
        · simp [h1, h3, hlt, replaySchedulers]
        · obtain ⟨entries, -, hl1, hev3⟩ := installGraph_ok_inv _ _ _ _ _ _ hI
          rw [hev3, replaySchedulers_append, replaySchedulers_invokeCallback, hl1]
          simp [replaySchedulers]
      · rw [if_neg htd] at hT
        simp only [Prod.mk.injEq] at hT
        obtain ⟨hlt, hev2⟩ := hT
        rw [hev2]
        simp only [replaySchedulers, Option.some_bind]
        have hstop : (l.schedulerThread.isSome &&
            (input.stop_requested || self._pending_flow_graph.isSome)) = false := by
          cases hx : (l.schedulerThread.isSome &&
            (input.stop_requested || self._pending_flow_graph.isSome))
          · rfl
          · simp [hx] at htd
        rcases hcase with ⟨-, h1, h3⟩ | ⟨-, -, h1, h3⟩ | ⟨hst, g, hp, hI⟩
        · simp [h1, h3, hlt, hlm, replaySchedulers]
        · simp [h1, h3, hlt, hlm, replaySchedulers]
        · simp [hs, hst, hp] at hstop
    · have hs2 : l.schedulerThread.isSome = false := by simpa using hs
      have htd : ¬ (l.schedulerThread.isSome &&
          (input.stop_requested || self._pending_flow_graph.isSome) || sf) = true := by
        simp [hs2, hsf hs2]
      rw [if_neg htd] at hT
      simp only [Prod.mk.injEq] at hT
      obtain ⟨hlt, hev2⟩ := hT
      rw [hev2, hs2]
      simp only [replaySchedulers, Option.some_bind]
      have hnone : lm.schedulerThread = none := by
        rw [hlm]
        cases hx : l.schedulerThread
        · rfl
        · simp [hx] at hs2
      rcases hcase with ⟨-, h1, h3⟩ | ⟨-, -, h1, h3⟩ | ⟨-, g, -, hI⟩
      · simp [h1, h3, hlt, hnone, replaySchedulers]
      · simp [h1, h3, hlt, hnone, replaySchedulers]
      · obtain ⟨entries, -, hl1, hev3⟩ := installGraph_ok_inv _ _ _ _ _ _ hI
        rw [hev3, replaySchedulers_append, replaySchedulers_invokeCallback, hl1]
        simp [replaySchedulers]
  · intro g hmem hs
    have hm3 := hstart3 g hmem
    rcases hcase with ⟨-, -, h3⟩ | ⟨-, -, -, h3⟩ | ⟨hst, g3, hp, hI⟩
    · simp [h3] at hm3
    · simp [h3] at hm3
    · have hstopS : (l.schedulerThread.isSome &&
          (input.stop_requested || self._pending_flow_graph.isSome)) = true := by
        simp [hs, hp]
      have htd : (l.schedulerThread.isSome &&
          (input.stop_requested || self._pending_flow_graph.isSome) || sf) = true := by
        simp [hstopS]
      rw [if_pos htd] at hT
      have hlt : lt = (teardown w lm).1 := congrArg Prod.fst hT
      have hev2 : ev2 = invokeCallback w [] ++ [Event.joinScheduler] := congrArg Prod.snd hT
      obtain ⟨entries3, -, -, hev3⟩ := installGraph_ok_inv _ _ _ _ _ _ hI
      have hg : g = g3 := by
        rw [hev3] at hm3
        simp only [List.mem_append, List.mem_cons, Event.startScheduler.injEq,
          List.mem_singleton, reduceCtorEq, false_or] at hm3
        rcases hm3 with hm | hm
        · exact absurd hm (startScheduler_not_mem_invokeCallback _ _ _)
        · rcases hm with hm | hm
          · exact hm
          · simp at hm
      refine ⟨lm, ev1, ev3, ?_, hcb, ?_, rfl, rfl, rfl, rfl, rfl, rfl⟩
      · rw [hev, if_pos hstopS, hev2]
      · rw [hg, ← hlt]
        exact hI

set_option maxRecDepth 10000 in
/-- C12, worked example: the iteration that replaces `exampleOldGraph` by `exampleNewGraph`
joins the old scheduler thread before it starts the new one. -/
theorem iteration_one_scheduler_witness :
    iteration 1 exampleQuietInput exampleReplacingWorker exampleRunningLocals =
      some (.ok ({ exampleReplacingWorker with _pending_flow_graph := none },
        exampleReplacedLocals, exampleReplacedEvents)) ∧
    replaySchedulers true exampleReplacedEvents = some true :=
  ⟨by decide,
    (iteration_one_scheduler 1 exampleQuietInput exampleReplacingWorker
      { exampleReplacingWorker with _pending_flow_graph := none }
      exampleRunningLocals exampleReplacedLocals exampleReplacedEvents (by decide)).1⟩


/-! ## Setting notifications -/

theorem handleMessage_setting (l : MessageLoop) (message : Message) (settings : property_map)
    (entries : List SignalEntry)
    (hend : message.endpoint = block.property.kSetting) (hdata : message.data = some settings)
    (htracked : StdMap.find l.signalEntriesBySink message.serviceName = some entries) :
    handleMessage l message =
      if (detail.get_stringVector settings "signal_names").isSome ∧
          (detail.get_stringVector settings "signal_units").isSome then l
      else updateSingleEntry l message.serviceName entries settings := by
  unfold handleMessage
  have hne : ¬ block.property.kSetting = block.property.kLifeCycleState := by decide
  simp only [hend, hne, if_false, if_true, htracked, hdata]

theorem handleMessage_untracked (l : MessageLoop) (message : Message)
    (hend : message.endpoint = block.property.kSetting)
    (huntracked : StdMap.find l.signalEntriesBySink message.serviceName = none) :
    handleMessage l message = l := by
  unfold handleMessage
  have hne : ¬ block.property.kSetting = block.property.kLifeCycleState := by decide
  simp only [hend, hne, if_false, if_true, huntracked]

theorem handleMessage_single_sink_flag (l : MessageLoop) (message : Message)
    (settings : property_map) (entry : SignalEntry)
    (hend : message.endpoint = block.property.kSetting) (hdata : message.data = some settings)
    (htracked : StdMap.find l.signalEntriesBySink message.serviceName = some [entry])
    (hsingle : ¬ ((detail.get_stringVector settings "signal_names").isSome ∧
      (detail.get_stringVector settings "signal_units").isSome)) :
    ((handleMessage l message).signalInfoChanged = true ↔
      (l.signalInfoChanged = true ∨
        (∃ v, detail.get_string settings "signal_name" = some v ∧ v ≠ entry.name) ∨
        (∃ v, detail.get_string settings "signal_unit" = some v ∧ v ≠ entry.unit) ∨
        (∃ v, detail.get_float settings "sample_rate" = some v ∧
          CFloat.eq v entry.sample_rate = false))) := by
  rw [handleMessage_setting l message settings [entry] hend hdata htracked, if_neg hsingle]
  have hres : resize [entry] 1 SignalEntry.zero = [entry] := rfl
  simp only [updateSingleEntry, hres, List.headD_cons]
  cases detail.get_string settings "signal_name" <;>
  cases detail.get_string settings "signal_unit" <;>
  cases detail.get_float settings "sample_rate" <;>
  simp only [updateStringField, updateFloatField] <;>
  (repeat' split) <;> simp_all

theorem handleMessage_single_sink_entry (l : MessageLoop) (message : Message)
    (settings : property_map) (entry : SignalEntry)
    (hend : message.endpoint = block.property.kSetting) (hdata : message.data = some settings)
    (htracked : StdMap.find l.signalEntriesBySink message.serviceName = some [entry])
    (hsingle : ¬ ((detail.get_stringVector settings "signal_names").isSome ∧
      (detail.get_stringVector settings "signal_units").isSome)) :
    StdMap.find (handleMessage l message).signalEntriesBySink message.serviceName =
      some [{ name := match detail.get_string settings "signal_name" with
                | some v => if v ≠ entry.name then v else entry.name
                | none => entry.name
              unit := match detail.get_string settings "signal_unit" with
                | some v => if v ≠ entry.unit then v else entry.unit
                | none => entry.unit
              sample_rate := match detail.get_float settings "sample_rate" with
                | some v => if CFloat.eq v entry.sample_rate = false then v
                  else entry.sample_rate
                | none => entry.sample_rate }] := by
  rw [handleMessage_setting l message settings [entry] hend hdata htracked, if_neg hsingle]
  have hres : resize [entry] 1 SignalEntry.zero = [entry] := rfl
  simp only [updateSingleEntry, hres, List.headD_cons, StdMap.find_modify_self, htracked,
    Option.map_some', List.set_cons_zero]
  cases detail.get_string settings "signal_name" <;>
  cases detail.get_string settings "signal_unit" <;>
  cases detail.get_float settings "sample_rate" <;>
  simp only [updateStringField, updateFloatField] <;>
  (repeat' split) <;> simp_all

theorem CFloat.isNaN_iff (x : CFloat) : x.isNaN = decide (0x7F800000 < x.bits % 2 ^ 31) := by
  unfold CFloat.isNaN
  rw [Bool.eq_iff_iff]
  simp only [Bool.and_eq_true, beq_iff_eq, bne_iff_ne, ne_eq, decide_eq_true_eq]
  omega

theorem CFloat.not_eq_eq_floatsDiffer (a b : CFloat) : (!CFloat.eq a b) = floatsDiffer a b := by
  unfold CFloat.eq floatsDiffer
  rw [CFloat.isNaN_iff a, CFloat.isNaN_iff b]
  rw [Bool.eq_iff_iff]
  simp only [Bool.not_eq_true', Bool.and_eq_false_iff, Bool.not_eq_false', Bool.or_eq_true,
    Bool.and_eq_true, decide_eq_true_eq, beq_iff_eq, Bool.or_eq_false_iff, Bool.not_eq_true,
    decide_eq_false_iff_not, ne_eq, beq_eq_false_iff_ne]

theorem floatsDiffer_iff (a b : CFloat) : floatsDiffer a b = true ↔ CFloat.eq a b = false := by
  rw [← CFloat.not_eq_eq_floatsDiffer]
  simp

set_option maxRecDepth 10000 in
/-- C13, as the claim states it, fails: the single-signal sink `"sink0"` is tracked with the
name `"old"`, and a setting notification addressed to it carries the key `signal_name` with
the different value `"renamed"`, together with both list keys. A notification that carries
`signal_names` and `signal_units` is not taken for an update of a single signal: the name is
not overwritten and the changed flag stays down. -/
theorem handleMessage_both_lists_counterexample :
    StdMap.find exampleTracked.signalEntriesBySink exampleListsAndName.serviceName =
      some [{ name := "old", unit := "", sample_rate := CFloat.one }] ∧
    exampleListsAndName.endpoint = block.property.kSetting ∧
    exampleListsAndName.data.bind (List.lookup "signal_name") = some (Pmt.string "renamed") ∧
    StdMap.find (handleMessage exampleTracked exampleListsAndName).signalEntriesBySink "sink0" =
      some [{ name := "old", unit := "", sample_rate := CFloat.one }] ∧
    (handleMessage exampleTracked exampleListsAndName).signalInfoChanged = false := by
  decide

/-- C13, amended: a setting notification for a tracked single-signal sink (one stored entry)
that does not carry both of the list keys `signal_names` and `signal_units` leaves the sink
with one entry in which `name`, `unit` and `sample_rate` hold the carried value where the
notification carries one that differs from the stored value, and the stored value otherwise
(a key that is absent or holds a value of another type carries nothing; floats differ as
IEEE-754 values). The changed flag is raised exactly when it was raised before or one of the
three fields was overwritten, and an iteration that reads just this notification invokes the
callback, with the flattened entries, exactly when a field was overwritten. The other sinks
keep their entries, and a notification for a sink that is not tracked changes nothing. -/
theorem handleMessage_single_sink (l : MessageLoop) (message : Message)
    (settings : property_map) (entry : SignalEntry)
    (hend : message.endpoint = block.property.kSetting) (hdata : message.data = some settings)
    (htracked : StdMap.find l.signalEntriesBySink message.serviceName = some [entry])
    (hsingle : ¬ ((carriedStringVector settings "signal_names").isSome = true ∧
      (carriedStringVector settings "signal_units").isSome = true)) :
    StdMap.find (handleMessage l message).signalEntriesBySink message.serviceName =
      some [{ name := match carriedString settings "signal_name" with
                | some v => if v ≠ entry.name then v else entry.name
                | none => entry.name
              unit := match carriedString settings "signal_unit" with
                | some v => if v ≠ entry.unit then v else entry.unit
                | none => entry.unit
              sample_rate := match carriedFloat settings "sample_rate" with
                | some v => if floatsDiffer v entry.sample_rate = true then v
                  else entry.sample_rate
                | none => entry.sample_rate }] ∧
    ((handleMessage l message).signalInfoChanged = true ↔
      (l.signalInfoChanged = true ∨
        (∃ v, carriedString settings "signal_name" = some v ∧ v ≠ entry.name) ∨
        (∃ v, carriedString settings "signal_unit" = some v ∧ v ≠ entry.unit) ∨
        (∃ v, carriedFloat settings "sample_rate" = some v ∧
          floatsDiffer v entry.sample_rate = true))) ∧
    (∀ sink, sink ≠ message.serviceName →
      StdMap.find (handleMessage l message).signalEntriesBySink sink =
        StdMap.find l.signalEntriesBySink sink) ∧
    StdMap.keys (handleMessage l message).signalEntriesBySink =
      StdMap.keys l.signalEntriesBySink ∧
    (handleMessage l message).schedulerFinished = l.schedulerFinished ∧
    (∀ (fuel : Nat) (input : IterationInput) (self : Worker) (lw lm : WorkerLocals)
      (stopScheduler sf : Bool) (ev1 : List Event),
      input.messages = [message] → lw.signalEntriesBySink = l.signalEntriesBySink →
      withScheduler fuel input self lw stopScheduler = some (.ok (lm, sf, ev1)) →
      (ev1 = invokeCallback self (flattened lm.signalEntriesBySink) ∧
        ((∃ v, carriedString settings "signal_name" = some v ∧ v ≠ entry.name) ∨
         (∃ v, carriedString settings "signal_unit" = some v ∧ v ≠ entry.unit) ∨
         (∃ v, carriedFloat settings "sample_rate" = some v ∧
           floatsDiffer v entry.sample_rate = true))) ∨
      (ev1 = [] ∧
        ¬ ((∃ v, carriedString settings "signal_name" = some v ∧ v ≠ entry.name) ∨
         (∃ v, carriedString settings "signal_unit" = some v ∧ v ≠ entry.unit) ∨
         (∃ v, carriedFloat settings "sample_rate" = some v ∧
           floatsDiffer v entry.sample_rate = true)))) ∧
    (∀ (l0 : MessageLoop) (other : Message),
      other.endpoint = block.property.kSetting →
      StdMap.find l0.signalEntriesBySink other.serviceName = none →
      handleMessage l0 other = l0) := by
  simp only [← get_string_eq_carried, ← get_float_eq_carried,
    ← get_stringVector_eq_carried, floatsDiffer_iff] at hsingle ⊢
  have hentry := handleMessage_single_sink_entry l message settings entry hend hdata htracked
    hsingle
  have hflag := handleMessage_single_sink_flag l message settings entry hend hdata htracked
    hsingle
  have hrepub : ∀ (fuel : Nat) (input : IterationInput) (self : Worker) (lw lm : WorkerLocals)
      (stopScheduler sf : Bool) (ev1 : List Event),
      input.messages = [message] → lw.signalEntriesBySink = l.signalEntriesBySink →
      withScheduler fuel input self lw stopScheduler = some (.ok (lm, sf, ev1)) →
      (ev1 = invokeCallback self (flattened lm.signalEntriesBySink) ∧
        ((∃ v, detail.get_string settings "signal_name" = some v ∧ v ≠ entry.name) ∨
         (∃ v, detail.get_string settings "signal_unit" = some v ∧ v ≠ entry.unit) ∨
         (∃ v, detail.get_float settings "sample_rate" = some v ∧
           CFloat.eq v entry.sample_rate = false))) ∨
      (ev1 = [] ∧
        ¬ ((∃ v, detail.get_string settings "signal_name" = some v ∧ v ≠ entry.name) ∨
         (∃ v, detail.get_string settings "signal_unit" = some v ∧ v ≠ entry.unit) ∨
         (∃ v, detail.get_float settings "sample_rate" = some v ∧
           CFloat.eq v entry.sample_rate = false))) := by
    intro fuel input self lw lm stopScheduler sf ev1 hmsg hmap hws
    obtain ⟨-, pollers, n, -, hlm, -, hev⟩ := withScheduler_ok_inv _ _ _ _ _ _ _ _ hws
    rw [hmsg, hmap] at hev hlm
    simp only [List.foldl_cons, List.foldl_nil] at hev hlm
    have hf0 := handleMessage_single_sink_flag { signalEntriesBySink := l.signalEntriesBySink }
      message settings entry hend hdata htracked hsingle
    simp only [Bool.false_eq_true, false_or] at hf0
    by_cases hc : (handleMessage { signalEntriesBySink := l.signalEntriesBySink }
        message).signalInfoChanged = true
    · rw [if_pos hc] at hev
      exact Or.inl ⟨by rw [hev, hlm], hf0.mp hc⟩
    · rw [if_neg hc] at hev
      exact Or.inr ⟨hev, fun h => hc (hf0.mpr h)⟩
  rw [handleMessage_setting l message settings [entry] hend hdata htracked, if_neg hsingle]
    at hflag hentry ⊢
  refine ⟨hentry, hflag, ?_, ?_, rfl, hrepub,
    fun l0 other h1 h2 => handleMessage_untracked l0 other h1 h2⟩
  · intro sink hsink
    simp only [updateSingleEntry]
    exact StdMap.find_modify_ne _ _ _ _ (fun e => hsink e.symm)
  · simp only [updateSingleEntry]
    exact StdMap.keys_modify _ _ _

set_option maxRecDepth 10000 in
/-- C13, worked example of the amended claim: the notification `exampleRetune` overwrites the
name and the sample rate of the entry of `"sink0"`, leaves the unit, which it does not carry,
and raises the changed flag; the notification `exampleRename`, which repeats the stored
sample rate, overwrites the name only; a notification that repeats the stored name and
nothing else raises no flag. -/
theorem handleMessage_single_sink_witness :
    StdMap.find (handleMessage exampleTracked exampleRetune).signalEntriesBySink
        exampleRetune.serviceName =
      some [{ name := match carriedString [("sample_rate", Pmt.float ⟨0x40000000⟩),
                  ("signal_name", Pmt.string "renamed")] "signal_name" with
                | some v => if v ≠ "old" then v else "old"
                | none => "old"
              unit := match carriedString [("sample_rate", Pmt.float ⟨0x40000000⟩),
                  ("signal_name", Pmt.string "renamed")] "signal_unit" with
                | some v => if v ≠ "" then v else ""
                | none => ""
              sample_rate := match carriedFloat [("sample_rate", Pmt.float ⟨0x40000000⟩),
                  ("signal_name", Pmt.string "renamed")] "sample_rate" with
                | some v => if floatsDiffer v CFloat.one = true then v else CFloat.one
                | none => CFloat.one }] ∧
    StdMap.find (handleMessage exampleTracked exampleRetune).signalEntriesBySink "sink0" =
      some [{ name := "renamed", unit := "", sample_rate := ⟨0x40000000⟩ }] ∧
    (handleMessage exampleTracked exampleRetune).signalInfoChanged = true ∧
    StdMap.find (handleMessage exampleTracked exampleRename).signalEntriesBySink "sink0" =
      some [{ name := "renamed", unit := "", sample_rate := CFloat.one }] ∧
    (handleMessage exampleTracked exampleRename).signalInfoChanged = true ∧
    handleMessage exampleTracked
      { endpoint := block.property.kSetting, serviceName := "sink0"
        data := some [("signal_name", Pmt.string "old")] } = exampleTracked :=
  ⟨(handleMessage_single_sink exampleTracked exampleRetune
      [("sample_rate", Pmt.float ⟨0x40000000⟩), ("signal_name", Pmt.string "renamed")]
      { name := "old", unit := "", sample_rate := CFloat.one } rfl rfl (by decide)
      (by decide)).1,
    by decide, by decide, by decide, by decide, by decide⟩

set_option maxRecDepth 10000 in
/-- C14, at the failing input: the sink `"ds"` is tracked with two entries, a callback is
registered, and the scheduler sends a setting notification of `"ds"` that carries the signal
names only. The entries were seeded from the graph; the `else` branch shrinks the entry list
of `"ds"` to its first entry by `resize(1)`, no field of that entry differs, the changed flag
stays down and the iteration invokes no callback: the list delivered last is no longer the
flattening of the tracked entries. -/
theorem iteration_resize_not_republished :
    seedSignalEntries exampleDataSetGraph.blocks [] =
      .ok exampleDataSetLocals.signalEntriesBySink ∧
    iteration 1 { exampleQuietInput with messages := [exampleNamesOnly] }
      { _updateSignalEntriesCallback := true } exampleDataSetLocals =
      some (.ok ({ _updateSignalEntriesCallback := true },
        { exampleDataSetLocals with
          signalEntriesBySink :=
            [("ds", [{ name := "A", unit := "V", sample_rate := CFloat.one }])] },
        [])) := by
  decide

set_option maxRecDepth 10000 in
/-- C15, at the failing input: the sink `"ds"` is tracked with the entries `A [V]` and `B [A]`,
a callback is registered, and the scheduler sends a setting notification of `"ds"` that
carries the names `["C", "D"]` and the units `["W", "W"]`. The branch for a notification with
both keys is empty: the stored entries stay as they were and no callback is invoked. -/
theorem iteration_names_and_units_ignored :
    handleMessage { signalEntriesBySink := exampleDataSetLocals.signalEntriesBySink }
      exampleNamesAndUnits =
      { signalEntriesBySink := exampleDataSetLocals.signalEntriesBySink } ∧
    iteration 1 { exampleQuietInput with messages := [exampleNamesAndUnits] }
      { _updateSignalEntriesCallback := true } exampleDataSetLocals =
      some (.ok ({ _updateSignalEntriesCallback := true }, exampleDataSetLocals, [])) := by
  decide

/-- A setting notification that carries both `signal_names` and `signal_units` changes
nothing, whatever the tracked sink. -/
theorem handleMessage_both_keys (l : MessageLoop) (message : Message) (settings : property_map)
    (names units : List String)
    (hend : message.endpoint = block.property.kSetting) (hdata : message.data = some settings)
    (hnames : detail.get_stringVector settings "signal_names" = some names)
    (hunits : detail.get_stringVector settings "signal_units" = some units) :
    handleMessage l message = l := by
  cases hf : StdMap.find l.signalEntriesBySink message.serviceName with
  | none => exact handleMessage_untracked l message hend hf
  | some entries =>
    rw [handleMessage_setting l message settings entries hend hdata hf, hnames, hunits]
    simp


/-! ## Subscriptions that do not parse -/

theorem handleSubscriptionsLoop_append (registry : DataSinkRegistry)
    (a b : List TimeDomainContext) (s : PassState × Bool) :
    handleSubscriptionsLoop registry (a ++ b) s =
      (handleSubscriptionsLoop registry a s).bind (handleSubscriptionsLoop registry b) := by
  induction a generalizing s with
  | nil => rfl
  | cons filterIn rest ih =>
    simp only [List.cons_append, handleSubscriptionsLoop]
    cases handleSubscriptionTry registry filterIn s with
    | done s1 u => exact ih s1
    | thrown s1 e => exact ih s1
    | undefined u => rfl

/-- A subscription whose mode does not parse leaves the `try` block by the exception before
anything is looked up: caches, request log, replies and `pollersFinished` are as before. -/
theorem handleSubscriptionTry_unparseable (registry : DataSinkRegistry)
    (filterIn : TimeDomainContext) (s : PassState × Bool) (e : CppException)
    (h : parseAcquisitionMode filterIn.acquisitionModeFilter = .error e) :
    handleSubscriptionTry registry filterIn s = .thrown s e := by
  unfold handleSubscriptionTry
  rw [h]

/-- C16: a subscription whose acquisition mode string does not parse is skipped for the pass
and does not affect the others. Its `try` block ends with the caches, the request log, the
replies and the flag untouched, and `handleSubscriptions` and the whole pass give for a list
that contains it, wherever it stands, the result they give for the list without it: the same
caches, registry requests, replies and `pollersFinished`, or the same fault. -/
theorem handleSubscriptions_skips_unparseable (registry : DataSinkRegistry)
    (before after : List TimeDomainContext) (bad : TimeDomainContext) (st : PassState)
    (e : CppException)
    (h : parseAcquisitionMode bad.acquisitionModeFilter = .error e) :
    (∀ s : PassState × Bool, (handleSubscriptionTry registry bad s).state? = some s) ∧
    handleSubscriptions registry (before ++ bad :: after) st =
      handleSubscriptions registry (before ++ after) st ∧
    reconcilePass registry (before ++ bad :: after) st =
      reconcilePass registry (before ++ after) st := by
  have hloop : ∀ s, handleSubscriptionsLoop registry (before ++ bad :: after) s =
      handleSubscriptionsLoop registry (before ++ after) s := by
    intro s
    rw [handleSubscriptionsLoop_append, handleSubscriptionsLoop_append]
    congr 1
    funext s1
    simp only [handleSubscriptionsLoop, handleSubscriptionTry_unparseable registry bad s1 e h]
  refine ⟨fun s => ?_, hloop _, ?_⟩
  · rw [handleSubscriptionTry_unparseable registry bad s e h]
    rfl
  · unfold reconcilePass handleSubscriptions
    rw [hloop]

set_option maxRecDepth 10000 in
/-- C16, worked example: a subscription with the mode `"Continuous"`, which does not parse,
between a continuous subscription to `"X"` and a dataset subscription to `"C"`. -/
theorem handleSubscriptions_skips_unparseable_witness :
    (∃ what, parseAcquisitionMode "Continuous" = .error (.invalid_argument what)) ∧
    handleSubscriptions exampleRegistry
      [{ channelNameFilter := "X" },
       { acquisitionModeFilter := "Continuous", channelNameFilter := "X,Y" },
       { acquisitionModeFilter := "dataset", channelNameFilter := "C" }] exampleDataSetCaches =
    handleSubscriptions exampleRegistry
      [{ channelNameFilter := "X" },
       { acquisitionModeFilter := "dataset", channelNameFilter := "C" }] exampleDataSetCaches :=
  ⟨⟨_, rfl⟩,
    (handleSubscriptions_skips_unparseable exampleRegistry [{ channelNameFilter := "X" }]
      [{ acquisitionModeFilter := "dataset", channelNameFilter := "C" }]
      { acquisitionModeFilter := "Continuous", channelNameFilter := "X,Y" }
      exampleDataSetCaches _ rfl).2.1⟩


/-! ## Tap exhaustion -/

set_option maxRecDepth 10000 in
/-- C17, at the failing input: one continuous subscription to `"Y"` stays active and the
registry never has a tap. Each pass reports `pollersFinished` and notifies nothing. The first
pass asks the registry and caches an entry without tap, which is born with `in_use` set and
survives the sweep; the second pass finds that entry, asks nothing, and sweeps it; only the
third pass asks again. On the windowed path the entry is born with `in_use` cleared and the
registry is asked on every pass. -/
theorem reconcilePass_streaming_retry_every_other_pass :
    reconcilePass exhaustedRegistry [{ channelNameFilter := "Y" }] {} =
      .ok ({ streamingPollers := [(streamingKey "Y", { poller := none })]
             requests := [.getStreamingPoller "Y"] }, true) ∧
    reconcilePass exhaustedRegistry [{ channelNameFilter := "Y" }]
      { streamingPollers := [(streamingKey "Y", { poller := none })]
        requests := [.getStreamingPoller "Y"] } =
      .ok ({ requests := [.getStreamingPoller "Y"] }, true) ∧
    reconcilePass exhaustedRegistry [{ channelNameFilter := "Y" }]
      { requests := [.getStreamingPoller "Y"] } =
      .ok ({ streamingPollers := [(streamingKey "Y", { poller := none })]
             requests := [.getStreamingPoller "Y", .getStreamingPoller "Y"] }, true) ∧
    reconcilePass exhaustedRegistry
      [{ acquisitionModeFilter := "dataset", channelNameFilter := "Y" }] {} =
      .ok ({ requests := [.getDataSetPoller "Y"] }, true) ∧
    reconcilePass exhaustedRegistry
      [{ acquisitionModeFilter := "dataset", channelNameFilter := "Y" }]
      { requests := [.getDataSetPoller "Y"] } =
      .ok ({ requests := [.getDataSetPoller "Y", .getDataSetPoller "Y"] }, true) := by
  decide


set_option maxRecDepth 10000 in
/-- C18, at the failing input: one continuous subscription to `"Y"`, a registry without taps,
empty caches, nothing arriving. The first pass leaves the streaming cache with the key of
`"Y"` (an entry without tap, born with `in_use` set), the second pass, run on that state with
the same subscription, sweeps the entry and leaves the cache without the key. Neither pass
notifies a reply. -/
theorem reconcilePass_twice_keys_differ :
    (reconcilePass exhaustedRegistry [{ channelNameFilter := "Y" }] {}).bind
      (fun r => .ok (StdMap.keys r.1.streamingPollers, r.1.notified)) =
      .ok ([streamingKey "Y"], []) ∧
    ((reconcilePass exhaustedRegistry [{ channelNameFilter := "Y" }] {}).bind
      (fun r => reconcilePass exhaustedRegistry [{ channelNameFilter := "Y" }] r.1)).bind
      (fun r => .ok (StdMap.keys r.1.streamingPollers, r.1.notified)) =
      .ok ([], []) := by
  decide


/-! ## Subscriptions that share a tap -/

theorem streamingProcess_drained (context : TimeDomainContext) (s : String)
    (e : StreamingPollerEntry) (p : StreamingPoller) (hp : e.poller = some p) :
    (∃ q, (streamingProcess context s e p).1.poller = some q ∧ q.samples = []) ∧
    ∀ n ∈ (streamingProcess context s e p).2, n.1 = context := by
  unfold streamingProcess
  split
  · rename_i hs
    exact ⟨⟨p, hp, hs⟩, by simp⟩
  · exact ⟨⟨_, rfl, rfl⟩, by simp⟩

/-- After the streaming handler the tap of its key has no samples left, and what it notified
it notified under its own context. -/
theorem handleStreamingSubscription_drained (registry : DataSinkRegistry) (st : PassState)
    (context : TimeDomainContext) (s : String) :
    (∃ e, StdMap.find (handleStreamingSubscription registry st context s).1.streamingPollers
        (streamingKey s) = some e ∧ ∀ p, e.poller = some p → p.samples = []) ∧
    ∃ added, (handleStreamingSubscription registry st context s).1.notified =
      st.notified ++ added ∧ ∀ n ∈ added, n.1 = context := by
  have hget := getStreamingPoller_find_isSome registry st s
  have hnot : (getStreamingPoller registry st s).1.notified = st.notified ∧
      (getStreamingPoller registry st s).2 = some (streamingKey s) := by
    cases hf : StdMap.find st.streamingPollers (streamingKey s) with
    | none => rw [getStreamingPoller_absent registry st s hf]; exact ⟨rfl, rfl⟩
    | some e => rw [getStreamingPoller_present registry st s (by simp [hf])]; exact ⟨rfl, rfl⟩
  unfold handleStreamingSubscription
  rcases hg : getStreamingPoller registry st s with ⟨st1, it⟩
  rw [hg] at hget hnot
  obtain ⟨hn1, hit⟩ := hnot
  simp only at hn1 hit hget
  subst hit
  simp only
  cases hf : StdMap.find st1.streamingPollers (streamingKey s) with
  | none => simp [hf] at hget
  | some e =>
    simp only
    cases hp : e.poller with
    | none =>
      exact ⟨⟨e, hf, fun p h => by simp [hp] at h⟩, [], by simp [hn1], by simp⟩
    | some p =>
      simp only
      have hd := streamingProcess_drained context s
        { e with in_use := true, poller := some p } p rfl
      obtain ⟨⟨q, hq1, hq2⟩, hctx⟩ := hd
      refine ⟨⟨(streamingProcess context s { e with in_use := true, poller := some p } p).1,
        ?_, ?_⟩,
        (streamingProcess context s { e with in_use := true, poller := some p } p).2,
        ?_, hctx⟩
      · rw [StdMap.find_modify_self, hf]
        rfl
      · intro p2 hp2
        rw [hq1] at hp2
        cases hp2
        exact hq2
      · simp only [hn1]

/-- A second streaming subscription to the same signal, handled right after the first, finds
the shared tap drained and notifies nothing. -/
theorem handleStreamingSubscription_second (registry : DataSinkRegistry) (st : PassState)
    (c2 : TimeDomainContext) (s : String) (e : StreamingPollerEntry)
    (hfind : StdMap.find st.streamingPollers (streamingKey s) = some e)
    (hdrained : ∀ p, e.poller = some p → p.samples = []) :
    (handleStreamingSubscription registry st c2 s).1.notified = st.notified ∧
    (handleStreamingSubscription registry st c2 s).1.requests = st.requests := by
  unfold handleStreamingSubscription
  rw [getStreamingPoller_present registry st s (by simp [hfind])]
  simp only [hfind]
  cases hp : e.poller with
  | none => exact ⟨rfl, rfl⟩
  | some p =>
    simp only
    have hs := hdrained p hp
    simp [streamingProcess, hs]

theorem dataSetDrain_done (context : TimeDomainContext) (mode : AcquisitionMode) (s : String)
    (queue rest : List DataSet) (reply r : Acquisition)
    (out out1 : List (TimeDomainContext × Acquisition))
    (h : dataSetDrain context mode s queue reply out = .done (rest, out1) r) :
    rest = [] ∧ ∃ added, out1 = out ++ added ∧ added.length = queue.length ∧
      ∀ n ∈ added, n.1 = context := by
  induction queue generalizing reply out with
  | nil =>
    simp only [dataSetDrain, Step.done.injEq, Prod.mk.injEq] at h
    exact ⟨h.1.1.symm, [], by simp [h.1.2], rfl, by simp⟩
  | cons dataSet tail ih =>
    unfold dataSetDrain at h
    cases hp : dataSetProcessData mode s reply dataSet with
    | ok r1 =>
      simp only [hp] at h
      obtain ⟨h1, added, h2, h3, h4⟩ := ih r1 (out ++ [(context, r1)]) h
      refine ⟨h1, (context, r1) :: added, by simp [h2], by simp [h3], ?_⟩
      intro n hn
      rcases List.mem_cons.mp hn with hn | hn
      · rw [hn]
      · exact h4 n hn
    | thrown e => simp [hp] at h
    | undefined u => simp [hp] at h

theorem getDataSetPoller_spec (registry : DataSinkRegistry) (st : PassState)
    (context : TimeDomainContext) (mode : AcquisitionMode) (s : String)
    (hmode : mode ≠ .Continuous) :
    ∃ st2, getDataSetPoller registry st context mode s =
        (st2, some (dataSetKey context mode s)) ∧
      st2.notified = st.notified ∧
      (StdMap.find st2.dataSetPollers (dataSetKey context mode s)).isSome = true := by
  have h := getDataSetPoller_find_isSome registry st context mode s hmode
  refine ⟨(getDataSetPoller registry st context mode s).1, Prod.ext rfl h.2, ?_, h.1⟩
  cases hf : StdMap.find st.dataSetPollers (dataSetKey context mode s) with
  | some e => rw [getDataSetPoller_present registry st context mode s (by simp [hf])]
  | none =>
    unfold getDataSetPoller
    simp only [hf]
    cases mode <;> rfl

/-- A windowed handler that returns has emptied the queue of the tap of its key, and what it
notified it notified under its own context. -/
theorem handleDataSetSubscription_drained (registry : DataSinkRegistry) (st st1 : PassState)
    (context : TimeDomainContext) (mode : AcquisitionMode) (s : String) (fin : Bool)
    (hmode : mode ≠ .Continuous)
    (h : handleDataSetSubscription registry st context mode s = .done st1 fin) :
    (∃ e, StdMap.find st1.dataSetPollers (dataSetKey context mode s) = some e ∧
      ∀ p, e.poller = some p → p.dataSets = []) ∧
    ∃ added, st1.notified = st.notified ++ added ∧ ∀ n ∈ added, n.1 = context := by
  obtain ⟨st2, hg, hn, hsome⟩ := getDataSetPoller_spec registry st context mode s hmode
  unfold handleDataSetSubscription at h
  rw [hg] at h
  simp only at h
  cases hf : StdMap.find st2.dataSetPollers (dataSetKey context mode s) with
  | none => simp [hf] at hsome
  | some e =>
    simp only [hf] at h
    cases hp : e.poller with
    | none =>
      simp only [hp, Step.done.injEq] at h
      obtain ⟨rfl, -⟩ := h
      exact ⟨⟨e, hf, fun p h2 => by simp [hp] at h2⟩, [], by simp [hn], by simp⟩
    | some p =>
      simp only [hp] at h
      cases hd : dataSetDrain context (dataSetKey context mode s).mode s p.dataSets {}
          st2.notified with
      | done q r =>
        obtain ⟨queue, out⟩ := q
        simp only [hd, Step.done.injEq] at h
        obtain ⟨rfl, -⟩ := h
        obtain ⟨hq, added, hout, -, hctx⟩ := dataSetDrain_done _ _ _ _ _ _ _ _ _ hd
        refine ⟨⟨{ poller := some { p with dataSets := queue }, in_use := true }, ?_, ?_⟩,
          added, ?_, hctx⟩
        · simp only
          rw [StdMap.find_modify_self, hf]
          rfl
        · intro p2 hp2
          simp only [Option.some.injEq] at hp2
          rw [← hp2]
          exact hq
        · simp only [hout, hn]
      | thrown q e2 => simp [hd] at h
      | undefined u => simp [hd] at h

/-- The caches after a pass hold entries in use only. -/
theorem reconcilePass_ok_in_use (registry : DataSinkRegistry)
    (activeSubscriptions : List TimeDomainContext) (st st1 : PassState) (fin : Bool)
    (h : reconcilePass registry activeSubscriptions st = .ok (st1, fin)) :
    (∀ kv ∈ st1.streamingPollers, kv.2.in_use = true) ∧
    (∀ kv ∈ st1.dataSetPollers, kv.2.in_use = true) := by
  unfold reconcilePass at h
  cases hs : handleSubscriptions registry activeSubscriptions (resetInUse st) with
  | ok r =>
    obtain ⟨st2, fin2⟩ := r
    simp only [hs, Outcome.ok.injEq, Prod.mk.injEq] at h
    obtain ⟨rfl, -⟩ := h
    constructor
    · intro kv hkv
      simpa [eraseUnused, StdMap.eraseIf] using (List.mem_filter.mp hkv).2
    · intro kv hkv
      simpa [eraseUnused, StdMap.eraseIf] using (List.mem_filter.mp hkv).2
  | thrown e => simp [hs] at h
  | undefined u => simp [hs] at h

/-- Inversion of a reconciliation loop that ended: its last pass, the pass number `n - 1`,
produced the caches, and reported `pollersFinished` if the loop was a stopping one; a loop
that is not a stopping one ran one pass. -/
theorem reconcileLoop_ok_inv (stopScheduler : Bool) (env : Nat → PassEnv) (fuel k : Nat)
    (st st1 : PassState) (n : Nat)
    (h : reconcileLoop stopScheduler env fuel k st = some (.ok (st1, n))) :
    k < n ∧
    ∃ (before : PassState) (fin : Bool),
      reconcilePass (env (n - 1)).registry (env (n - 1)).activeSubscriptions
        ((env (n - 1)).arrive before) = .ok (st1, fin) ∧
      (stopScheduler = true → fin = true) ∧
      (stopScheduler = false → n = k + 1 ∧ before = st) := by
  induction fuel generalizing k st with
  | zero => simp [reconcileLoop] at h
  | succ fuel ih =>
    unfold reconcileLoop at h
    cases hp : reconcilePass (env k).registry (env k).activeSubscriptions
        ((env k).arrive st) with
    | ok r =>
      obtain ⟨st2, fin⟩ := r
      simp only [hp] at h
      by_cases hc : (stopScheduler && !fin) = true
      · rw [if_pos hc] at h
        obtain ⟨hlt, before, fin2, hpass, hstop, hnostop⟩ := ih (k + 1) st2 h
        refine ⟨by omega, before, fin2, hpass, hstop, fun hs => ?_⟩
        simp [hs] at hc
      · rw [if_neg hc] at h
        simp only [Option.some.injEq, Outcome.ok.injEq, Prod.mk.injEq] at h
        obtain ⟨rfl, rfl⟩ := h
        refine ⟨by omega, st, fin, by simpa using hp, fun hs => ?_, fun _ => ⟨rfl, rfl⟩⟩
        cases fin
        · simp [hs] at hc
        · rfl
    | thrown e => simp [hp] at h
    | undefined u => simp [hp] at h

set_option maxRecDepth 10000 in
/-- C20, as the claim states it, fails in both parts. With a stop requested and a continuous
subscription to `"X"` active, whose tap has reported `finished`, the loop is left after one
pass with that tap still cached and `in_use` set, and the teardown follows in the same
iteration. And without stop request, in an iteration in which no scheduler runs, no pass
runs: the subscription to `"X"`, for which a pass would ask the registry, leaves the request
log empty. -/
theorem reconcileLoop_exit_in_use_counterexample :
    reconcileLoop true (exampleSubscribedInput true).passes 1 0 exampleFinishedLocals.pollers =
      some (.ok ({ streamingPollers :=
        [(streamingKey "X", { in_use := true, poller := some { finished := true } })] }, 1)) ∧
    iteration 1 (exampleSubscribedInput true) {} exampleFinishedLocals =
      some (.ok ({}, { finished := true },
        [.sendRequestedStop "scheduler0", .joinScheduler])) ∧
    iteration 1 (exampleSubscribedInput false) {} {} = some (.ok ({}, {}, [])) ∧
    (reconcilePass exampleRegistry [{ channelNameFilter := "X" }] {}).bind
      (fun r => .ok r.1.requests) = .ok [.getStreamingPoller "X"] := by
  decide

/-- C20, amended: in an iteration that completes while a scheduler runs, the reconciliation
loop ran at least one pass and was left after a pass that, if the scheduler is being stopped,
returned `pollersFinished`; the entries in the caches at that point are all in use, the
unused ones having been erased by that pass. If the scheduler is not being stopped the loop
ran exactly one pass. In an iteration that starts without a scheduler no pass runs and the
caches stay as they were. -/
theorem iteration_reconcile_loop (fuel : Nat) (input : IterationInput) (self w : Worker)
    (l l1 : WorkerLocals) (events : List Event)
    (h : iteration fuel input self l = some (.ok (w, l1, events))) :
    (l.schedulerThread = none → l1.pollers = l.pollers) ∧
    (l.schedulerThread.isSome = true →
      ∃ (pollers : PassState) (n : Nat),
        reconcileLoop (input.stop_requested || self._pending_flow_graph.isSome) input.passes
          fuel 0 l.pollers = some (.ok (pollers, n)) ∧
        0 < n ∧
        (∃ (before : PassState) (fin : Bool),
          reconcilePass (input.passes (n - 1)).registry
            (input.passes (n - 1)).activeSubscriptions
            ((input.passes (n - 1)).arrive before) = .ok (pollers, fin) ∧
          ((input.stop_requested || self._pending_flow_graph.isSome) = true → fin = true)) ∧
        ((input.stop_requested || self._pending_flow_graph.isSome) = false → n = 1) ∧
        (∀ kv ∈ pollers.streamingPollers, kv.2.in_use = true) ∧
        (∀ kv ∈ pollers.dataSetPollers, kv.2.in_use = true)) := by
  obtain ⟨lm, sf, ev1, hw, -, hW, lt, ev2, hT, ev3, -, hcase⟩ :=
    iteration_ok_inv fuel input self w l l1 events h
  refine ⟨fun hnone => ?_, fun hs => ?_⟩
  · simp only [hnone, Option.isSome_none, Bool.false_and, Bool.false_eq_true, if_false,
      Option.some.injEq, Outcome.ok.injEq, Prod.mk.injEq, Bool.false_or] at hW hT
    obtain ⟨rfl, rfl, -⟩ := hW
    simp only [Bool.false_eq_true, if_false, Prod.mk.injEq] at hT
    obtain ⟨rfl, -⟩ := hT
    rcases hcase with ⟨-, h1, -⟩ | ⟨-, -, h1, -⟩ | ⟨-, g, -, hI⟩
    · rw [h1]
    · rw [h1]
    · obtain ⟨entries, -, hl1, -⟩ := installGraph_ok_inv _ _ _ _ _ _ hI
      rw [hl1]
  · simp only [hs, if_true, Bool.true_and] at hW
    obtain ⟨-, pollers, n, hloop, -, -, -⟩ := withScheduler_ok_inv _ _ _ _ _ _ _ _ hW
    obtain ⟨hlt, before, fin, hpass, hstop, hnostop⟩ :=
      reconcileLoop_ok_inv _ _ _ _ _ _ _ hloop
    obtain ⟨hu1, hu2⟩ := reconcilePass_ok_in_use _ _ _ _ _ hpass
    exact ⟨pollers, n, hloop, hlt, ⟨before, fin, hpass, hstop⟩,
      fun hns => (hnostop hns).1, hu1, hu2⟩

set_option maxRecDepth 10000 in
/-- C20, worked example of the amended claim: the stopping iteration of the counterexample,
whose loop is left after one pass that returned `pollersFinished`. -/
theorem iteration_reconcile_loop_witness :
    iteration 1 (exampleSubscribedInput true) {} exampleFinishedLocals =
      some (.ok ({}, { finished := true },
        [.sendRequestedStop "scheduler0", .joinScheduler])) ∧
    ∃ (pollers : PassState) (n : Nat),
      reconcileLoop ((exampleSubscribedInput true).stop_requested ||
        ({} : Worker)._pending_flow_graph.isSome) (exampleSubscribedInput true).passes
        1 0 exampleFinishedLocals.pollers = some (.ok (pollers, n)) ∧
      0 < n ∧
      (∃ (before : PassState) (fin : Bool),
        reconcilePass ((exampleSubscribedInput true).passes (n - 1)).registry
          ((exampleSubscribedInput true).passes (n - 1)).activeSubscriptions
          (((exampleSubscribedInput true).passes (n - 1)).arrive before) = .ok (pollers, fin) ∧
        (((exampleSubscribedInput true).stop_requested ||
          ({} : Worker)._pending_flow_graph.isSome) = true → fin = true)) ∧
      (((exampleSubscribedInput true).stop_requested ||
        ({} : Worker)._pending_flow_graph.isSome) = false → n = 1) ∧
      (∀ kv ∈ pollers.streamingPollers, kv.2.in_use = true) ∧
      (∀ kv ∈ pollers.dataSetPollers, kv.2.in_use = true) :=
  ⟨by decide,
    (iteration_reconcile_loop 1 (exampleSubscribedInput true) {} {} exampleFinishedLocals
      { finished := true } [.sendRequestedStop "scheduler0", .joinScheduler]
      (by decide)).2 rfl⟩


/-! ## Streaming replies: arrays and names -/

set_option maxRecDepth 10000 in
/-- C22, at the failing input: a list of timing tags whose first trigger-name entry holds an
integer. `findTriggerName` applies `std::get<std::string>` to that entry without a handler, so
it leaves by `std::bad_variant_access` instead of skipping the tag: the string `"T1"` of the
next tag is not returned, and neither is the empty string when no other tag follows. The
exception leaves `processData` and the handler of the subscription, and no reply is notified
for the dataset. A string entry is returned as claimed. -/
theorem findTriggerName_mistyped_throws :
    (∀ (tag : Tag) (rest : List Tag) (n : Int),
      tag.get gr.tag.TRIGGER_NAME = some (Pmt.integer n) →
      detail.findTriggerName (tag :: rest) = .thrown .bad_variant_access) ∧
    detail.findTriggerName [exampleMistypedTag, exampleNamedTag] =
      .thrown .bad_variant_access ∧
    detail.findTriggerName [exampleMistypedTag] = .thrown .bad_variant_access ∧
    detail.findTriggerName [exampleNamedTag] = .ok "T1" ∧
    dataSetProcessData .Triggered "A" {} exampleMistypedDataSet = .thrown .bad_variant_access ∧
    (handleDataSetSubscription exampleRegistry exampleMistypedCaches
      exampleTriggeredFilter .Triggered "A").exception? = some .bad_variant_access ∧
    (handleDataSetSubscription exampleRegistry exampleMistypedCaches
      exampleTriggeredFilter .Triggered "A").state?.map
        (fun st => (st.notified, st.requests)) = some ([], []) ∧
    (reconcilePass exampleRegistry [exampleTriggeredFilter] exampleMistypedCaches).bind
        (fun r => .ok (r.1.notified, r.1.requests)) = .ok ([], []) := by
  refine ⟨?_, by decide, by decide, by decide, by decide, by decide, by decide, by decide⟩
  intro tag rest n h
  simp only [detail.findTriggerName, h]


/-! ## Seeding of the signal entries -/

theorem not_both_prefixes (t : List Char) :
    ¬ ("gr::basic::DataSink".data.isPrefixOf t = true ∧
      "gr::basic::DataSetSink".data.isPrefixOf t = true) := by
  rintro ⟨h1, h2⟩
  rw [List.isPrefixOf_iff_prefix] at h1 h2
  have e1 := congrArg (List.take 17) (List.prefix_iff_eq_take.mp h1)
  have e2 := congrArg (List.take 17) (List.prefix_iff_eq_take.mp h2)
  rw [List.take_take] at e1 e2
  have l1 : min 17 "gr::basic::DataSink".data.length = 17 := by decide
  have l2 : min 17 "gr::basic::DataSetSink".data.length = 17 := by decide
  rw [l1] at e1
  rw [l2] at e2
  have h := e1.trans e2.symm
  revert h
  decide

theorem foldl_set_length {α : Type} (f : Nat → α) (k : Nat) (es : List α) :
    ((List.range k).foldl (fun es i => es.set i (f i)) es).length = es.length := by
  induction k with
  | zero => rfl
  | succ k ih => simp [List.range_succ, List.foldl_append, ih]

theorem foldl_set_getElem? {α : Type} (f : Nat → α) (k : Nat) (es : List α) (j : Nat) :
    ((List.range k).foldl (fun es i => es.set i (f i)) es)[j]? =
      if j < k ∧ j < es.length then some (f j) else es[j]? := by
  induction k with
  | zero => simp
  | succ k ih =>
    simp only [List.range_succ, List.foldl_append, List.foldl_cons, List.foldl_nil,
      List.getElem?_set, foldl_set_length, ih]
    by_cases hkj : k = j
    · subst hkj
      by_cases hl : k < es.length
      · simp [hl]
      · simp [hl]
        exact Nat.le_of_not_lt hl
    · by_cases hj : j < k
      · have : j < k + 1 := Nat.lt_succ_of_lt hj
        simp [hkj, hj, this]
      · have : ¬ j < k + 1 := by omega
        simp [hkj, hj, this]

theorem seedLoop_eq_zipWith (names units : List String) :
    (List.range (min names.length units.length)).foldl
      (fun es i => es.set i
        ({ name := names.getD i "", unit := units.getD i "", sample_rate := CFloat.one } :
          SignalEntry))
      (resize [] (min names.length units.length) SignalEntry.zero) =
    List.zipWith (fun name unit => { name := name, unit := unit, sample_rate := CFloat.one })
      names units := by
  apply List.ext_getElem?
  intro j
  rw [foldl_set_getElem?]
  simp only [resize, List.take_nil, List.nil_append, List.length_nil, Nat.sub_zero,
    List.length_replicate, and_self]
  by_cases hj : j < min names.length units.length
  · have h1 : j < names.length := by omega
    have h2 : j < units.length := by omega
    simp [hj, List.getElem?_zipWith, List.getElem?_eq_getElem, h1, h2, List.getD_eq_getElem]
  · rw [if_neg hj]
    have h3 : (List.zipWith (fun name unit =>
        ({ name := name, unit := unit, sample_rate := CFloat.one } : SignalEntry))
        names units).length ≤ j := by
      simp only [List.length_zipWith]
      omega
    rw [List.getElem?_eq_none h3, List.getElem?_eq_none]
    simp only [List.length_replicate]
    omega

theorem isDataSink_not_isDataSetSink (block : BlockModel) :
    ¬ (isDataSink block = true ∧ isDataSetSink block = true) :=
  not_both_prefixes block.typeName.data

theorem seedBlock_other (m : SignalEntries) (block : BlockModel) (h : isSink block = false) :
    seedBlock m block = .ok m := by
  simp only [isSink, Bool.or_eq_false_iff, isDataSink, isDataSetSink] at h
  simp [seedBlock, h.1, h.2]

theorem seedBlock_sink (m : SignalEntries) (block : BlockModel) (h : isSink block = true)
    (hfind : StdMap.find m block.uniqueName = none)
    (hlists : isDataSetSink block = true →
      (carriedStringVector block.settings "signal_names").isSome = true ∧
      (carriedStringVector block.settings "signal_units").isSome = true) :
    seedBlock m block =
      .ok (StdMap.insertSorted block.uniqueName (specEntriesOfBlock block) m) := by
  by_cases h1 : isDataSink block = true
  · have h1c := h1
    simp only [isDataSink] at h1c
    simp [seedBlock, specEntriesOfBlock, h1, h1c, hfind, StdMap.assign, resize,
      detail.getSetting_string, detail.getSetting_float, get_string_eq_carried,
      get_float_eq_carried]
  · have h2 : isDataSetSink block = true := by
      simp only [isSink, Bool.or_eq_true] at h
      exact h.resolve_left h1
    obtain ⟨hn, hu⟩ := hlists h2
    obtain ⟨names, hn⟩ := Option.isSome_iff_exists.mp hn
    obtain ⟨units, hu⟩ := Option.isSome_iff_exists.mp hu
    have hn2 : detail.getSetting_stringVector block "signal_names" = some names := by
      rw [detail.getSetting_stringVector, get_stringVector_eq_carried, hn]
    have hu2 : detail.getSetting_stringVector block "signal_units" = some units := by
      rw [detail.getSetting_stringVector, get_stringVector_eq_carried, hu]
    have h1c : ¬ ("gr::basic::DataSink".data.isPrefixOf block.typeName.data = true) := h1
    have h2c : "gr::basic::DataSetSink".data.isPrefixOf block.typeName.data = true := h2
    unfold seedBlock
    rw [if_neg h1c, if_pos h2c, hn2, hu2]
    simp only [optionalValue, hfind, Option.getD_none, StdMap.assign, Option.isSome_none,
      Bool.false_eq_true, if_false]
    show Outcome.ok _ = _
    rw [seedLoop_eq_zipWith]
    simp [specEntriesOfBlock, h1, h2, hn, hu]

theorem compare_string_lt (a b : String) : compare a b = Ordering.lt ↔ a < b :=
  compare_lt_iff_lt

theorem insertSorted_blocks (block : BlockModel) (g : BlockModel → List SignalEntry) :
    ∀ acc : List BlockModel,
      (acc.map BlockModel.uniqueName).Pairwise (· < ·) →
      block.uniqueName ∉ acc.map BlockModel.uniqueName →
      ∃ sorted : List BlockModel,
        sorted.Perm (block :: acc) ∧
        (sorted.map BlockModel.uniqueName).Pairwise (· < ·) ∧
        StdMap.insertSorted block.uniqueName (g block) (acc.map (fun b => (b.uniqueName, g b))) =
          sorted.map (fun b => (b.uniqueName, g b)) := by
  intro acc
  induction acc with
  | nil =>
    intro _ _
    exact ⟨[block], List.Perm.refl _, by simp, rfl⟩
  | cons c rest ih =>
    intro hs hn
    simp only [List.map_cons, List.pairwise_cons, List.mem_cons, not_or] at hs hn
    by_cases hlt : block.uniqueName < c.uniqueName
    · refine ⟨block :: c :: rest, List.Perm.refl _, ?_, ?_⟩
      · simp only [List.map_cons, List.pairwise_cons, List.mem_cons]
        refine ⟨?_, hs.1, hs.2⟩
        rintro x (rfl | hx)
        · exact hlt
        · exact lt_trans hlt (hs.1 x hx)
      · simp only [List.map_cons, StdMap.insertSorted, (compare_string_lt _ _).mpr hlt, if_true]
    · obtain ⟨sorted, hp, hsorted, heq⟩ := ih hs.2 hn.2
      have hcb : c.uniqueName < block.uniqueName :=
        lt_of_le_of_ne (not_lt.mp hlt) (fun e => hn.1 e.symm)
      refine ⟨c :: sorted, ?_, ?_, ?_⟩
      · exact (List.Perm.cons c hp).trans (List.Perm.swap block c rest)
      · simp only [List.map_cons, List.pairwise_cons]
        refine ⟨?_, hsorted⟩
        intro x hx
        have hx2 : x ∈ (block :: rest).map BlockModel.uniqueName :=
          (hp.map BlockModel.uniqueName).subset hx
        simp only [List.map_cons, List.mem_cons] at hx2
        rcases hx2 with rfl | hx2
        · exact hcb
        · exact hs.1 x hx2
      · have hnlt : ¬ compare block.uniqueName c.uniqueName = Ordering.lt :=
          fun h => hlt ((compare_string_lt _ _).mp h)
        simp only [List.map_cons, StdMap.insertSorted, hnlt, if_false, heq]

theorem seedSignalEntries_blocks :
    ∀ (blocks acc : List BlockModel),
      (acc.map BlockModel.uniqueName).Pairwise (· < ·) →
      ((blocks.filter isSink).map BlockModel.uniqueName).Nodup →
      (∀ b ∈ blocks.filter isSink, b.uniqueName ∉ acc.map BlockModel.uniqueName) →
      (∀ b ∈ blocks, isDataSetSink b = true →
        (carriedStringVector b.settings "signal_names").isSome = true ∧
        (carriedStringVector b.settings "signal_units").isSome = true) →
      ∃ sorted : List BlockModel,
        sorted.Perm (acc ++ blocks.filter isSink) ∧
        (sorted.map BlockModel.uniqueName).Pairwise (· < ·) ∧
        seedSignalEntries blocks (acc.map (fun b => (b.uniqueName, specEntriesOfBlock b))) =
          .ok (sorted.map (fun b => (b.uniqueName, specEntriesOfBlock b))) := by
  intro blocks
  induction blocks with
  | nil =>
    intro acc hs _ _ _
    exact ⟨acc, by simp, hs, rfl⟩
  | cons block rest ih =>
    intro acc hs hnodup hdisj hlists
    have hlists2 : ∀ b ∈ rest, isDataSetSink b = true →
        (carriedStringVector b.settings "signal_names").isSome = true ∧
        (carriedStringVector b.settings "signal_units").isSome = true :=
      fun b hb => hlists b (List.mem_cons_of_mem _ hb)
    by_cases hsink : isSink block = true
    · rw [List.filter_cons_of_pos hsink] at hnodup hdisj
      simp only [List.map_cons, List.nodup_cons] at hnodup
      have hfresh : block.uniqueName ∉ acc.map BlockModel.uniqueName :=
        hdisj block (List.mem_cons_self _ _)
      have hfind : StdMap.find (acc.map (fun b => (b.uniqueName, specEntriesOfBlock b)))
          block.uniqueName = none := by
        rw [StdMap.find_eq_none_iff]
        simpa [StdMap.keys, List.map_map, Function.comp_def] using hfresh
      obtain ⟨sorted1, hp1, hs1, heq1⟩ := insertSorted_blocks block specEntriesOfBlock acc hs hfresh
      have hdisj1 : ∀ b ∈ rest.filter isSink,
          b.uniqueName ∉ sorted1.map BlockModel.uniqueName := by
        intro b hb hmem
        have hmem2 : b.uniqueName ∈ (block :: acc).map BlockModel.uniqueName :=
          (hp1.map BlockModel.uniqueName).subset hmem
        simp only [List.map_cons, List.mem_cons] at hmem2
        rcases hmem2 with e | hmem2
        · exact hnodup.1 (e ▸ List.mem_map_of_mem _ hb)
        · exact hdisj b (List.mem_cons_of_mem _ hb) hmem2
      obtain ⟨sorted, hp, hsorted, heq⟩ := ih sorted1 hs1 hnodup.2 hdisj1 hlists2
      refine ⟨sorted, ?_, hsorted, ?_⟩
      · rw [List.filter_cons_of_pos hsink]
        exact hp.trans ((hp1.append_right _).trans List.perm_middle.symm)
      · simp only [seedSignalEntries,
          seedBlock_sink _ block hsink hfind (hlists block (List.mem_cons_self _ _)), heq1]
        exact heq
    · have hsink2 : isSink block = false := by simpa using hsink
      rw [List.filter_cons_of_neg hsink] at hnodup hdisj
      obtain ⟨sorted, hp, hsorted, heq⟩ := ih acc hs hnodup hdisj hlists2
      refine ⟨sorted, ?_, hsorted, ?_⟩
      · rw [List.filter_cons_of_neg hsink]
        exact hp
      · simp only [seedSignalEntries, seedBlock_other _ block hsink2]
        exact heq

/-- C23: seeding from a newly installed graph whose sinks have distinct unique names and whose
dataset sinks carry both lists. No type name starts with both prefixes. A block whose type
name starts with `"gr::basic::DataSink"` stands for exactly one entry, with the name and the
unit of its `signal_name` and `signal_unit` settings (the empty string without them) and the
`sample_rate` of its setting (1 without it); a block whose type name starts with
`"gr::basic::DataSetSink"`, with the names `N` and the units `U`, stands for
`min(|N|, |U|)` entries, entry `k` being `(N[k], U[k], 1)`; any other block stands for
nothing. The seeding completes, the seeded map holds these lists under the unique names of
the sinks, in ascending order of the names, and the list handed to the callback afterwards is
their concatenation in that order. -/
theorem seedSignalEntries_spec (blocks : List BlockModel)
    (hunique : ((blocks.filter isSink).map BlockModel.uniqueName).Nodup)
    (hlists : ∀ b ∈ blocks, isDataSetSink b = true →
      (carriedStringVector b.settings "signal_names").isSome = true ∧
      (carriedStringVector b.settings "signal_units").isSome = true) :
    (∀ b : BlockModel, ¬ (isDataSink b = true ∧ isDataSetSink b = true)) ∧
    (∀ b : BlockModel, isDataSink b = true →
      specEntriesOfBlock b =
        [{ name := (carriedString b.settings "signal_name").getD ""
           unit := (carriedString b.settings "signal_unit").getD ""
           sample_rate := (carriedFloat b.settings "sample_rate").getD CFloat.one }]) ∧
    (∀ (b : BlockModel) (N U : List String), isDataSetSink b = true →
      carriedStringVector b.settings "signal_names" = some N →
      carriedStringVector b.settings "signal_units" = some U →
      (specEntriesOfBlock b).length = min N.length U.length ∧
      ∀ k : Nat, k < min N.length U.length →
        (specEntriesOfBlock b)[k]? =
          some { name := N.getD k "", unit := U.getD k "", sample_rate := CFloat.one }) ∧
    (∀ b : BlockModel, isSink b = false → specEntriesOfBlock b = []) ∧
    ∃ sorted : List BlockModel,
      sorted.Perm (blocks.filter isSink) ∧
      (sorted.map BlockModel.uniqueName).Pairwise (· < ·) ∧
      seedSignalEntries blocks [] =
        .ok (sorted.map (fun b => (b.uniqueName, specEntriesOfBlock b))) ∧
      ∀ (self : Worker) (l : WorkerLocals) (newSchedulerName : String),
        l.signalEntriesBySink = [] → self._updateSignalEntriesCallback = true →
        ∃ (l1 : WorkerLocals) (events : List Event),
          installGraph self l { blocks := blocks } newSchedulerName = .ok (l1, events) ∧
          l1.signalEntriesBySink = sorted.map (fun b => (b.uniqueName, specEntriesOfBlock b)) ∧
          callbackLists events = [(sorted.map specEntriesOfBlock).flatten] := by
  refine ⟨isDataSink_not_isDataSetSink, ?_, ?_, ?_, ?_⟩
  · intro b h
    simp [specEntriesOfBlock, h]
  · intro b N U h hN hU
    have h1 : ¬ isDataSink b = true := fun h1 => isDataSink_not_isDataSetSink b ⟨h1, h⟩
    simp only [specEntriesOfBlock, h1, h, hN, hU, if_true, if_false, Option.getD_some,
      List.length_zipWith, true_and, Bool.false_eq_true]
    intro k hk
    have hk1 : k < N.length := by omega
    have hk2 : k < U.length := by omega
    simp [List.getElem?_zipWith, List.getElem?_eq_getElem, hk1, hk2, List.getD_eq_getElem]
  · intro b h
    simp only [isSink, Bool.or_eq_false_iff] at h
    simp [specEntriesOfBlock, h.1, h.2]
  · obtain ⟨sorted, hp, hsorted, heq⟩ :=
      seedSignalEntries_blocks blocks [] (by simp) hunique (by simp) hlists
    refine ⟨sorted, by simpa using hp, hsorted, heq, ?_⟩
    intro self l newSchedulerName hl hcb
    simp only [List.map_nil] at heq
    have hinst : installGraph self l { blocks := blocks } newSchedulerName =
        .ok ({ l with
            signalEntriesBySink := sorted.map (fun b => (b.uniqueName, specEntriesOfBlock b))
            toScheduler := true
            fromScheduler := true
            schedulerUniqueName := newSchedulerName
            schedulerThread := some { blocks := blocks } },
          invokeCallback self
              (flattened (sorted.map (fun b => (b.uniqueName, specEntriesOfBlock b)))) ++
            [.subscribeLifeCycleState newSchedulerName, .subscribeSetting,
              .startScheduler { blocks := blocks }]) := by
      simp only [installGraph, hl, heq]
    refine ⟨_, _, hinst, rfl, ?_⟩
    simp [invokeCallback, hcb, callbackLists, flattened, StdMap.values, List.map_map,
      Function.comp_def]

set_option maxRecDepth 10000 in
/-- C23, worked example: `exampleMixedGraph`. The sink `"sinkA"` comes last in the graph and
first in the seeded map and in the published list, with the sample rate 2 of its setting;
the dataset sink contributes one entry, the shorter of its two lists having one element; the
sink without settings contributes the entry of the defaults. -/
theorem seedSignalEntries_spec_witness :
    ((exampleMixedGraph.blocks.filter isSink).map BlockModel.uniqueName).Nodup ∧
    (∀ b ∈ exampleMixedGraph.blocks, isDataSetSink b = true →
      (carriedStringVector b.settings "signal_names").isSome = true ∧
      (carriedStringVector b.settings "signal_units").isSome = true) ∧
    seedSignalEntries exampleMixedGraph.blocks [] =
      .ok [("sinkA", [{ name := "x", unit := "A", sample_rate := ⟨0x40000000⟩ }]),
        ("sinkB", [{ name := "A", unit := "V", sample_rate := CFloat.one }]),
        ("sinkC", [{ name := "", unit := "", sample_rate := CFloat.one }])] ∧
    (installGraph { _updateSignalEntriesCallback := true } {} exampleMixedGraph
        "scheduler1").bind (fun r => .ok (callbackLists r.2)) =
      .ok [[{ name := "x", unit := "A", sample_rate := ⟨0x40000000⟩ },
        { name := "A", unit := "V", sample_rate := CFloat.one },
        { name := "", unit := "", sample_rate := CFloat.one }]] ∧
    ∃ sorted : List BlockModel,
      sorted.Perm (exampleMixedGraph.blocks.filter isSink) ∧
      (sorted.map BlockModel.uniqueName).Pairwise (· < ·) ∧
      seedSignalEntries exampleMixedGraph.blocks [] =
        .ok (sorted.map (fun b => (b.uniqueName, specEntriesOfBlock b))) ∧
      ∀ (self : Worker) (l : WorkerLocals) (newSchedulerName : String),
        l.signalEntriesBySink = [] → self._updateSignalEntriesCallback = true →
        ∃ (l1 : WorkerLocals) (events : List Event),
          installGraph self l { blocks := exampleMixedGraph.blocks } newSchedulerName =
            .ok (l1, events) ∧
          l1.signalEntriesBySink = sorted.map (fun b => (b.uniqueName, specEntriesOfBlock b)) ∧
          callbackLists events = [(sorted.map specEntriesOfBlock).flatten] :=
  ⟨by decide, by decide, by decide, by decide,
    (seedSignalEntries_spec exampleMixedGraph.blocks (by decide) (by decide)).2.2.2.2⟩


/-! ## Windowed replies: the guards of the per-signal lists -/

set_option maxRecDepth 10000 in
/-- C24, at the failing inputs. The guard of the range is `signal_ranges.size() >= signal_idx`,
so for a located index equal to the number of ranges (an empty `signal_ranges` with index 0 is
one such case) `signal_ranges[signal_idx]` is read past the end and the call is undefined
instead of leaving the range untouched. The timing events are only tested for emptiness, so a
non-empty `timing_events` with no element at the located index is read past its end as well.
Below the number of ranges the statement does what the claim says (a range of two elements
is taken over, any other leaves the reply untouched), and above it the reply is untouched. -/
theorem processRange_index_past_end (reply : Acquisition) (dataSet : DataSet) :
    processRange reply dataSet dataSet.signal_ranges.length = .undefined .vector_index ∧
    processRange reply exampleNoRangesDataSet 0 = .undefined .vector_index ∧
    dataSetProcessData .Triggered "A" {} exampleNoRangesDataSet = .undefined .vector_index ∧
    (dataSet.timing_events ≠ [] →
      processTriggerName reply dataSet dataSet.timing_events.length =
        .undefined .vector_index) ∧
    processTriggerName reply exampleShortEventsDataSet 1 = .undefined .vector_index ∧
    dataSetProcessData .Triggered "B" {} exampleShortEventsDataSet =
      .undefined .vector_index ∧
    (∀ (i : Nat) (range : List CDouble), dataSet.signal_ranges[i]? = some range →
      processRange reply dataSet i =
        .ok (if range.length = 2 then
            { reply with
              channelRangeMin := detail.doubleToFloat (range.getD 0 ⟨0⟩)
              channelRangeMax := detail.doubleToFloat (range.getD 1 ⟨0⟩) }
          else reply)) ∧
    (∀ i : Nat, dataSet.signal_ranges.length < i → processRange reply dataSet i = .ok reply) := by
  refine ⟨?_, ?_, by decide, ?_, ?_, by decide, ?_, ?_⟩
  · simp [processRange, vectorAt, Bind.bind, Outcome.bind]
  · simp [processRange, vectorAt, Bind.bind, Outcome.bind, exampleNoRangesDataSet]
  · intro hne
    simp [processTriggerName, hne, vectorAt, Bind.bind, Outcome.bind]
  · simp [processTriggerName, vectorAt, Bind.bind, Outcome.bind, exampleShortEventsDataSet,
      exampleDataSetAB]
  · intro i range hr
    have hi : i < dataSet.signal_ranges.length := by
      by_contra hc
      rw [List.getElem?_eq_none (Nat.le_of_not_lt hc)] at hr
      cases hr
    have hge : dataSet.signal_ranges.length ≥ i := Nat.le_of_lt hi
    by_cases h2 : range.length = 2
    · obtain ⟨a, b, rfl⟩ := List.length_eq_two.mp h2
      simp [processRange, hge, vectorAt, hr, Bind.bind, Outcome.bind, Pure.pure]
    · simp [processRange, hge, vectorAt, hr, Bind.bind, Outcome.bind, h2, Pure.pure]
  · intro i hi
    have hge : ¬ dataSet.signal_ranges.length ≥ i := by omega
    simp [processRange, hge, Pure.pure]


/-! ## Windowed replies: what a reply depends on -/

set_option maxRecDepth 10000 in
/-- C25, at the failing input: two queues drained in one call each, both ending in
`exampleDataSetA`, which has no timing events, the first one preceded by a dataset triggered
by `"T1"`, the second one by a dataset triggered by `"T2"`. The reply is one local of the
handler, written by `processData` for each dataset in turn, and `acqTriggerName` is assigned
only for a dataset with timing events: the last reply carries `"T1"` in the first call and
`"T2"` in the second. In `DataSet` mode a dataset without the requested signal leaves the
whole reply as the previous dataset set it: after `exampleDataSetA`, the reply notified for
`exampleDataSetC` holds the name `"A"` and the three samples of the former. -/
theorem handleDataSetSubscription_reply_carries_over :
    (handleDataSetSubscription exampleRegistry
      (exampleTriggeredCaches [exampleTimedDataSet "T1", exampleDataSetA])
      exampleTriggeredFilter .Triggered "A").state?.map
        (fun st => st.notified.map (fun r => r.2.acqTriggerName)) = some ["T1", "T1"] ∧
    (handleDataSetSubscription exampleRegistry
      (exampleTriggeredCaches [exampleTimedDataSet "T2", exampleDataSetA])
      exampleTriggeredFilter .Triggered "A").state?.map
        (fun st => st.notified.map (fun r => r.2.acqTriggerName)) = some ["T2", "T2"] ∧
    (handleDataSetSubscription exampleRegistry
      (exampleDataSetModeCaches [exampleDataSetA, exampleDataSetC])
      exampleDataSetFilter .DataSet "A").state?.map
        (fun st => st.notified.map (fun r => (r.2.channelName, r.2.channelValue))) =
      some [("A", [CFloat.zero, CFloat.one, ⟨0x40000000⟩]),
        ("A", [CFloat.zero, CFloat.one, ⟨0x40000000⟩])] ∧
    (∀ (reply : Acquisition) (dataSet : DataSet) (signal_idx : Nat),
      dataSet.timing_events = [] → processTriggerName reply dataSet signal_idx = .ok reply) ∧
    (∀ (reply : Acquisition) (dataSet : DataSet) (signalName : String),
      findIndex dataSet.signal_names signalName = none →
      dataSetProcessData .DataSet signalName reply dataSet = .ok reply) := by
  refine ⟨by decide, by decide, by decide, ?_, ?_⟩
  · intro reply dataSet signal_idx h
    simp [processTriggerName, h, Pure.pure]
  · intro reply dataSet signalName h
    simp [dataSetProcessData, h]

end Acq
